import Mathlib

/-!
The script execution engine of thumper.

A shallow embedding of `internal/thumperrunner/prepare.go` (with the data model of
`internal/config/types.go`) and the properties of the step compiler, the consistency
resolver and the response verifier.

Conventions of the embedding

* A Go pointer that may be `nil` is an `Option`.
* A Go `error` is a value of `GoError`; the `error` result of a function is an
  `Option GoError` (`none` is `nil`).
* A Go function that may `panic` returns a `Res`, whose third constructor is the panic.
* The closure stored in `executableStep.body` is defunctionalised: `Closure` holds the
  variables the closure captures (among them the request template it mutates), and
  `Closure.call` is the closure's code.
* The RPC client is external: it is a parameter, a state machine over an arbitrary
  state type.
-/

namespace Thumper

/-! ## Data model of the RPC API (types of `authzed/api/v1` used by the engine) -/

/-- The freshness token `v1.ZedToken`. -/
structure ZedToken where
  Token : String
  deriving DecidableEq, Repr

/-- The `oneof requirement` of `v1.Consistency`. -/
inductive Requirement where
  | MinimizeLatency (b : Bool)
  | AtLeastAsFresh (zt : ZedToken)
  | AtExactSnapshot (zt : ZedToken)
  | FullyConsistent (b : Bool)
  deriving DecidableEq, Repr

/-- The message `v1.Consistency`. -/
structure Consistency where
  Requirement : Requirement
  deriving DecidableEq, Repr

/-- Package variable `fullConsistency`. -/
def fullConsistency : Consistency :=
  { Requirement := Requirement.FullyConsistent true }

/-- Package variable `minimizeLatency`. -/
def minimizeLatency : Consistency :=
  { Requirement := Requirement.MinimizeLatency true }

/-- The enum `v1.CheckPermissionResponse_Permissionship`. -/
inductive Permissionship where
  | PERMISSIONSHIP_UNSPECIFIED
  | PERMISSIONSHIP_NO_PERMISSION
  | PERMISSIONSHIP_HAS_PERMISSION
  | PERMISSIONSHIP_CONDITIONAL_PERMISSION
  deriving DecidableEq, Repr

/-- The generated `String()` method of the permissionship enum, used by the `%s` verb. -/
def Permissionship.String : Permissionship → String
  | PERMISSIONSHIP_UNSPECIFIED => "PERMISSIONSHIP_UNSPECIFIED"
  | PERMISSIONSHIP_NO_PERMISSION => "PERMISSIONSHIP_NO_PERMISSION"
  | PERMISSIONSHIP_HAS_PERMISSION => "PERMISSIONSHIP_HAS_PERMISSION"
  | PERMISSIONSHIP_CONDITIONAL_PERMISSION => "PERMISSIONSHIP_CONDITIONAL_PERMISSION"

/-- The wrapper `config.ProtoStruct` around `structpb.Struct`. The engine only passes
the pointer on, so the field values are kept in their textual form. -/
structure ProtoStruct where
  Fields : List (String × String)
  deriving DecidableEq, Repr

/-- The message `v1.ObjectReference`. -/
structure ObjectReference where
  ObjectType : String
  ObjectId : String
  deriving DecidableEq, Repr

/-- The message `v1.SubjectReference`. -/
structure SubjectReference where
  Object : ObjectReference
  OptionalRelation : String
  deriving DecidableEq, Repr

/-- The message `v1.SubjectFilter_RelationFilter`. -/
structure RelationFilter where
  Relation : String
  deriving DecidableEq, Repr

/-- The message `v1.SubjectFilter`. -/
structure SubjectFilter where
  SubjectType : String
  OptionalSubjectId : String
  OptionalRelation : Option RelationFilter
  deriving DecidableEq, Repr

/-- The message `v1.RelationshipFilter`. -/
structure RelationshipFilter where
  ResourceType : String
  OptionalResourceId : String
  OptionalRelation : String
  OptionalSubjectFilter : Option SubjectFilter
  deriving DecidableEq, Repr

/-- The message `v1.ContextualizedCaveat`. -/
structure ContextualizedCaveat where
  CaveatName : String
  Context : Option ProtoStruct
  deriving DecidableEq, Repr

/-- The message `v1.Relationship`. -/
structure Relationship where
  Resource : ObjectReference
  Relation : String
  Subject : SubjectReference
  OptionalCaveat : Option ContextualizedCaveat
  deriving DecidableEq, Repr

/-- The enum `v1.RelationshipUpdate_Operation`. -/
inductive UpdateOperation where
  | OPERATION_UNSPECIFIED
  | OPERATION_CREATE
  | OPERATION_TOUCH
  | OPERATION_DELETE
  deriving DecidableEq, Repr

/-- The message `v1.RelationshipUpdate`. -/
structure RelationshipUpdate where
  Operation : UpdateOperation
  Relationship : Relationship
  deriving DecidableEq, Repr

/-- The message `v1.CheckPermissionRequest`. -/
structure CheckPermissionRequest where
  Consistency : Option Consistency
  Resource : ObjectReference
  Permission : String
  Subject : SubjectReference
  Context : Option ProtoStruct
  deriving DecidableEq, Repr

/-- The message `v1.CheckPermissionResponse`. -/
structure CheckPermissionResponse where
  CheckedAt : Option ZedToken
  Permissionship : Permissionship
  deriving DecidableEq, Repr

/-- The message `v1.ReadRelationshipsRequest`. -/
structure ReadRelationshipsRequest where
  Consistency : Option Consistency
  RelationshipFilter : RelationshipFilter
  deriving DecidableEq, Repr

/-- The message `v1.DeleteRelationshipsRequest`. -/
structure DeleteRelationshipsRequest where
  RelationshipFilter : RelationshipFilter
  deriving DecidableEq, Repr

/-- The message `v1.DeleteRelationshipsResponse`. -/
structure DeleteRelationshipsResponse where
  DeletedAt : Option ZedToken
  deriving DecidableEq, Repr

/-- The message `v1.ExpandPermissionTreeRequest`. -/
structure ExpandPermissionTreeRequest where
  Consistency : Option Consistency
  Resource : ObjectReference
  Permission : String
  deriving DecidableEq, Repr

/-- The message `v1.ExpandPermissionTreeResponse` (the tree itself is never read). -/
structure ExpandPermissionTreeResponse where
  ExpandedAt : Option ZedToken
  deriving DecidableEq, Repr

/-- The message `v1.LookupResourcesRequest`. -/
structure LookupResourcesRequest where
  Consistency : Option Consistency
  ResourceObjectType : String
  Permission : String
  Subject : SubjectReference
  Context : Option ProtoStruct
  deriving DecidableEq, Repr

/-- The message `v1.LookupSubjectsRequest`. -/
structure LookupSubjectsRequest where
  Consistency : Option Consistency
  Resource : ObjectReference
  Permission : String
  SubjectObjectType : String
  Context : Option ProtoStruct
  deriving DecidableEq, Repr

/-- The message `v1.WriteRelationshipsRequest`. -/
structure WriteRelationshipsRequest where
  Updates : List RelationshipUpdate
  deriving DecidableEq, Repr

/-- The message `v1.WriteRelationshipsResponse`. -/
structure WriteRelationshipsResponse where
  WrittenAt : Option ZedToken
  deriving DecidableEq, Repr

/-- The message `v1.WriteSchemaRequest`. -/
structure WriteSchemaRequest where
  Schema : String
  deriving DecidableEq, Repr

/-- The message `v1.CheckBulkPermissionsRequestItem`. -/
structure CheckBulkPermissionsRequestItem where
  Resource : ObjectReference
  Permission : String
  Subject : SubjectReference
  Context : Option ProtoStruct
  deriving DecidableEq, Repr

/-- The message `v1.CheckBulkPermissionsRequest`. -/
structure CheckBulkPermissionsRequest where
  Consistency : Option Consistency
  Items : List CheckBulkPermissionsRequestItem
  deriving DecidableEq, Repr

/-- The message `v1.CheckBulkPermissionsResponseItem`. -/
structure CheckBulkPermissionsResponseItem where
  Permissionship : Permissionship
  deriving DecidableEq, Repr

/-- The message `v1.CheckBulkPermissionsPair`, read through its generated getter
`GetItem()`: `Item` is the result item of the pair, and is `none` (a nil pointer) when
the pair's `oneof response` holds an error status instead of an item. -/
structure CheckBulkPermissionsPair where
  Item : Option CheckBulkPermissionsResponseItem
  deriving DecidableEq, Repr

/-- The getter `(*CheckBulkPermissionsPair).GetItem`. -/
def CheckBulkPermissionsPair.GetItem (pair : CheckBulkPermissionsPair) :
    Option CheckBulkPermissionsResponseItem :=
  pair.Item

/-- The message `v1.CheckBulkPermissionsResponse`. -/
structure CheckBulkPermissionsResponse where
  CheckedAt : Option ZedToken
  Pairs : List CheckBulkPermissionsPair
  deriving DecidableEq, Repr

/-! ## Errors -/

/-- Go `error` values the engine meets or builds.

* `EOF` is the sentinel `io.EOF`;
* `transport msg` is an error produced outside the engine (by the RPC client);
* `errorf msg` is `fmt.Errorf` with a format without `%w`, its text being `msg`;
* `wrap format inner` is `fmt.Errorf(format, inner)` for a format with one `%w`. -/
inductive GoError where
  | EOF
  | transport (msg : String)
  | errorf (msg : String)
  | wrap (format : String) (inner : GoError)
  deriving DecidableEq, Repr

/-- The method `Error()`: the text of an error. -/
def GoError.Error : GoError → String
  | EOF => "EOF"
  | transport msg => msg
  | errorf msg => msg
  | wrap format inner => format.replace "%w" inner.Error

/-- The test `errors.Is(err, io.EOF)`: `err` is `io.EOF` or wraps it. -/
def GoError.isEOF : GoError → Bool
  | EOF => true
  | transport _ => false
  | errorf _ => false
  | wrap _ inner => inner.isEOF

/-- The call `errors.Is(err, io.EOF)` on a possibly nil error. -/
def errorsIsEOF : Option GoError → Bool
  | none => false
  | some e => e.isEOF

/-- Outcome of a Go function returning `(α, error)` that may also panic. -/
inductive Res (α : Type) where
  | ok (a : α)
  | error (e : GoError)
  | panic (msg : String)

/-! ## The script model (`internal/config/types.go`) -/

/-- The struct `config.CaveatContext`. -/
structure CaveatContext where
  Name : String
  Context : Option ProtoStruct
  deriving DecidableEq, Repr

/-- The struct `config.Update`. -/
structure Update where
  Op : String
  Resource : String
  Subject : String
  Relation : String
  Caveat : Option CaveatContext
  deriving DecidableEq, Repr

/-- The struct `config.Check`. -/
structure Check where
  Resource : String
  Subject : String
  Permission : String
  Context : Option ProtoStruct
  ExpectNoPermission : Bool
  ExpectPermissionship : String
  deriving DecidableEq, Repr

/-- The struct `config.ScriptStep`. `NumExpected` is a Go `uint`. -/
structure ScriptStep where
  Op : String
  Resource : String
  Subject : String
  Permission : String
  ExpectNoPermission : Bool
  ExpectPermissionship : String
  NumExpected : Nat
  Updates : List Update
  Checks : List Check
  Schema : String
  Consistency : String
  Context : Option ProtoStruct
  deriving DecidableEq, Repr

/-- The struct `config.Script`. -/
structure Script where
  Name : String
  Weight : Nat
  Steps : List ScriptStep
  deriving DecidableEq, Repr

/-! ## Consistency resolver -/

/-- The type `consistencyFunc`. -/
abbrev consistencyFunc := Option ZedToken → Consistency

/-- The function literal of the `AtLeastAsFresh` case of `prepareConsistency`.
(The warning it logs when the token is nil is not modelled.) -/
def atLeastAsFreshFunc : consistencyFunc := fun zt =>
  match zt with
  | some zt => { Requirement := Requirement.AtLeastAsFresh zt }
  | none => fullConsistency

/-- The function literal of the `AtExactSnapshot` case of `prepareConsistency`.
(The warning it logs when the token is nil is not modelled.) -/
def atExactSnapshotFunc : consistencyFunc := fun zt =>
  match zt with
  | some zt => { Requirement := Requirement.AtExactSnapshot zt }
  | none => fullConsistency

/-- The function `prepareConsistency`: the resolver of the step and the label of its
mode, or an error for an unknown mode. -/
def prepareConsistency (step : ScriptStep) : Except GoError (consistencyFunc × String) :=
  if step.Consistency = "" ∨ step.Consistency = "MinimizeLatency" then
    Except.ok (fun _ => minimizeLatency, "MinimizeLatency")
  else if step.Consistency = "AtLeastAsFresh" then
    Except.ok (atLeastAsFreshFunc, step.Consistency)
  else if step.Consistency = "AtExactSnapshot" then
    Except.ok (atExactSnapshotFunc, step.Consistency)
  else if step.Consistency = "FullyConsistent" then
    Except.ok (fun _ => fullConsistency, step.Consistency)
  else
    Except.error (GoError.errorf ("unknown consistency type requested: " ++ step.Consistency))

/-! ## The reference grammar `type[:id][#relation]` -/

/-- Position-free search for the first occurrence of `sep`: the characters before it and
the characters after it, or `none` when `sep` does not occur. -/
def cutFirst (sep : Char) : List Char → Option (List Char × List Char)
  | [] => none
  | c :: cs =>
    if c = sep then some ([], cs)
    else
      match cutFirst sep cs with
      | none => none
      | some (before, after) => some (c :: before, after)

/-- The call `strings.SplitN(s, sep, 2)` for a one-character separator: `[s]` when `sep`
does not occur in `s`, else the part before the first `sep` and the part after it. -/
def stringsSplitN2 (s : String) (sep : Char) : List String :=
  match cutFirst sep s.data with
  | none => [s]
  | some (before, after) => [String.mk before, String.mk after]

/-- The function `parseComponents`. -/
def parseComponents (obj : String) : String × String × String :=
  let rootAndRelation := stringsSplitN2 obj '#'
  let relation := if rootAndRelation.length > 1 then rootAndRelation.getD 1 "" else ""
  let typeAndID := stringsSplitN2 (rootAndRelation.getD 0 "") ':'
  let objType := typeAndID.getD 0 ""
  let objID := if typeAndID.length > 1 then typeAndID.getD 1 "" else ""
  (objType, objID, relation)

/-- The function `parseObject`; it panics on a relation suffix. -/
def parseObject (obj : String) : Res ObjectReference :=
  match parseComponents obj with
  | (objType, objID, rel) =>
    if rel ≠ "" then
      Res.panic ("invalid object " ++ obj ++ ": unexpected relation: " ++ rel)
    else
      Res.ok { ObjectType := objType, ObjectId := objID }

/-- The function `parseSubject`; it panics on an empty type or an empty id. -/
def parseSubject (sub : String) : Res SubjectReference :=
  match parseComponents sub with
  | (objType, objID, rel) =>
    if objType = "" then
      Res.panic ("invalid subject " ++ sub ++ ": missing subject type")
    else if objID = "" then
      Res.panic ("invalid subject " ++ sub ++ ": missing object ID")
    else
      Res.ok { Object := { ObjectType := objType, ObjectId := objID }, OptionalRelation := rel }

/-- The function `parseRelationshipFilter`; it panics on a resource with a relation
suffix. -/
def parseRelationshipFilter (resource relation sub : String) : Res RelationshipFilter :=
  match parseComponents resource with
  | (resType, resID, resRel) =>
    if resRel ≠ "" then
      Res.panic ("invalid resource " ++ resource ++ ": unexpected relation: " ++ resRel)
    else
      let filter : RelationshipFilter :=
        { ResourceType := resType, OptionalResourceId := resID, OptionalRelation := relation,
          OptionalSubjectFilter := none }
      if sub ≠ "" then
        match parseComponents sub with
        | (subType, subID, subRel) =>
          let subjectFilter : SubjectFilter :=
            { SubjectType := subType, OptionalSubjectId := subID, OptionalRelation := none }
          if subRel ≠ "" then
            Res.ok { filter with
              OptionalSubjectFilter :=
                some { subjectFilter with OptionalRelation := some { Relation := subRel } } }
          else
            Res.ok { filter with OptionalSubjectFilter := some subjectFilter }
      else
        Res.ok filter

/-- The function `parseUpdates`. -/
def parseUpdates : List Update → Res (List RelationshipUpdate)
  | [] => Res.ok []
  | su :: rest =>
    let op : Option UpdateOperation :=
      if su.Op = "TOUCH" then some UpdateOperation.OPERATION_TOUCH
      else if su.Op = "CREATE" then some UpdateOperation.OPERATION_CREATE
      else if su.Op = "DELETE" then some UpdateOperation.OPERATION_DELETE
      else none
    match op with
    | none => Res.panic ("unknown WriteRelationships update operation: " ++ su.Op)
    | some op =>
      match parseObject su.Resource with
      | Res.error err => Res.error (GoError.wrap "error parsing update resource: %w" err)
      | Res.panic msg => Res.panic msg
      | Res.ok res =>
        match parseSubject su.Subject with
        | Res.error err => Res.error (GoError.wrap "error parsing update subject: %w" err)
        | Res.panic msg => Res.panic msg
        | Res.ok sub =>
          let caveat : Option ContextualizedCaveat :=
            match su.Caveat with
            | some c => some { CaveatName := c.Name, Context := c.Context }
            | none => none
          let update : RelationshipUpdate :=
            { Operation := op,
              Relationship :=
                { Resource := res, Relation := su.Relation, Subject := sub,
                  OptionalCaveat := caveat } }
          match parseUpdates rest with
          | Res.ok updates => Res.ok (update :: updates)
          | Res.error err => Res.error err
          | Res.panic msg => Res.panic msg

/-! ## Response verifier: streamed results -/

/-- A `grpc.ClientStream` as seen by its reader: the results of its successive `RecvMsg`
calls, `none` for a received message and `some err` for an error. A stream whose list is
used up is at its end: `RecvMsg` returns `io.EOF`. -/
abbrev ClientStream := List (Option GoError)

/-- Number of values of the Go type `uint` (64-bit targets). -/
def uintSize : Nat := 2 ^ 64

/-- The `for` loop of `verifyExpectedStreamCount`, started with the counter at
`received`: the error it returns from inside the loop, or the counter when the loop ends
on `io.EOF`; together with the stream as the loop leaves it. -/
def recvLoop (errMsg : String) : ClientStream → Nat → Except GoError Nat × ClientStream
  | [], received => (Except.ok received, [])
  | err :: stream, received =>
    if errorsIsEOF err then (Except.ok received, stream)
    else
      match err with
      | some err => (Except.error (GoError.wrap errMsg err), stream)
      | none => recvLoop errMsg stream ((received + 1) % uintSize)

/-- The function `verifyExpectedStreamCount` (the receive buffer `msg` is left out):
the returned error and the stream as the function leaves it. -/
def verifyExpectedStreamCount (stream : ClientStream) (numExpected : Nat) (errMsg : String) :
    Option GoError × ClientStream :=
  match recvLoop errMsg stream 0 with
  | (Except.error err, stream) => (some err, stream)
  | (Except.ok received, stream) =>
    if received ≠ numExpected then
      (some (GoError.wrap errMsg
        (GoError.errorf ("wrong number of stream objects received " ++ toString numExpected
          ++ " != " ++ toString received))), stream)
    else
      (none, stream)

/-! ## The RPC client -/

/-- The methods of `authzed.Client` the engine calls. The client is a state machine over
`σ`: a call maps the request and the state before the call to the outcome and the state
after it. (The context argument, which carries the deadline, is folded into the state.) -/
structure Client (σ : Type) where
  CheckPermission : CheckPermissionRequest → σ → Except GoError CheckPermissionResponse × σ
  ReadRelationships : ReadRelationshipsRequest → σ → Except GoError ClientStream × σ
  DeleteRelationships :
    DeleteRelationshipsRequest → σ → Except GoError DeleteRelationshipsResponse × σ
  ExpandPermissionTree :
    ExpandPermissionTreeRequest → σ → Except GoError ExpandPermissionTreeResponse × σ
  LookupResources : LookupResourcesRequest → σ → Except GoError ClientStream × σ
  LookupSubjects : LookupSubjectsRequest → σ → Except GoError ClientStream × σ
  WriteRelationships :
    WriteRelationshipsRequest → σ → Except GoError WriteRelationshipsResponse × σ
  WriteSchema : WriteSchemaRequest → σ → Except GoError Unit × σ
  CheckBulkPermissions :
    CheckBulkPermissionsRequest → σ → Except GoError CheckBulkPermissionsResponse × σ

/-- A request as it is handed to the client. -/
inductive Rpc where
  | CheckPermission (req : CheckPermissionRequest)
  | ReadRelationships (req : ReadRelationshipsRequest)
  | DeleteRelationships (req : DeleteRelationshipsRequest)
  | ExpandPermissionTree (req : ExpandPermissionTreeRequest)
  | LookupResources (req : LookupResourcesRequest)
  | LookupSubjects (req : LookupSubjectsRequest)
  | WriteRelationships (req : WriteRelationshipsRequest)
  | WriteSchema (req : WriteSchemaRequest)
  | CheckBulkPermissions (req : CheckBulkPermissionsRequest)
  deriving DecidableEq, Repr

/-- The consistency parameter a request carries (`none` for the requests without one). -/
def Rpc.Consistency : Rpc → Option Consistency
  | CheckPermission req => req.Consistency
  | ReadRelationships req => req.Consistency
  | DeleteRelationships _ => none
  | ExpandPermissionTree req => req.Consistency
  | LookupResources req => req.Consistency
  | LookupSubjects req => req.Consistency
  | WriteRelationships _ => none
  | WriteSchema _ => none
  | CheckBulkPermissions req => req.Consistency

/-! ## Step compiler -/

/-- The variable `expected` of the `CheckPermission` case of `prepareStep`. -/
def stepExpected (step : ScriptStep) : Permissionship :=
  let expected := Permissionship.PERMISSIONSHIP_HAS_PERMISSION
  let expected :=
    if step.ExpectNoPermission then Permissionship.PERMISSIONSHIP_NO_PERMISSION else expected
  if step.ExpectPermissionship = "HAS_PERMISSION" then
    Permissionship.PERMISSIONSHIP_HAS_PERMISSION
  else if step.ExpectPermissionship = "NO_PERMISSION" then
    Permissionship.PERMISSIONSHIP_NO_PERMISSION
  else if step.ExpectPermissionship = "CONDITIONAL_PERMISSION" then
    Permissionship.PERMISSIONSHIP_CONDITIONAL_PERMISSION
  else expected

/-- The variable `expected` of the loop of the `CheckBulkPermissions` body. -/
def checkExpected (check : Check) : Permissionship :=
  let expected := Permissionship.PERMISSIONSHIP_HAS_PERMISSION
  let expected :=
    if check.ExpectNoPermission then Permissionship.PERMISSIONSHIP_NO_PERMISSION else expected
  if check.ExpectPermissionship = "HAS_PERMISSION" then
    Permissionship.PERMISSIONSHIP_HAS_PERMISSION
  else if check.ExpectPermissionship = "NO_PERMISSION" then
    Permissionship.PERMISSIONSHIP_NO_PERMISSION
  else if check.ExpectPermissionship = "CONDITIONAL_PERMISSION" then
    Permissionship.PERMISSIONSHIP_CONDITIONAL_PERMISSION
  else expected

/-- What a call of a step body ends in: the returned pair `(*v1.ZedToken, error)`, or a
panic. -/
inductive Returned where
  | values (zt : Option ZedToken) (err : Option GoError)
  | panic (msg : String)
  deriving DecidableEq, Repr

/-- The error built by the `CheckPermission` body on a wrong permissionship. -/
def checkPermissionWrong (step : ScriptStep) (permissionship : Permissionship) : GoError :=
  GoError.errorf ("CheckPermission returned wrong permissionship: " ++ step.Resource ++ "#"
    ++ step.Permission ++ "@" ++ step.Subject ++ " => " ++ permissionship.String)

/-- The error built by the `CheckBulkPermissions` body on a wrong permissionship. -/
def checkBulkWrong (check : Check) (permissionship : Permissionship) : GoError :=
  GoError.errorf ("CheckBulkPermissions returned wrong permissionship: " ++ check.Resource
    ++ "#" ++ check.Permission ++ "@" ++ check.Subject ++ " => " ++ permissionship.String)

/-- The loop `for index, pair := range resp.Pairs` of the `CheckBulkPermissions` body,
from position `index` on: `some r` when the loop body returns or panics, `none` when the
loop runs to its end. `step.Checks[index]` panics out of range, and
`pair.GetItem().Permissionship` panics on a nil item. -/
def checkPairs (step : ScriptStep) : List CheckBulkPermissionsPair → Nat → Option Returned
  | [], _ => none
  | pair :: pairs, index =>
    match step.Checks[index]? with
    | none =>
      some (Returned.panic ("runtime error: index out of range [" ++ toString index
        ++ "] with length " ++ toString step.Checks.length))
    | some check =>
      let expected := checkExpected check
      match pair.GetItem with
      | none =>
        some (Returned.panic "runtime error: invalid memory address or nil pointer dereference")
      | some item =>
        let permissionship := item.Permissionship
        if permissionship ≠ expected then
          some (Returned.values none (some (checkBulkWrong check permissionship)))
        else checkPairs step pairs (index + 1)

/-- The loop of the `CheckBulkPermissions` case of `prepareStep` that builds `items`. -/
def prepareItems : List Check → Res (List CheckBulkPermissionsRequestItem)
  | [] => Res.ok []
  | check :: checks =>
    match parseObject check.Resource with
    | Res.error err => Res.error (GoError.wrap "error parsing CheckBulkPermissions resource: %w" err)
    | Res.panic msg => Res.panic msg
    | Res.ok resource =>
      match parseSubject check.Subject with
      | Res.error err =>
        Res.error (GoError.wrap "error parsing CheckBulkPermissions subject: %w" err)
      | Res.panic msg => Res.panic msg
      | Res.ok subject =>
        match prepareItems checks with
        | Res.error err => Res.error err
        | Res.panic msg => Res.panic msg
        | Res.ok items =>
          Res.ok ({ Resource := resource, Permission := check.Permission, Subject := subject,
                    Context := check.Context } :: items)

/-- The function literal assigned to `execStep.body`, as the variables it captures: one
constructor per case of `prepareStep`. `req` is the request template the closure holds a
pointer to. -/
inductive Closure where
  | CheckPermission (consistencyForZedToken : consistencyFunc) (req : CheckPermissionRequest)
      (expected : Permissionship) (step : ScriptStep)
  | ReadRelationships (consistencyForZedToken : consistencyFunc)
      (req : ReadRelationshipsRequest) (step : ScriptStep)
  | DeleteRelationships (req : DeleteRelationshipsRequest)
  | ExpandPermissionTree (consistencyForZedToken : consistencyFunc)
      (req : ExpandPermissionTreeRequest)
  | LookupResources (consistencyForZedToken : consistencyFunc) (req : LookupResourcesRequest)
      (step : ScriptStep)
  | LookupSubjects (consistencyForZedToken : consistencyFunc) (req : LookupSubjectsRequest)
      (step : ScriptStep)
  | WriteRelationships (req : WriteRelationshipsRequest)
  | WriteSchema (req : WriteSchemaRequest)
  | CheckBulkPermissions (consistencyForZedToken : consistencyFunc)
      (items : List CheckBulkPermissionsRequestItem) (step : ScriptStep)

/-- The struct `executableStep`. -/
structure executableStep where
  op : String
  consistency : String
  body : Closure

/-- One call of a step body: the closure after the call (its request template may have
been written to), the request handed to the client, the client state after the call, and
what the body returned. -/
structure CallResult (σ : Type) where
  body : Closure
  sent : Rpc
  state : σ
  ret : Returned

/-- The code of the function literals assigned to `execStep.body`: a call with the
client, the client state and the token `zt`. -/
def Closure.call {σ : Type} (client : Client σ) (body : Closure) (state : σ)
    (zt : Option ZedToken) : CallResult σ :=
  match body with
  | Closure.CheckPermission consistencyForZedToken req expected step =>
    let req := { req with Consistency := some (consistencyForZedToken zt) }
    let body := Closure.CheckPermission consistencyForZedToken req expected step
    match client.CheckPermission req state with
    | (Except.error err, state) =>
      { body := body, sent := Rpc.CheckPermission req, state := state,
        ret := Returned.values none (some err) }
    | (Except.ok resp, state) =>
      if resp.Permissionship ≠ expected then
        { body := body, sent := Rpc.CheckPermission req, state := state,
          ret := Returned.values none (some (checkPermissionWrong step resp.Permissionship)) }
      else
        { body := body, sent := Rpc.CheckPermission req, state := state,
          ret := Returned.values resp.CheckedAt none }
  | Closure.ReadRelationships consistencyForZedToken req step =>
    let req := { req with Consistency := some (consistencyForZedToken zt) }
    let body := Closure.ReadRelationships consistencyForZedToken req step
    match client.ReadRelationships req state with
    | (Except.error err, state) =>
      { body := body, sent := Rpc.ReadRelationships req, state := state,
        ret := Returned.values none (some err) }
    | (Except.ok resp, state) =>
      { body := body, sent := Rpc.ReadRelationships req, state := state,
        ret := Returned.values zt
          (verifyExpectedStreamCount resp step.NumExpected "ReadRelationships error: %w").1 }
  | Closure.DeleteRelationships req =>
    match client.DeleteRelationships req state with
    | (Except.error err, state) =>
      { body := body, sent := Rpc.DeleteRelationships req, state := state,
        ret := Returned.values none (some err) }
    | (Except.ok resp, state) =>
      { body := body, sent := Rpc.DeleteRelationships req, state := state,
        ret := Returned.values resp.DeletedAt none }
  | Closure.ExpandPermissionTree consistencyForZedToken req =>
    let req := { req with Consistency := some (consistencyForZedToken zt) }
    let body := Closure.ExpandPermissionTree consistencyForZedToken req
    match client.ExpandPermissionTree req state with
    | (Except.error err, state) =>
      { body := body, sent := Rpc.ExpandPermissionTree req, state := state,
        ret := Returned.values none (some err) }
    | (Except.ok resp, state) =>
      { body := body, sent := Rpc.ExpandPermissionTree req, state := state,
        ret := Returned.values resp.ExpandedAt none }
  | Closure.LookupResources consistencyForZedToken req step =>
    let req := { req with Consistency := some (consistencyForZedToken zt) }
    let body := Closure.LookupResources consistencyForZedToken req step
    match client.LookupResources req state with
    | (Except.error err, state) =>
      { body := body, sent := Rpc.LookupResources req, state := state,
        ret := Returned.values none (some err) }
    | (Except.ok resp, state) =>
      { body := body, sent := Rpc.LookupResources req, state := state,
        ret := Returned.values zt
          (verifyExpectedStreamCount resp step.NumExpected "LookupResources error: %w").1 }
  | Closure.LookupSubjects consistencyForZedToken req step =>
    let req := { req with Consistency := some (consistencyForZedToken zt) }
    let body := Closure.LookupSubjects consistencyForZedToken req step
    match client.LookupSubjects req state with
    | (Except.error err, state) =>
      { body := body, sent := Rpc.LookupSubjects req, state := state,
        ret := Returned.values none (some err) }
    | (Except.ok resp, state) =>
      { body := body, sent := Rpc.LookupSubjects req, state := state,
        ret := Returned.values zt
          (verifyExpectedStreamCount resp step.NumExpected "LookupResources error: %w").1 }
  | Closure.WriteRelationships req =>
    match client.WriteRelationships req state with
    | (Except.error err, state) =>
      { body := body, sent := Rpc.WriteRelationships req, state := state,
        ret := Returned.values none (some err) }
    | (Except.ok resp, state) =>
      { body := body, sent := Rpc.WriteRelationships req, state := state,
        ret := Returned.values resp.WrittenAt none }
  | Closure.WriteSchema req =>
    match client.WriteSchema req state with
    | (Except.error err, state) =>
      { body := body, sent := Rpc.WriteSchema req, state := state,
        ret := Returned.values none (some err) }
    | (Except.ok _, state) =>
      { body := body, sent := Rpc.WriteSchema req, state := state,
        ret := Returned.values zt none }
  | Closure.CheckBulkPermissions consistencyForZedToken items step =>
    let req : CheckBulkPermissionsRequest :=
      { Consistency := some (consistencyForZedToken zt), Items := items }
    match client.CheckBulkPermissions req state with
    | (Except.error err, state) =>
      { body := body, sent := Rpc.CheckBulkPermissions req, state := state,
        ret := Returned.values none (some err) }
    | (Except.ok resp, state) =>
      match checkPairs step resp.Pairs 0 with
      | some ret =>
        { body := body, sent := Rpc.CheckBulkPermissions req, state := state, ret := ret }
      | none =>
        { body := body, sent := Rpc.CheckBulkPermissions req, state := state,
          ret := Returned.values resp.CheckedAt none }

/-- The function `prepareStep`. -/
def prepareStep (step : ScriptStep) : Res executableStep :=
  match prepareConsistency step with
  | Except.error err => Res.error (GoError.wrap "error preparing consistency: %w" err)
  | Except.ok (consistencyForZedToken, consistencyDesc) =>
    let execStep : Closure → executableStep := fun body =>
      { op := step.Op, consistency := consistencyDesc, body := body }
    if step.Op = "CheckPermission" then
      match parseObject step.Resource with
      | Res.error err =>
        Res.error (GoError.wrap "error parsing CheckPermission resource: %w" err)
      | Res.panic msg => Res.panic msg
      | Res.ok res =>
        match parseSubject step.Subject with
        | Res.error err =>
          Res.error (GoError.wrap "error parsing CheckPermission subject: %w" err)
        | Res.panic msg => Res.panic msg
        | Res.ok sub =>
          let req : CheckPermissionRequest :=
            { Consistency := none, Resource := res, Subject := sub,
              Permission := step.Permission, Context := step.Context }
          Res.ok (execStep
            (Closure.CheckPermission consistencyForZedToken req (stepExpected step) step))
    else if step.Op = "ReadRelationships" then
      match parseRelationshipFilter step.Resource step.Permission step.Subject with
      | Res.error err =>
        Res.error (GoError.wrap "error parsing ReadRealtionships filter: %w" err)
      | Res.panic msg => Res.panic msg
      | Res.ok filter =>
        let req : ReadRelationshipsRequest := { Consistency := none, RelationshipFilter := filter }
        Res.ok (execStep (Closure.ReadRelationships consistencyForZedToken req step))
    else if step.Op = "DeleteRelationships" then
      match parseRelationshipFilter step.Resource step.Permission step.Subject with
      | Res.error err =>
        Res.error (GoError.wrap "error parsing DeleteRelationships filter: %w" err)
      | Res.panic msg => Res.panic msg
      | Res.ok filter =>
        let req : DeleteRelationshipsRequest := { RelationshipFilter := filter }
        Res.ok (execStep (Closure.DeleteRelationships req))
    else if step.Op = "ExpandPermissionTree" then
      match parseObject step.Resource with
      | Res.error err =>
        Res.error (GoError.wrap "error parsing ExpandPermissionTree resource: %w" err)
      | Res.panic msg => Res.panic msg
      | Res.ok res =>
        let req : ExpandPermissionTreeRequest :=
          { Consistency := none, Resource := res, Permission := step.Permission }
        Res.ok (execStep (Closure.ExpandPermissionTree consistencyForZedToken req))
    else if step.Op = "LookupResources" then
      match parseSubject step.Subject with
      | Res.error err =>
        Res.error (GoError.wrap "error parsing LookupResources subject: %w" err)
      | Res.panic msg => Res.panic msg
      | Res.ok sub =>
        let req : LookupResourcesRequest :=
          { Consistency := none, ResourceObjectType := step.Resource,
            Permission := step.Permission, Subject := sub, Context := step.Context }
        Res.ok (execStep (Closure.LookupResources consistencyForZedToken req step))
    else if step.Op = "LookupSubjects" then
      match parseObject step.Resource with
      | Res.error err =>
        Res.error (GoError.wrap "error parsing CheckPermission resource: %w" err)
      | Res.panic msg => Res.panic msg
      | Res.ok res =>
        let req : LookupSubjectsRequest :=
          { Consistency := none, SubjectObjectType := step.Subject, Resource := res,
            Permission := step.Permission, Context := step.Context }
        Res.ok (execStep (Closure.LookupSubjects consistencyForZedToken req step))
    else if step.Op = "WriteRelationships" then
      match parseUpdates step.Updates with
      | Res.error err =>
        Res.error (GoError.wrap "error parsing WriteRelationships updates: %w" err)
      | Res.panic msg => Res.panic msg
      | Res.ok updates =>
        let req : WriteRelationshipsRequest := { Updates := updates }
        Res.ok (execStep (Closure.WriteRelationships req))
    else if step.Op = "WriteSchema" then
      let req : WriteSchemaRequest := { Schema := step.Schema }
      Res.ok (execStep (Closure.WriteSchema req))
    else if step.Op = "CheckBulkPermissions" then
      match prepareItems step.Checks with
      | Res.error err => Res.error err
      | Res.panic msg => Res.panic msg
      | Res.ok items =>
        Res.ok (execStep (Closure.CheckBulkPermissions consistencyForZedToken items step))
    else
      Res.error (GoError.errorf ("unknown script step operation: " ++ step.Op))

/-- The struct `ExecutableScript`, as `Prepare` builds it. -/
structure ExecutableScript where
  name : String
  weight : Nat
  steps : List executableStep

/-- The inner loop of `Prepare` over the steps of one script: the compiled steps, or the
error (or panic) of the first step that does not compile. -/
def prepareSteps : List ScriptStep → Res (List executableStep)
  | [] => Res.ok []
  | rawStep :: rawSteps =>
    match prepareStep rawStep with
    | Res.error err => Res.error err
    | Res.panic msg => Res.panic msg
    | Res.ok step =>
      match prepareSteps rawSteps with
      | Res.error err => Res.error err
      | Res.panic msg => Res.panic msg
      | Res.ok steps => Res.ok (step :: steps)

/-- What a call of `Prepare` ends in: the returned pair `(prepared, err)`, or a panic. -/
inductive Prepared where
  | returned (prepared : List ExecutableScript) (err : Option GoError)
  | panic (msg : String)

/-- The outer loop of `Prepare`, entered with the scripts compiled so far in `prepared`. -/
def prepareLoop : List Script → List ExecutableScript → Prepared
  | [], prepared => Prepared.returned prepared none
  | input :: inputs, prepared =>
    match prepareSteps input.Steps with
    | Res.error err => Prepared.returned prepared (some err)
    | Res.panic msg => Prepared.panic msg
    | Res.ok steps =>
      prepareLoop inputs
        (prepared ++ [{ name := input.Name, weight := input.Weight, steps := steps }])

/-- The function `Prepare`. -/
def Prepare (inputs : List Script) : Prepared :=
  prepareLoop inputs []

/-! ## The commands (`internal/cmd`) -/

/-- The function `config.Load` as the commands use it: a call with a file name maps the
state of the loader (the files, the template environment and the random source, with the
script variables) to the decoded scripts and the flag `usedRandom`, or to an error. -/
abbrev Loader (ρ : Type) := String → ρ → Except GoError (List Script × Bool) × ρ

/-- The method `(*ExecutableScript).RunOnce` as `migrateCmdFunc` uses it: one run of a
script against the service in state `σ` ends in an error or in none. -/
abbrev Runner (σ : Type) := ExecutableScript → σ → Option GoError × σ

/-- The first loop of `migrateCmdFunc` (load and compile every file), entered with the
scripts compiled so far. -/
def migrateLoadLoop {ρ : Type} (Load : Loader ρ) :
    List String → ρ → List ExecutableScript → Res (List ExecutableScript) × ρ
  | [], loader, preparedScripts => (Res.ok preparedScripts, loader)
  | scriptFilename :: args, loader, preparedScripts =>
    match Load scriptFilename loader with
    | (Except.error err, loader) =>
      (Res.error (GoError.wrap "unable to load script file: %w" err), loader)
    | (Except.ok (fileScripts, _), loader) =>
      match Prepare fileScripts with
      | Prepared.panic msg => (Res.panic msg, loader)
      | Prepared.returned _ (some err) =>
        (Res.error (GoError.wrap "error preparing scripts for execution: %w" err), loader)
      | Prepared.returned preparedFileScripts none =>
        migrateLoadLoop Load args loader (preparedScripts ++ preparedFileScripts)

/-- The second loop of `migrateCmdFunc` (run the scripts in order): the error it returns,
the state of the service after it, and the scripts on which `RunOnce` was called, in the
order of the calls, each with the result of its run. -/
structure RunTrace (σ : Type) where
  err : Option GoError
  state : σ
  ran : List (ExecutableScript × Option GoError)

/-- The loop `for _, script := range preparedScripts` of `migrateCmdFunc`. -/
def migrateRunLoop {σ : Type} (RunOnce : Runner σ) : List ExecutableScript → σ → RunTrace σ
  | [], state => { err := none, state := state, ran := [] }
  | script :: scripts, state =>
    match RunOnce script state with
    | (some err, state) =>
      { err := some (GoError.wrap "error running migration scripts: %w" err), state := state,
        ran := [(script, some err)] }
    | (none, state) =>
      let rest := migrateRunLoop RunOnce scripts state
      { err := rest.err, state := rest.state, ran := (script, none) :: rest.ran }

/-- What a command function ends in: the returned error (`none` is `nil`), or a panic. -/
inductive CmdResult where
  | returned (err : Option GoError)
  | panic (msg : String)
  deriving DecidableEq, Repr

/-- One call of `migrateCmdFunc`: its result, the states of the loader and of the service
after it, and the runs it made. -/
structure MigrateOutcome (ρ σ : Type) where
  result : CmdResult
  loader : ρ
  state : σ
  ran : List (ExecutableScript × Option GoError)

/-- The function `migrateCmdFunc` (the construction of the client from the flags is left
to the `Runner`). -/
def migrateCmdFunc {ρ σ : Type} (Load : Loader ρ) (RunOnce : Runner σ) (args : List String)
    (loader : ρ) (state : σ) : MigrateOutcome ρ σ :=
  match migrateLoadLoop Load args loader [] with
  | (Res.error err, loader) =>
    { result := CmdResult.returned (some err), loader := loader, state := state, ran := [] }
  | (Res.panic msg, loader) =>
    { result := CmdResult.panic msg, loader := loader, state := state, ran := [] }
  | (Res.ok preparedScripts, loader) =>
    let run := migrateRunLoop RunOnce preparedScripts state
    { result := CmdResult.returned run.err, loader := loader, state := run.state,
      ran := run.ran }

/-- The constant `time.Second`, in nanoseconds (the unit of `time.Duration`). -/
def timeSecond : Int := 1000000000

/-- The statement `timeBetween := time.Duration(1) * time.Second / time.Duration(qps)` of
`runCmdFunc`: integer division truncates, and panics on a zero divisor (`none`). No
operand leaves the range of `int64`. -/
def timeBetween (qps : Int) : Option Int :=
  if qps = 0 then none else some (Int.tdiv (1 * timeSecond) qps)

/-- What the loop that kicks off the workers does, in order: the launch of the worker
`index`, and a call `time.Sleep(d)`. -/
inductive LaunchEvent where
  | launch (index : Nat)
  | sleep (d : Int)
  deriving DecidableEq, Repr

/-- The loop `for i := 0; i < qps; i++` that kicks off the workers, from `i` on with
`remaining` turns left. -/
def kickOffLoop (between : Int) : Nat → Nat → List LaunchEvent
  | 0, _ => []
  | remaining + 1, i =>
    LaunchEvent.launch i :: LaunchEvent.sleep between :: kickOffLoop between remaining (i + 1)

/-- The part of `runCmdFunc` that kicks off the workers: `none` when the division panics. -/
def kickOff (qps : Int) : Option (List LaunchEvent) :=
  match timeBetween qps with
  | none => none
  | some between => some (kickOffLoop between qps.toNat 0)

/-- The sum of the durations slept in a sequence of launch events. -/
def totalSleep : List LaunchEvent → Int
  | [] => 0
  | LaunchEvent.launch _ :: events => totalSleep events
  | LaunchEvent.sleep d :: events => d + totalSleep events

/-- An executable script as a worker holds it (a pointer), with the call of `Prepare` that
allocated it: the file that was compiled and the index of the worker in whose turn of the
loading loop the call was made. Two workers hold the same script exactly when they
hold it from the same call. -/
structure Assigned where
  script : ExecutableScript
  file : String
  worker : Nat

/-- The map `scriptCache` read at a key. -/
def cacheLookup : List (String × List Assigned) → String → Option (List Assigned)
  | [], _ => none
  | (key, cached) :: scriptCache, scriptFilename =>
    if key = scriptFilename then some cached else cacheLookup scriptCache scriptFilename

/-- The variables of the loading part of `runCmdFunc` that outlive a turn of its loops. -/
structure RunLoadState (ρ : Type) where
  loader : ρ
  scriptCache : List (String × List Assigned)
  scriptsForStats : List Script

/-- The inner loop `for _, scriptFilename := range args` of `runCmdFunc`, in the turn of
worker `i`, entered with the scripts assigned to the worker so far. -/
def runFileLoop {ρ : Type} (Load : Loader ρ) (i : Nat) :
    List String → RunLoadState ρ → List Assigned → Res (List Assigned) × RunLoadState ρ
  | [], st, preparedScripts => (Res.ok preparedScripts, st)
  | scriptFilename :: args, st, preparedScripts =>
    match cacheLookup st.scriptCache scriptFilename with
    | some cached => runFileLoop Load i args st (preparedScripts ++ cached)
    | none =>
      match Load scriptFilename st.loader with
      | (Except.error err, loader) =>
        (Res.error (GoError.wrap "unable to load script file: %w" err),
          { st with loader := loader })
      | (Except.ok (fileScripts, usedRandom), loader) =>
        let scriptsForStats :=
          if i = 0 then st.scriptsForStats ++ fileScripts else st.scriptsForStats
        match Prepare fileScripts with
        | Prepared.panic msg =>
          (Res.panic msg, { st with loader := loader, scriptsForStats := scriptsForStats })
        | Prepared.returned _ (some err) =>
          (Res.error (GoError.wrap "error preparing scripts for execution: %w" err),
            { st with loader := loader, scriptsForStats := scriptsForStats })
        | Prepared.returned preparedFileScripts none =>
          let allocated : List Assigned :=
            preparedFileScripts.map
              (fun script => { script := script, file := scriptFilename, worker := i })
          let scriptCache :=
            if usedRandom = false then (scriptFilename, allocated) :: st.scriptCache
            else st.scriptCache
          runFileLoop Load i args
            { loader := loader, scriptCache := scriptCache, scriptsForStats := scriptsForStats }
            (preparedScripts ++ allocated)

/-- The outer loop `for i := 0; i < qps; i++` of the loading part of `runCmdFunc`, from
`i` on with `remaining` turns left. -/
def runWorkerLoop {ρ : Type} (Load : Loader ρ) (args : List String) :
    Nat → Nat → RunLoadState ρ → List (List Assigned) →
      Res (List (List Assigned)) × RunLoadState ρ
  | 0, _, st, workerScripts => (Res.ok workerScripts, st)
  | remaining + 1, i, st, workerScripts =>
    match runFileLoop Load i args st [] with
    | (Res.error err, st) => (Res.error err, st)
    | (Res.panic msg, st) => (Res.panic msg, st)
    | (Res.ok preparedScripts, st) =>
      runWorkerLoop Load args remaining (i + 1) st (workerScripts ++ [preparedScripts])

/-- The loading part of `runCmdFunc` (lines 75 to 113): the scripts of every worker.
`make` panics on a negative capacity. -/
def loadWorkerScripts {ρ : Type} (Load : Loader ρ) (qps : Int) (args : List String)
    (loader : ρ) : Res (List (List Assigned)) × RunLoadState ρ :=
  if qps < 0 then
    (Res.panic "runtime error: makeslice: cap out of range",
      { loader := loader, scriptCache := [], scriptsForStats := [] })
  else
    runWorkerLoop Load args qps.toNat 0
      { loader := loader, scriptCache := [], scriptsForStats := [] } []

/-- Spec wording of the expected outcome of a check (section 4.1): an explicit
`expectPermissionship` of `HAS_PERMISSION`, `NO_PERMISSION` or `CONDITIONAL_PERMISSION`
takes precedence; otherwise the flag `expectNoPermission` selects no-permission, and the
default is has-permission. -/
def expectedOutcomeSpec (expectNoPermission : Bool) (expectPermissionship : String) :
    Permissionship :=
  if expectPermissionship = "HAS_PERMISSION" then Permissionship.PERMISSIONSHIP_HAS_PERMISSION
  else if expectPermissionship = "NO_PERMISSION" then
    Permissionship.PERMISSIONSHIP_NO_PERMISSION
  else if expectPermissionship = "CONDITIONAL_PERMISSION" then
    Permissionship.PERMISSIONSHIP_CONDITIONAL_PERMISSION
  else
    match expectNoPermission with
    | true => Permissionship.PERMISSIONSHIP_NO_PERMISSION
    | false => Permissionship.PERMISSIONSHIP_HAS_PERMISSION

/-- Whether `RecvMsg` on the stream returns end-of-stream: the stream is used up, or its
next result is an error that is or wraps `io.EOF`. -/
def atEndOfStream : ClientStream → Bool
  | [] => true
  | err :: _ => errorsIsEOF err

/-- Spec wording of the update tags (section 4.1): the operation a tag names, for the
tags `TOUCH`, `CREATE` and `DELETE`; any other tag names none. -/
def operationNamed (tag : String) : Option UpdateOperation :=
  if tag = "TOUCH" then some UpdateOperation.OPERATION_TOUCH
  else if tag = "CREATE" then some UpdateOperation.OPERATION_CREATE
  else if tag = "DELETE" then some UpdateOperation.OPERATION_DELETE
  else none

/-- Spec wording of a parsed update (section 4.1): `ru` has the operation named by the
tag of `su`, the parsed resource and subject of `su`, its relation string, and a caveat
with the declared name and context exactly when `su` declares one. -/
def updateParsed (su : Update) (ru : RelationshipUpdate) : Prop :=
  operationNamed su.Op = some ru.Operation
  ∧ parseObject su.Resource = Res.ok ru.Relationship.Resource
  ∧ parseSubject su.Subject = Res.ok ru.Relationship.Subject
  ∧ ru.Relationship.Relation = su.Relation
  ∧ ru.Relationship.OptionalCaveat
      = su.Caveat.map (fun c => { CaveatName := c.Name, Context := c.Context })

/-- An executable script is the compiled form of an input script: same name, same
weight, and the steps of the input compiled in order. -/
def compiledFrom (input : Script) (es : ExecutableScript) : Prop :=
  es.name = input.Name ∧ es.weight = input.Weight
  ∧ prepareSteps input.Steps = Res.ok es.steps

/-! ## Concrete inputs -/

/-- The step of the end-to-end scenario of the spec (section 8). -/
def scenarioStep : ScriptStep :=
  { Op := "CheckPermission", Resource := "doc:1", Subject := "user:alice", Permission := "view",
    ExpectNoPermission := false, ExpectPermissionship := "", NumExpected := 0, Updates := [],
    Checks := [], Schema := "", Consistency := "", Context := none }

/-- The result of compiling `scenarioStep`. -/
def scenarioCompiled : executableStep :=
  { op := "CheckPermission", consistency := "MinimizeLatency",
    body := Closure.CheckPermission (fun _ => minimizeLatency)
      { Consistency := none, Resource := { ObjectType := "doc", ObjectId := "1" },
        Permission := "view",
        Subject := { Object := { ObjectType := "user", ObjectId := "alice" },
                     OptionalRelation := "" },
        Context := none }
      Permissionship.PERMISSIONSHIP_HAS_PERMISSION scenarioStep }

/-- A stub client without state: every check answers `permissionship` at the token
`at1`, a bulk check answers `pairs`, every stream is `stream`, and every other call
answers with the token `at1`. -/
def stubClient (permissionship : Permissionship) (pairs : List CheckBulkPermissionsPair)
    (stream : ClientStream) : Client Unit :=
  { CheckPermission := fun _ s =>
      (Except.ok { CheckedAt := some { Token := "at1" }, Permissionship := permissionship }, s)
    ReadRelationships := fun _ s => (Except.ok stream, s)
    DeleteRelationships := fun _ s => (Except.ok { DeletedAt := some { Token := "at1" } }, s)
    ExpandPermissionTree := fun _ s => (Except.ok { ExpandedAt := some { Token := "at1" } }, s)
    LookupResources := fun _ s => (Except.ok stream, s)
    LookupSubjects := fun _ s => (Except.ok stream, s)
    WriteRelationships := fun _ s => (Except.ok { WrittenAt := some { Token := "at1" } }, s)
    WriteSchema := fun _ s => (Except.ok (), s)
    CheckBulkPermissions := fun _ s =>
      (Except.ok { CheckedAt := some { Token := "at1" }, Pairs := pairs }, s) }

/-- A result pair of a bulk check that carries an item with the permissionship `p`. -/
def itemPair (p : Permissionship) : CheckBulkPermissionsPair :=
  { Item := some { Permissionship := p } }

/-- The bulk step of the spec (section 8): a first check expecting has-permission and a
second check expecting no-permission. -/
def bulkStep : ScriptStep :=
  { Op := "CheckBulkPermissions", Resource := "", Subject := "", Permission := "",
    ExpectNoPermission := false, ExpectPermissionship := "", NumExpected := 0, Updates := [],
    Checks :=
      [{ Resource := "doc:1", Subject := "user:alice", Permission := "view", Context := none,
         ExpectNoPermission := false, ExpectPermissionship := "HAS_PERMISSION" },
       { Resource := "doc:2", Subject := "user:bob", Permission := "edit", Context := none,
         ExpectNoPermission := true, ExpectPermissionship := "" }],
    Schema := "", Consistency := "AtLeastAsFresh", Context := none }

/-- The result of compiling `bulkStep`. -/
def bulkCompiled : executableStep :=
  { op := "CheckBulkPermissions", consistency := "AtLeastAsFresh",
    body := Closure.CheckBulkPermissions atLeastAsFreshFunc
      [{ Resource := { ObjectType := "doc", ObjectId := "1" }, Permission := "view",
         Subject := { Object := { ObjectType := "user", ObjectId := "alice" },
                      OptionalRelation := "" },
         Context := none },
       { Resource := { ObjectType := "doc", ObjectId := "2" }, Permission := "edit",
         Subject := { Object := { ObjectType := "user", ObjectId := "bob" },
                      OptionalRelation := "" },
         Context := none }]
      bulkStep }

/-- The scenario step under `AtLeastAsFresh`. -/
def freshStep : ScriptStep :=
  { scenarioStep with Consistency := "AtLeastAsFresh" }

/-- The result of compiling `freshStep`. -/
def freshCompiled : executableStep :=
  { op := "CheckPermission", consistency := "AtLeastAsFresh",
    body := Closure.CheckPermission atLeastAsFreshFunc
      { Consistency := none, Resource := { ObjectType := "doc", ObjectId := "1" },
        Permission := "view",
        Subject := { Object := { ObjectType := "user", ObjectId := "alice" },
                     OptionalRelation := "" },
        Context := none }
      Permissionship.PERMISSIONSHIP_HAS_PERMISSION freshStep }

/-- A `ReadRelationships` step that declares `numExpected: 3`. -/
def readStep : ScriptStep :=
  { Op := "ReadRelationships", Resource := "doc:1", Subject := "user:alice",
    Permission := "viewer", ExpectNoPermission := false, ExpectPermissionship := "",
    NumExpected := 3, Updates := [], Checks := [], Schema := "", Consistency := "",
    Context := none }

/-- The result of compiling `readStep`. -/
def readCompiled : executableStep :=
  { op := "ReadRelationships", consistency := "MinimizeLatency",
    body := Closure.ReadRelationships (fun _ => minimizeLatency)
      { Consistency := none,
        RelationshipFilter :=
          { ResourceType := "doc", OptionalResourceId := "1", OptionalRelation := "viewer",
            OptionalSubjectFilter :=
              some { SubjectType := "user", OptionalSubjectId := "alice",
                     OptionalRelation := none } } }
      readStep }

/-- A step with the unknown operation of the spec (section 8). -/
def frobnicateStep : ScriptStep :=
  { scenarioStep with Op := "Frobnicate" }

/-- A step with an unknown consistency mode. -/
def staleStep : ScriptStep :=
  { scenarioStep with Consistency := "Stale" }

/-- A script of one step that compiles. -/
def goodScript : Script :=
  { Name := "s1", Weight := 1, Steps := [scenarioStep] }

/-- The result of compiling `goodScript`. -/
def goodCompiled : ExecutableScript :=
  { name := "s1", weight := 1, steps := [scenarioCompiled] }

/-- A script whose second step has an unknown operation. -/
def frobnicateScript : Script :=
  { Name := "s2", Weight := 3, Steps := [scenarioStep, frobnicateStep] }

/-- A `CheckPermission` step whose resource carries a relation suffix. -/
def suffixStep : ScriptStep :=
  { scenarioStep with Resource := "doc:1#view" }

/-- A `CheckPermission` step whose subject has no id. -/
def bareSubjectStep : ScriptStep :=
  { scenarioStep with Subject := "user" }

/-- A `WriteRelationships` step whose only update has the tag `UPSERT`. -/
def upsertStep : ScriptStep :=
  { scenarioStep with
    Op := "WriteRelationships"
    Updates := [{ Op := "UPSERT", Resource := "doc:1", Subject := "user:alice",
                  Relation := "viewer", Caveat := none }] }

/-- Two updates with well-formed resources and subjects, the second with a caveat. -/
def twoUpdates : List Update :=
  [{ Op := "TOUCH", Resource := "doc:1", Subject := "user:alice", Relation := "viewer",
     Caveat := none },
   { Op := "DELETE", Resource := "doc:2", Subject := "group:eng#member", Relation := "editor",
     Caveat := some { Name := "on_weekdays", Context := none } }]

/-- The scenario step expecting no-permission. -/
def expectNoStep : ScriptStep :=
  { scenarioStep with ExpectNoPermission := true }

/-- The result of compiling `expectNoStep`. -/
def expectNoCompiled : executableStep :=
  { op := "CheckPermission", consistency := "MinimizeLatency",
    body := Closure.CheckPermission (fun _ => minimizeLatency)
      { Consistency := none, Resource := { ObjectType := "doc", ObjectId := "1" },
        Permission := "view",
        Subject := { Object := { ObjectType := "user", ObjectId := "alice" },
                     OptionalRelation := "" },
        Context := none }
      Permissionship.PERMISSIONSHIP_NO_PERMISSION expectNoStep }

/-- The scenario step expecting conditional permission. -/
def expectConditionalStep : ScriptStep :=
  { scenarioStep with ExpectPermissionship := "CONDITIONAL_PERMISSION" }

/-- The result of compiling `expectConditionalStep`. -/
def expectConditionalCompiled : executableStep :=
  { op := "CheckPermission", consistency := "MinimizeLatency",
    body := Closure.CheckPermission (fun _ => minimizeLatency)
      { Consistency := none, Resource := { ObjectType := "doc", ObjectId := "1" },
        Permission := "view",
        Subject := { Object := { ObjectType := "user", ObjectId := "alice" },
                     OptionalRelation := "" },
        Context := none }
      Permissionship.PERMISSIONSHIP_CONDITIONAL_PERMISSION expectConditionalStep }

/-- The request template a closure holds, as the request it would hand to the client
unchanged (`none` for the bulk check, which holds no template but builds its request at
every call). -/
def Closure.template : Closure → Option Rpc
  | Closure.CheckPermission _ req _ _ => some (Rpc.CheckPermission req)
  | Closure.ReadRelationships _ req _ => some (Rpc.ReadRelationships req)
  | Closure.DeleteRelationships req => some (Rpc.DeleteRelationships req)
  | Closure.ExpandPermissionTree _ req => some (Rpc.ExpandPermissionTree req)
  | Closure.LookupResources _ req _ => some (Rpc.LookupResources req)
  | Closure.LookupSubjects _ req _ => some (Rpc.LookupSubjects req)
  | Closure.WriteRelationships req => some (Rpc.WriteRelationships req)
  | Closure.WriteSchema req => some (Rpc.WriteSchema req)
  | Closure.CheckBulkPermissions _ _ _ => none

/-- A loader without state that finds one script, `goodScript`, in every file, and uses
no random content. -/
def plainLoader : Loader Unit :=
  fun _ loader => (Except.ok ([goodScript], false), loader)

/-- A loader without state that finds `goodScript` in the file `a.yaml`, and the script
with an unknown operation in every other file. -/
def secondFileBadLoader : Loader Unit :=
  fun scriptFilename loader =>
    if scriptFilename = "a.yaml" then (Except.ok ([goodScript], false), loader)
    else (Except.ok ([frobnicateScript], false), loader)

/-- A runner whose state counts the runs made so far: the run number `failAt` (from 0)
fails, every other run succeeds. -/
def countingRunner (failAt : Nat) : Runner Nat :=
  fun _ runs =>
    if runs = failAt then (some (GoError.transport "unavailable"), runs + 1)
    else (none, runs + 1)

/-- The names of the scripts of a run trace, each with the result of its run. -/
def traceNames (ran : List (ExecutableScript × Option GoError)) :
    List (String × Option GoError) :=
  ran.map (fun entry => (entry.1.name, entry.2))

/-- Every entry of the cache is under the name of a file without random content, and
holds scripts allocated for that file in the turn of worker 0. -/
def cacheFromFirstWorker (usesRandom : String → Bool)
    (scriptCache : List (String × List Assigned)) : Prop :=
  ∀ f l, cacheLookup scriptCache f = some l →
    usesRandom f = false ∧ ∀ a ∈ l, a.file = f ∧ a.worker = 0

/-- The script `a`, held by worker `i`, is of a file of `args`, and was allocated in the
turn of worker `i` when its file has random content, and in the turn of worker 0 when it
has none. -/
def assignedFor (usesRandom : String → Bool) (args : List String) (i : Nat) (a : Assigned) :
    Prop :=
  a.file ∈ args ∧ (usesRandom a.file = true → a.worker = i)
    ∧ (usesRandom a.file = false → a.worker = 0)

/-- A result pair of a bulk check whose response is an error status and not an item. -/
def errorPair : CheckBulkPermissionsPair :=
  { Item := none }

/-- A script of two steps, a check followed by a read. -/
def twoStepScript : Script :=
  { Name := "s3", Weight := 2, Steps := [scenarioStep, readStep] }

/-- The result of compiling `twoStepScript`. -/
def twoStepCompiled : ExecutableScript :=
  { name := "s3", weight := 2, steps := [scenarioCompiled, readCompiled] }

/-- A loader without state that finds, in the file `a.yaml`, one script whose step has a
resource with a relation suffix, and in every other file the script with an unknown
operation. -/
def suffixThenBadLoader : Loader Unit :=
  fun scriptFilename loader =>
    if scriptFilename = "a.yaml" then
      (Except.ok ([{ Name := "m", Weight := 1, Steps := [suffixStep] }], false), loader)
    else (Except.ok ([frobnicateScript], false), loader)

/-! ## Properties: consistency resolver -/

/-- C1: under `AtLeastAsFresh` and under `AtExactSnapshot`, `prepareConsistency` succeeds
and the function it returns maps the nil token to the fully-consistent parameter and
every token `T` to the token-bound parameter of the same kind as the mode, holding `T`. -/
theorem prepareConsistency_token_modes (step : ScriptStep) :
    (∃ f, prepareConsistency { step with Consistency := "AtLeastAsFresh" }
          = Except.ok (f, "AtLeastAsFresh")
        ∧ f none = fullConsistency
        ∧ ∀ T : ZedToken, f (some T) = { Requirement := Requirement.AtLeastAsFresh T })
    ∧ (∃ f, prepareConsistency { step with Consistency := "AtExactSnapshot" }
          = Except.ok (f, "AtExactSnapshot")
        ∧ f none = fullConsistency
        ∧ ∀ T : ZedToken, f (some T) = { Requirement := Requirement.AtExactSnapshot T }) := by
  refine ⟨⟨atLeastAsFreshFunc, ?_, rfl, fun _ => rfl⟩, ⟨atExactSnapshotFunc, ?_, rfl, fun _ => rfl⟩⟩
  · simp [prepareConsistency]
  · simp [prepareConsistency]

/-- C2: with the mode `MinimizeLatency`, and with no mode given (the empty string),
`prepareConsistency` succeeds and its function returns the latency-optimized parameter
for every token, nil or not; with `FullyConsistent` it returns the fully-consistent
parameter for every token. -/
theorem prepareConsistency_token_free (step : ScriptStep) :
    (∃ f, prepareConsistency { step with Consistency := "" } = Except.ok (f, "MinimizeLatency")
        ∧ ∀ zt : Option ZedToken, f zt = minimizeLatency)
    ∧ (∃ f, prepareConsistency { step with Consistency := "MinimizeLatency" }
          = Except.ok (f, "MinimizeLatency")
        ∧ ∀ zt : Option ZedToken, f zt = minimizeLatency)
    ∧ (∃ f, prepareConsistency { step with Consistency := "FullyConsistent" }
          = Except.ok (f, "FullyConsistent")
        ∧ ∀ zt : Option ZedToken, f zt = fullConsistency) := by
  refine ⟨⟨fun _ => minimizeLatency, ?_, fun _ => rfl⟩, ⟨fun _ => minimizeLatency, ?_, fun _ => rfl⟩,
    ⟨fun _ => fullConsistency, ?_, fun _ => rfl⟩⟩
  · simp [prepareConsistency]
  · simp [prepareConsistency]
  · simp [prepareConsistency]

/-! ## Properties: the reference grammar -/

theorem cutFirst_of_not_mem (sep : Char) :
    ∀ l : List Char, sep ∉ l → cutFirst sep l = none
  | [], _ => rfl
  | c :: cs, h => by
    have hc : c ≠ sep := fun e => h (by simp [e])
    have hcs : sep ∉ cs := fun m => h (List.mem_cons_of_mem _ m)
    simp [cutFirst, hc, cutFirst_of_not_mem sep cs hcs]

theorem cutFirst_append (sep : Char) (b : List Char) :
    ∀ a : List Char, sep ∉ a → cutFirst sep (a ++ sep :: b) = some (a, b)
  | [], _ => by simp [cutFirst]
  | c :: cs, h => by
    have hc : c ≠ sep := fun e => h (by simp [e])
    have hcs : sep ∉ cs := fun m => h (List.mem_cons_of_mem _ m)
    simp [cutFirst, hc, cutFirst_append sep b cs hcs]

theorem stringsSplitN2_of_not_mem (s : String) (sep : Char) (h : sep ∉ s.data) :
    stringsSplitN2 s sep = [s] := by
  simp [stringsSplitN2, cutFirst_of_not_mem sep s.data h]

theorem stringsSplitN2_append (a b : String) (sep : Char) (h : sep ∉ a.data) :
    stringsSplitN2 (a ++ String.singleton sep ++ b) sep = [a, b] := by
  have hd : (a ++ String.singleton sep ++ b).data = a.data ++ sep :: b.data := by
    simp [String.data_append, String.singleton]
  simp [stringsSplitN2, hd, cutFirst_append sep b.data a.data h]

/-- C3: for a type `t` without `:` and `#`, an id `i` without `#` and any relation `r`,
`parseComponents` (a total function, with no error result) takes `t`, `t:i`, `t#r` and
`t:i#r` apart into exactly the triples `(t, "", "")`, `(t, i, "")`, `(t, "", r)` and
`(t, i, r)`. -/
theorem parseComponents_grammar (t i r : String)
    (ht : ':' ∉ t.data) (ht' : '#' ∉ t.data) (hi : '#' ∉ i.data) :
    parseComponents t = (t, "", "")
    ∧ parseComponents (t ++ ":" ++ i) = (t, i, "")
    ∧ parseComponents (t ++ "#" ++ r) = (t, "", r)
    ∧ parseComponents (t ++ ":" ++ i ++ "#" ++ r) = (t, i, r) := by
  have hti : '#' ∉ (t ++ ":" ++ i).data := by
    simp [String.data_append, ht', hi]
  have e1 : stringsSplitN2 (t ++ ":" ++ i) ':' = [t, i] := stringsSplitN2_append t i ':' ht
  have e2 : stringsSplitN2 (t ++ "#" ++ r) '#' = [t, r] := stringsSplitN2_append t r '#' ht'
  have e3 : stringsSplitN2 (t ++ ":" ++ i ++ "#" ++ r) '#' = [t ++ ":" ++ i, r] :=
    stringsSplitN2_append (t ++ ":" ++ i) r '#' hti
  refine ⟨?_, ?_, ?_, ?_⟩
  · simp [parseComponents, stringsSplitN2_of_not_mem t '#' ht',
      stringsSplitN2_of_not_mem t ':' ht]
  · simp [parseComponents, stringsSplitN2_of_not_mem _ '#' hti, e1]
  · simp [parseComponents, e2, stringsSplitN2_of_not_mem t ':' ht]
  · simp [parseComponents, e3, e1]

/-- Witness of C3 at `document`, `readme` and `viewer`. -/
theorem parseComponents_grammar_witness :
    parseComponents "document" = ("document", "", "")
    ∧ parseComponents ("document" ++ ":" ++ "readme") = ("document", "readme", "")
    ∧ parseComponents ("document" ++ "#" ++ "viewer") = ("document", "", "viewer")
    ∧ parseComponents ("document" ++ ":" ++ "readme" ++ "#" ++ "viewer")
        = ("document", "readme", "viewer") :=
  parseComponents_grammar "document" "readme" "viewer" (by decide) (by decide) (by decide)

/-! ## Properties: expected outcome -/

/-- C4: the expected permissionship computed for a `CheckPermission` step and the one
computed for a sub-check of a `CheckBulkPermissions` step are both the function of
`(expectNoPermission, expectPermissionship)` the spec words: the value named by
`expectPermissionship` when it is one of the three names, whatever the flag, and else
no-permission or has-permission as the flag is true or false. -/
theorem expected_permissionship (step : ScriptStep) (check : Check) :
    stepExpected step = expectedOutcomeSpec step.ExpectNoPermission step.ExpectPermissionship
    ∧ checkExpected check
        = expectedOutcomeSpec check.ExpectNoPermission check.ExpectPermissionship
    ∧ (∀ b : Bool,
        expectedOutcomeSpec b "HAS_PERMISSION" = Permissionship.PERMISSIONSHIP_HAS_PERMISSION
        ∧ expectedOutcomeSpec b "NO_PERMISSION" = Permissionship.PERMISSIONSHIP_NO_PERMISSION
        ∧ expectedOutcomeSpec b "CONDITIONAL_PERMISSION"
            = Permissionship.PERMISSIONSHIP_CONDITIONAL_PERMISSION)
    ∧ expectedOutcomeSpec true "" = Permissionship.PERMISSIONSHIP_NO_PERMISSION
    ∧ expectedOutcomeSpec false "" = Permissionship.PERMISSIONSHIP_HAS_PERMISSION := by
  refine ⟨?_, ?_, ?_, by decide, by decide⟩
  · unfold stepExpected expectedOutcomeSpec
    cases step.ExpectNoPermission <;> simp
  · unfold checkExpected expectedOutcomeSpec
    cases check.ExpectNoPermission <;> simp
  · intro b
    cases b <;> decide

/-! ## Properties: streamed results -/

theorem recvLoop_items (errMsg : String) (tail : ClientStream) :
    ∀ (k received : Nat), received < uintSize →
      recvLoop errMsg (List.replicate k none ++ tail) received
        = recvLoop errMsg tail ((received + k) % uintSize)
  | 0, received, h => by simp [Nat.mod_eq_of_lt h]
  | k + 1, received, _ => by
    have h1 : recvLoop errMsg (List.replicate (k + 1) none ++ tail) received
        = recvLoop errMsg (List.replicate k none ++ tail) ((received + 1) % uintSize) := by
      simp [List.replicate_succ, recvLoop, errorsIsEOF]
    have hlt : (received + 1) % uintSize < uintSize :=
      Nat.mod_lt _ (by unfold uintSize; positivity)
    rw [h1, recvLoop_items errMsg tail k _ hlt]
    congr 1
    rw [Nat.mod_add_mod, Nat.add_assoc, Nat.add_comm 1 k]

theorem recvLoop_atEnd (errMsg : String) (received : Nat) :
    ∀ tail : ClientStream, atEndOfStream tail = true →
      recvLoop errMsg tail received = (Except.ok received, tail.tail)
  | [], _ => rfl
  | err :: rest, h => by
    have h' : errorsIsEOF err = true := h
    simp [recvLoop, h']

theorem recvLoop_error (errMsg : String) (received : Nat) (e : GoError) (rest : ClientStream)
    (he : e.isEOF = false) :
    recvLoop errMsg (some e :: rest) received = (Except.error (GoError.wrap errMsg e), rest) := by
  simp [recvLoop, errorsIsEOF, he]

/-- C6: on a stream that yields `k` items and then end-of-stream (`k` within the range
of the `uint` counter), `verifyExpectedStreamCount` returns no error exactly when
`k = numExpected`; for every other `numExpected`, smaller or larger, it returns the error
wrapping the count mismatch, whose text holds both numbers. -/
theorem verifyExpectedStreamCount_exact (k numExpected : Nat) (errMsg : String)
    (tail : ClientStream) (hend : atEndOfStream tail = true) (hk : k < uintSize) :
    ((verifyExpectedStreamCount (List.replicate k none ++ tail) numExpected errMsg).1 = none
        ↔ k = numExpected)
    ∧ (k ≠ numExpected →
        (verifyExpectedStreamCount (List.replicate k none ++ tail) numExpected errMsg).1
          = some (GoError.wrap errMsg
              (GoError.errorf ("wrong number of stream objects received "
                ++ toString numExpected ++ " != " ++ toString k)))) := by
  have h0 : (0 : Nat) < uintSize := by unfold uintSize; positivity
  have hloop : recvLoop errMsg (List.replicate k none ++ tail) 0
      = (Except.ok k, tail.tail) := by
    rw [recvLoop_items errMsg tail k 0 h0, Nat.zero_add, Nat.mod_eq_of_lt hk,
      recvLoop_atEnd errMsg k tail hend]
  by_cases hkn : k = numExpected
  · subst hkn
    simp [verifyExpectedStreamCount, hloop]
  · simp [verifyExpectedStreamCount, hloop, hkn]

/-- Witness of C6: three items against `numExpected = 3`. -/
theorem verifyExpectedStreamCount_exact_witness :
    ((verifyExpectedStreamCount (List.replicate 3 none ++ []) 3 "ReadRelationships error: %w").1
        = none ↔ 3 = 3)
    ∧ (3 ≠ 3 →
        (verifyExpectedStreamCount (List.replicate 3 none ++ []) 3
            "ReadRelationships error: %w").1
          = some (GoError.wrap "ReadRelationships error: %w"
              (GoError.errorf ("wrong number of stream objects received "
                ++ toString 3 ++ " != " ++ toString 3)))) :=
  verifyExpectedStreamCount_exact 3 3 "ReadRelationships error: %w" [] rfl
    (by unfold uintSize; norm_num)

/-- C7: on a stream that yields `k` items and then an error `e` that is not end-of-stream,
`verifyExpectedStreamCount` returns the error wrapping `e` for every `numExpected`
(so never the count mismatch), and leaves the rest of the stream unread. -/
theorem verifyExpectedStreamCount_transport (k numExpected : Nat) (errMsg : String)
    (e : GoError) (rest : ClientStream) (he : e.isEOF = false) :
    verifyExpectedStreamCount (List.replicate k none ++ some e :: rest) numExpected errMsg
      = (some (GoError.wrap errMsg e), rest) := by
  have h0 : (0 : Nat) < uintSize := by unfold uintSize; positivity
  simp [verifyExpectedStreamCount, recvLoop_items errMsg (some e :: rest) k 0 h0,
    recvLoop_error errMsg _ e rest he]

/-- Witness of C7: two items, then a transport error, against `numExpected = 2`. -/
theorem verifyExpectedStreamCount_transport_witness :
    verifyExpectedStreamCount
        (List.replicate 2 none ++ some (GoError.transport "unavailable") :: [none, none]) 2
        "LookupResources error: %w"
      = (some (GoError.wrap "LookupResources error: %w" (GoError.transport "unavailable")),
          [none, none]) :=
  verifyExpectedStreamCount_transport 2 2 "LookupResources error: %w"
    (GoError.transport "unavailable") [none, none] rfl

/-! ## Properties: compiled steps -/

theorem prepareStep_ok_body (step : ScriptStep) (es : executableStep)
    (h : prepareStep step = Res.ok es) :
    ∃ f d, prepareConsistency step = Except.ok (f, d) ∧ es.op = step.Op ∧ es.consistency = d
      ∧ ((step.Op = "CheckPermission"
            ∧ ∃ req, es.body = Closure.CheckPermission f req (stepExpected step) step)
        ∨ (step.Op = "ReadRelationships" ∧ ∃ req, es.body = Closure.ReadRelationships f req step)
        ∨ (step.Op = "DeleteRelationships" ∧ ∃ req, es.body = Closure.DeleteRelationships req)
        ∨ (step.Op = "ExpandPermissionTree"
            ∧ ∃ req, es.body = Closure.ExpandPermissionTree f req)
        ∨ (step.Op = "LookupResources" ∧ ∃ req, es.body = Closure.LookupResources f req step)
        ∨ (step.Op = "LookupSubjects" ∧ ∃ req, es.body = Closure.LookupSubjects f req step)
        ∨ (step.Op = "WriteRelationships" ∧ ∃ req, es.body = Closure.WriteRelationships req)
        ∨ (step.Op = "WriteSchema" ∧ ∃ req, es.body = Closure.WriteSchema req)
        ∨ (step.Op = "CheckBulkPermissions"
            ∧ ∃ items, es.body = Closure.CheckBulkPermissions f items step)) := by
  unfold prepareStep at h
  split at h
  · cases h
  · rename_i f d hpc
    refine ⟨f, d, hpc, ?_⟩
    dsimp only at h
    split_ifs at h with h1 h2 h3 h4 h5 h6 h7 h8 h9
    all_goals first
      | (cases h <;> simp_all)
      | (split at h <;> first
          | (cases h <;> simp_all)
          | (split at h <;> first
              | (cases h; simp_all)
              | cases h))

/-- C5: a compiled `CheckPermission` step, called with any token on any client, hands
one request to the client; when the client returns an error the step returns that error
and no token; otherwise it returns the response's `CheckedAt` and no error when the
response's permissionship is the expected one of the step, and no token and the
wrong-permissionship error when it is not. -/
theorem checkPermission_step (step : ScriptStep) (es : executableStep)
    (hop : step.Op = "CheckPermission") (hprep : prepareStep step = Res.ok es)
    {σ : Type} (client : Client σ) (state : σ) (zt : Option ZedToken) :
    ∃ req, (es.body.call client state zt).sent = Rpc.CheckPermission req
      ∧ (es.body.call client state zt).ret
          = match (client.CheckPermission req state).1 with
            | Except.error err => Returned.values none (some err)
            | Except.ok resp =>
              if resp.Permissionship = stepExpected step then
                Returned.values resp.CheckedAt none
              else
                Returned.values none (some (checkPermissionWrong step resp.Permissionship)) := by
  obtain ⟨f, d, -, -, -, hbody⟩ := prepareStep_ok_body step es hprep
  simp only [hop, String.reduceEq, false_and, or_false, false_or, true_and] at hbody
  obtain ⟨req, hreq⟩ := hbody
  refine ⟨{ req with Consistency := some (f zt) }, ?_, ?_⟩
  · rw [hreq]
    unfold Closure.call
    dsimp only
    split
    · rfl
    · split <;> rfl
  · rw [hreq]
    unfold Closure.call
    dsimp only
    split
    · rename_i h; simp [h]
    · rename_i resp _ h
      by_cases hp : resp.Permissionship = stepExpected step
      · simp [h, hp]
      · simp [h, hp]

/-- Witness of C5: the end-to-end scenario of the spec, on a client stubbed to answer
has-permission. -/
theorem checkPermission_step_witness :
    scenarioStep.Op = "CheckPermission" ∧ prepareStep scenarioStep = Res.ok scenarioCompiled
    ∧ ∃ req,
        (scenarioCompiled.body.call
            (stubClient Permissionship.PERMISSIONSHIP_HAS_PERMISSION [] []) () none).sent
          = Rpc.CheckPermission req
        ∧ (scenarioCompiled.body.call
            (stubClient Permissionship.PERMISSIONSHIP_HAS_PERMISSION [] []) () none).ret
          = match ((stubClient Permissionship.PERMISSIONSHIP_HAS_PERMISSION [] []).CheckPermission
                req ()).1 with
            | Except.error err => Returned.values none (some err)
            | Except.ok resp =>
              if resp.Permissionship = stepExpected scenarioStep then
                Returned.values resp.CheckedAt none
              else
                Returned.values none
                  (some (checkPermissionWrong scenarioStep resp.Permissionship)) :=
  ⟨rfl, rfl, checkPermission_step scenarioStep scenarioCompiled rfl rfl
    (stubClient Permissionship.PERMISSIONSHIP_HAS_PERMISSION [] []) () none⟩

theorem checkPairs_scan (step : ScriptStep) :
    ∀ (ps : List Permissionship) (idx : Nat), idx + ps.length ≤ step.Checks.length →
      (checkPairs step (ps.map itemPair) idx = none
        ∧ ∀ j p check, ps[j]? = some p → step.Checks[idx + j]? = some check →
            p = checkExpected check)
      ∨ (∃ j p check, ps[j]? = some p ∧ step.Checks[idx + j]? = some check
          ∧ p ≠ checkExpected check
          ∧ (∀ j' q c, j' < j → ps[j']? = some q → step.Checks[idx + j']? = some c →
              q = checkExpected c)
          ∧ checkPairs step (ps.map itemPair) idx
              = some (Returned.values none (some (checkBulkWrong check p))))
  | [], idx, _ => by
    left
    simp [checkPairs]
  | p :: ps, idx, hlen => by
    have hidx : idx < step.Checks.length := by
      simp only [List.length_cons] at hlen
      omega
    have hcheck : step.Checks[idx]? = some step.Checks[idx] := List.getElem?_eq_getElem hidx
    have hlen' : idx + 1 + ps.length ≤ step.Checks.length := by
      simp only [List.length_cons] at hlen
      omega
    by_cases hp : p = checkExpected step.Checks[idx]
    · have hstep : checkPairs step ((p :: ps).map itemPair) idx
          = checkPairs step (ps.map itemPair) (idx + 1) := by
        simp [checkPairs, hcheck, itemPair, CheckBulkPermissionsPair.GetItem, hp]
      rcases checkPairs_scan step ps (idx + 1) hlen' with ⟨hnone, hall⟩ | ⟨j, q, c, hq, hc, hne, hmin, hres⟩
      · left
        refine ⟨by rw [hstep, hnone], ?_⟩
        intro j q c hq hc
        cases j with
        | zero =>
          simp only [List.getElem?_cons_zero, Option.some.injEq] at hq
          rw [Nat.add_zero, hcheck, Option.some.injEq] at hc
          rw [← hq, ← hc]
          exact hp
        | succ j =>
          simp only [List.getElem?_cons_succ] at hq
          have hc' : step.Checks[idx + 1 + j]? = some c := by
            rw [show idx + 1 + j = idx + (j + 1) by omega]
            exact hc
          exact hall j q c hq hc'
      · right
        refine ⟨j + 1, q, c, by simpa using hq, ?_, hne, ?_, by rw [hstep, hres]⟩
        · rw [show idx + (j + 1) = idx + 1 + j by omega]
          exact hc
        · intro j' q' c' hj' hq' hc'
          cases j' with
          | zero =>
            simp only [List.getElem?_cons_zero, Option.some.injEq] at hq'
            rw [Nat.add_zero, hcheck, Option.some.injEq] at hc'
            rw [← hq', ← hc']
            exact hp
          | succ j' =>
            simp only [List.getElem?_cons_succ] at hq'
            have hc'' : step.Checks[idx + 1 + j']? = some c' := by
              rw [show idx + 1 + j' = idx + (j' + 1) by omega]
              exact hc'
            exact hmin j' q' c' (by omega) hq' hc''
    · right
      refine ⟨0, p, step.Checks[idx], by simp, by rw [Nat.add_zero]; exact hcheck, hp, ?_, ?_⟩
      · intro j' _ _ hj'
        omega
      · simp [checkPairs, hcheck, itemPair, CheckBulkPermissionsPair.GetItem, hp]

theorem call_CheckPermission {σ : Type} (client : Client σ) (f : consistencyFunc)
    (req : CheckPermissionRequest) (expected : Permissionship) (step : ScriptStep) (state : σ)
    (zt : Option ZedToken) :
    (Closure.call client (Closure.CheckPermission f req expected step) state zt)
      = { body := Closure.CheckPermission f { req with Consistency := some (f zt) } expected step,
          sent := Rpc.CheckPermission { req with Consistency := some (f zt) },
          state := (client.CheckPermission { req with Consistency := some (f zt) } state).2,
          ret :=
            match (client.CheckPermission { req with Consistency := some (f zt) } state).1 with
            | Except.error err => Returned.values none (some err)
            | Except.ok resp =>
              if resp.Permissionship = expected then Returned.values resp.CheckedAt none
              else Returned.values none (some (checkPermissionWrong step resp.Permissionship)) } := by
  unfold Closure.call
  dsimp only
  split
  · rename_i h; simp [h]
  · rename_i resp _ h
    by_cases hp : resp.Permissionship = expected
    · simp [h, hp]
    · simp [h, hp]

theorem call_ReadRelationships {σ : Type} (client : Client σ) (f : consistencyFunc)
    (req : ReadRelationshipsRequest) (step : ScriptStep) (state : σ) (zt : Option ZedToken) :
    (Closure.call client (Closure.ReadRelationships f req step) state zt)
      = { body := Closure.ReadRelationships f { req with Consistency := some (f zt) } step,
          sent := Rpc.ReadRelationships { req with Consistency := some (f zt) },
          state := (client.ReadRelationships { req with Consistency := some (f zt) } state).2,
          ret :=
            match (client.ReadRelationships { req with Consistency := some (f zt) } state).1 with
            | Except.error err => Returned.values none (some err)
            | Except.ok resp =>
              Returned.values zt
                (verifyExpectedStreamCount resp step.NumExpected
                  "ReadRelationships error: %w").1 } := by
  unfold Closure.call
  dsimp only
  split <;> (rename_i h; simp [h])

theorem call_DeleteRelationships {σ : Type} (client : Client σ)
    (req : DeleteRelationshipsRequest) (state : σ) (zt : Option ZedToken) :
    (Closure.call client (Closure.DeleteRelationships req) state zt)
      = { body := Closure.DeleteRelationships req,
          sent := Rpc.DeleteRelationships req,
          state := (client.DeleteRelationships req state).2,
          ret :=
            match (client.DeleteRelationships req state).1 with
            | Except.error err => Returned.values none (some err)
            | Except.ok resp => Returned.values resp.DeletedAt none } := by
  unfold Closure.call
  dsimp only
  split <;> (rename_i h; simp [h])

theorem call_ExpandPermissionTree {σ : Type} (client : Client σ) (f : consistencyFunc)
    (req : ExpandPermissionTreeRequest) (state : σ) (zt : Option ZedToken) :
    (Closure.call client (Closure.ExpandPermissionTree f req) state zt)
      = { body := Closure.ExpandPermissionTree f { req with Consistency := some (f zt) },
          sent := Rpc.ExpandPermissionTree { req with Consistency := some (f zt) },
          state := (client.ExpandPermissionTree { req with Consistency := some (f zt) } state).2,
          ret :=
            match (client.ExpandPermissionTree { req with Consistency := some (f zt) } state).1 with
            | Except.error err => Returned.values none (some err)
            | Except.ok resp => Returned.values resp.ExpandedAt none } := by
  unfold Closure.call
  dsimp only
  split <;> (rename_i h; simp [h])

theorem call_LookupResources {σ : Type} (client : Client σ) (f : consistencyFunc)
    (req : LookupResourcesRequest) (step : ScriptStep) (state : σ) (zt : Option ZedToken) :
    (Closure.call client (Closure.LookupResources f req step) state zt)
      = { body := Closure.LookupResources f { req with Consistency := some (f zt) } step,
          sent := Rpc.LookupResources { req with Consistency := some (f zt) },
          state := (client.LookupResources { req with Consistency := some (f zt) } state).2,
          ret :=
            match (client.LookupResources { req with Consistency := some (f zt) } state).1 with
            | Except.error err => Returned.values none (some err)
            | Except.ok resp =>
              Returned.values zt
                (verifyExpectedStreamCount resp step.NumExpected
                  "LookupResources error: %w").1 } := by
  unfold Closure.call
  dsimp only
  split <;> (rename_i h; simp [h])

theorem call_LookupSubjects {σ : Type} (client : Client σ) (f : consistencyFunc)
    (req : LookupSubjectsRequest) (step : ScriptStep) (state : σ) (zt : Option ZedToken) :
    (Closure.call client (Closure.LookupSubjects f req step) state zt)
      = { body := Closure.LookupSubjects f { req with Consistency := some (f zt) } step,
          sent := Rpc.LookupSubjects { req with Consistency := some (f zt) },
          state := (client.LookupSubjects { req with Consistency := some (f zt) } state).2,
          ret :=
            match (client.LookupSubjects { req with Consistency := some (f zt) } state).1 with
            | Except.error err => Returned.values none (some err)
            | Except.ok resp =>
              Returned.values zt
                (verifyExpectedStreamCount resp step.NumExpected
                  "LookupResources error: %w").1 } := by
  unfold Closure.call
  dsimp only
  split <;> (rename_i h; simp [h])

theorem call_WriteRelationships {σ : Type} (client : Client σ)
    (req : WriteRelationshipsRequest) (state : σ) (zt : Option ZedToken) :
    (Closure.call client (Closure.WriteRelationships req) state zt)
      = { body := Closure.WriteRelationships req,
          sent := Rpc.WriteRelationships req,
          state := (client.WriteRelationships req state).2,
          ret :=
            match (client.WriteRelationships req state).1 with
            | Except.error err => Returned.values none (some err)
            | Except.ok resp => Returned.values resp.WrittenAt none } := by
  unfold Closure.call
  dsimp only
  split <;> (rename_i h; simp [h])

theorem call_WriteSchema {σ : Type} (client : Client σ)
    (req : WriteSchemaRequest) (state : σ) (zt : Option ZedToken) :
    (Closure.call client (Closure.WriteSchema req) state zt)
      = { body := Closure.WriteSchema req,
          sent := Rpc.WriteSchema req,
          state := (client.WriteSchema req state).2,
          ret :=
            match (client.WriteSchema req state).1 with
            | Except.error err => Returned.values none (some err)
            | Except.ok _ => Returned.values zt none } := by
  unfold Closure.call
  dsimp only
  split <;> (rename_i h; simp [h])

theorem call_CheckBulkPermissions {σ : Type} (client : Client σ) (f : consistencyFunc)
    (items : List CheckBulkPermissionsRequestItem) (step : ScriptStep) (state : σ)
    (zt : Option ZedToken) :
    (Closure.call client (Closure.CheckBulkPermissions f items step) state zt)
      = { body := Closure.CheckBulkPermissions f items step,
          sent := Rpc.CheckBulkPermissions { Consistency := some (f zt), Items := items },
          state :=
            (client.CheckBulkPermissions { Consistency := some (f zt), Items := items } state).2,
          ret :=
            match (client.CheckBulkPermissions
                    { Consistency := some (f zt), Items := items } state).1 with
            | Except.error err => Returned.values none (some err)
            | Except.ok resp =>
              match checkPairs step resp.Pairs 0 with
              | some ret => ret
              | none => Returned.values resp.CheckedAt none } := by
  unfold Closure.call
  dsimp only
  split
  · rename_i h; simp [h]
  · rename_i resp _ h
    cases hc : checkPairs step resp.Pairs 0 <;> simp [h, hc]

/-- Positional verification of a bulk response whose pairs all carry an item: a compiled
`CheckBulkPermissions` step whose client call succeeds with at most as many such pairs as
the step has checks returns an error exactly when some pair has a permissionship other
than the expected one of the check at its position; the error is then the
wrong-permissionship error of the check at the least such position; when every pair
matches, the step returns the response's `CheckedAt` and no error. -/
theorem checkBulkPermissions_step (step : ScriptStep) (es : executableStep)
    (hop : step.Op = "CheckBulkPermissions") (hprep : prepareStep step = Res.ok es)
    {σ : Type} (client : Client σ) (state : σ) (zt : Option ZedToken)
    (req : CheckBulkPermissionsRequest) (resp : CheckBulkPermissionsResponse)
    (ps : List Permissionship)
    (hsent : (es.body.call client state zt).sent = Rpc.CheckBulkPermissions req)
    (hresp : (client.CheckBulkPermissions req state).1 = Except.ok resp)
    (hpairs : resp.Pairs = ps.map itemPair)
    (hlen : ps.length ≤ step.Checks.length) :
    ((∃ e, (es.body.call client state zt).ret = Returned.values none (some e))
        ↔ ∃ (i : Nat) (p : Permissionship) (check : Check), ps[i]? = some p ∧ step.Checks[i]? = some check
            ∧ p ≠ checkExpected check)
    ∧ (∀ (i : Nat) (p : Permissionship) (check : Check),
        ps[i]? = some p → step.Checks[i]? = some check → p ≠ checkExpected check →
        (∀ (j : Nat) (q : Permissionship) (c : Check), j < i → ps[j]? = some q → step.Checks[j]? = some c → q = checkExpected c) →
        (es.body.call client state zt).ret
          = Returned.values none (some (checkBulkWrong check p)))
    ∧ ((∀ (i : Nat) (p : Permissionship) (check : Check),
        ps[i]? = some p → step.Checks[i]? = some check → p = checkExpected check) →
        (es.body.call client state zt).ret = Returned.values resp.CheckedAt none) := by
  obtain ⟨f, d, -, -, -, hbody⟩ := prepareStep_ok_body step es hprep
  simp only [hop, String.reduceEq, false_and, or_false, false_or, true_and] at hbody
  obtain ⟨items, hitems⟩ := hbody
  rw [hitems, call_CheckBulkPermissions] at hsent ⊢
  simp only [Rpc.CheckBulkPermissions.injEq] at hsent
  rw [hsent, hresp]
  dsimp only
  rw [hpairs]
  have hscan := checkPairs_scan step ps 0 (by omega)
  simp only [Nat.zero_add] at hscan
  rcases hscan with ⟨hnone, hall⟩ | ⟨j, q, c, hq, hc, hne, hmin, hres⟩
  · rw [hnone]
    refine ⟨⟨?_, ?_⟩, ?_, fun _ => rfl⟩
    · rintro ⟨e, he⟩
      simp at he
    · rintro ⟨i, p, check, hp, hcheck, hne⟩
      exact absurd (hall i p check hp hcheck) hne
    · intro i p check hp hcheck hne _
      exact absurd (hall i p check hp hcheck) hne
  · rw [hres]
    refine ⟨⟨fun _ => ⟨j, q, c, hq, hc, hne⟩, fun _ => ⟨_, rfl⟩⟩, ?_, ?_⟩
    · intro i p check hp hcheck hne' hmin'
      have hij : i = j := by
        rcases Nat.lt_trichotomy i j with h | h | h
        · exact absurd (hmin i p check h hp hcheck) hne'
        · exact h
        · exact absurd (hmin' j q c h hq hc) hne
      subst hij
      rw [hq, Option.some.injEq] at hp
      rw [hc, Option.some.injEq] at hcheck
      rw [hp, hcheck]
    · intro hall
      exact absurd (hall j q c hq hc) hne

/-- The bulk step of the spec against a response whose two pairs are both
has-permission: the step fails, naming the second check. -/
theorem checkBulkPermissions_step_witness :
    (bulkCompiled.body.call
        (stubClient Permissionship.PERMISSIONSHIP_HAS_PERMISSION
          [itemPair Permissionship.PERMISSIONSHIP_HAS_PERMISSION,
           itemPair Permissionship.PERMISSIONSHIP_HAS_PERMISSION] []) () none).ret
      = Returned.values none (some (GoError.errorf
          "CheckBulkPermissions returned wrong permissionship: doc:2#edit@user:bob => PERMISSIONSHIP_HAS_PERMISSION")) :=
  (checkBulkPermissions_step bulkStep bulkCompiled rfl rfl
    (stubClient Permissionship.PERMISSIONSHIP_HAS_PERMISSION
      [itemPair Permissionship.PERMISSIONSHIP_HAS_PERMISSION,
       itemPair Permissionship.PERMISSIONSHIP_HAS_PERMISSION] []) () none
    { Consistency := some fullConsistency, Items := _ }
    { CheckedAt := some { Token := "at1" },
      Pairs := [itemPair Permissionship.PERMISSIONSHIP_HAS_PERMISSION,
                itemPair Permissionship.PERMISSIONSHIP_HAS_PERMISSION] }
    [Permissionship.PERMISSIONSHIP_HAS_PERMISSION, Permissionship.PERMISSIONSHIP_HAS_PERMISSION]
    rfl rfl rfl (by decide)).2.1 1 Permissionship.PERMISSIONSHIP_HAS_PERMISSION
    { Resource := "doc:2", Subject := "user:bob", Permission := "edit", Context := none,
      ExpectNoPermission := true, ExpectPermissionship := "" }
    rfl rfl (by decide)
    (fun j q c hj hq hc => by
      have hj0 : j = 0 := by omega
      subst hj0
      cases hq
      cases hc
      rfl)

/-- C8, on the code: the compiled bulk step of two checks, answered one pair that holds an
error status instead of an item, dereferences the nil item and panics; it returns neither
a verification error nor the response's `CheckedAt`. -/
theorem bulk_error_pair_panics :
    prepareStep bulkStep = Res.ok bulkCompiled
    ∧ (bulkCompiled.body.call
          (stubClient Permissionship.PERMISSIONSHIP_HAS_PERMISSION [errorPair] []) () none).ret
        = Returned.panic "runtime error: invalid memory address or nil pointer dereference" :=
  ⟨rfl, rfl⟩


/-- C9: a compiled step of one of the six kinds that carry a consistency parameter hands
the client, at every call, a request whose consistency parameter is the one the resolver
of its mode gives for the token of that very call: at a first call with `zt`, and at a
second call of the same step with `zt2`, whatever `zt` was; under `AtLeastAsFresh` the
second request is bound to the token of the second call. -/
theorem request_consistency (step : ScriptStep) (es : executableStep) (f : consistencyFunc)
    (d : String) (hprep : prepareStep step = Res.ok es)
    (hpc : prepareConsistency step = Except.ok (f, d))
    (hkind : step.Op = "CheckPermission" ∨ step.Op = "CheckBulkPermissions"
      ∨ step.Op = "ReadRelationships" ∨ step.Op = "ExpandPermissionTree"
      ∨ step.Op = "LookupResources" ∨ step.Op = "LookupSubjects")
    {σ : Type} (client : Client σ) (state : σ) (zt zt2 : Option ZedToken) :
    (es.body.call client state zt).sent.Consistency = some (f zt)
    ∧ ((es.body.call client state zt).body.call client
          (es.body.call client state zt).state zt2).sent.Consistency = some (f zt2)
    ∧ (step.Consistency = "AtLeastAsFresh" → ∀ T2 : ZedToken, zt2 = some T2 →
        ((es.body.call client state zt).body.call client
            (es.body.call client state zt).state zt2).sent.Consistency
          = some { Requirement := Requirement.AtLeastAsFresh T2 }) := by
  obtain ⟨f', d', hpc', -, -, hbody⟩ := prepareStep_ok_body step es hprep
  have hf : f' = f := by
    rw [hpc] at hpc'
    simp only [Except.ok.injEq, Prod.mk.injEq] at hpc'
    exact hpc'.1.symm
  subst hf
  have hfresh : step.Consistency = "AtLeastAsFresh" → ∀ T2 : ZedToken,
      f' (some T2) = { Requirement := Requirement.AtLeastAsFresh T2 } := by
    intro hc T2
    simp only [prepareConsistency, hc, String.reduceEq, or_self, if_false, if_true,
      Except.ok.injEq, Prod.mk.injEq] at hpc
    rw [← hpc.1]
    rfl
  have key : (es.body.call client state zt).sent.Consistency = some (f' zt)
      ∧ ((es.body.call client state zt).body.call client
            (es.body.call client state zt).state zt2).sent.Consistency = some (f' zt2) := by
    rcases hbody with ⟨_, req, hb⟩ | ⟨_, req, hb⟩ | ⟨ho, _⟩ | ⟨_, req, hb⟩ | ⟨_, req, hb⟩
      | ⟨_, req, hb⟩ | ⟨ho, _⟩ | ⟨ho, _⟩ | ⟨_, items, hb⟩
    · rw [hb, call_CheckPermission]
      dsimp only
      rw [call_CheckPermission]
      exact ⟨rfl, rfl⟩
    · rw [hb, call_ReadRelationships]
      dsimp only
      rw [call_ReadRelationships]
      exact ⟨rfl, rfl⟩
    · simp [ho] at hkind
    · rw [hb, call_ExpandPermissionTree]
      dsimp only
      rw [call_ExpandPermissionTree]
      exact ⟨rfl, rfl⟩
    · rw [hb, call_LookupResources]
      dsimp only
      rw [call_LookupResources]
      exact ⟨rfl, rfl⟩
    · rw [hb, call_LookupSubjects]
      dsimp only
      rw [call_LookupSubjects]
      exact ⟨rfl, rfl⟩
    · simp [ho] at hkind
    · simp [ho] at hkind
    · rw [hb, call_CheckBulkPermissions]
      dsimp only
      rw [call_CheckBulkPermissions]
      exact ⟨rfl, rfl⟩
  refine ⟨key.1, key.2, ?_⟩
  intro hc T2 hz
  rw [key.2, hz, hfresh hc T2]

/-- Witness of C9: the scenario step under `AtLeastAsFresh`, called with the token `t1`
and then with the token `t2`. -/
theorem request_consistency_witness :
    ((freshCompiled.body.call (stubClient Permissionship.PERMISSIONSHIP_HAS_PERMISSION [] [])
          () (some { Token := "t1" })).body.call
        (stubClient Permissionship.PERMISSIONSHIP_HAS_PERMISSION [] []) ()
        (some { Token := "t2" })).sent.Consistency
      = some { Requirement := Requirement.AtLeastAsFresh { Token := "t2" } } :=
  (request_consistency freshStep freshCompiled atLeastAsFreshFunc "AtLeastAsFresh" rfl rfl
    (Or.inl rfl) (stubClient Permissionship.PERMISSIONSHIP_HAS_PERMISSION [] []) ()
    (some { Token := "t1" }) (some { Token := "t2" })).2.2 rfl { Token := "t2" } rfl

theorem checkPairs_ne_success (step : ScriptStep) (t : Option ZedToken) :
    ∀ (pairs : List CheckBulkPermissionsPair) (idx : Nat),
      checkPairs step pairs idx ≠ some (Returned.values t none)
  | [], _ => by simp [checkPairs]
  | pair :: pairs, idx => by
    unfold checkPairs
    split
    · simp
    · dsimp only
      split
      · simp
      · split
        · simp
        · exact checkPairs_ne_success step t pairs (idx + 1)

/-- C10: when a compiled step returns no error, the token it returns is the token it was
called with for `ReadRelationships`, `LookupResources`, `LookupSubjects` and
`WriteSchema`, and is the token of the client's response to the request it sent for
`CheckPermission` and `CheckBulkPermissions` (`CheckedAt`), `ExpandPermissionTree`
(`ExpandedAt`), `DeleteRelationships` (`DeletedAt`) and `WriteRelationships`
(`WrittenAt`). -/
theorem returned_token (step : ScriptStep) (es : executableStep)
    (hprep : prepareStep step = Res.ok es)
    {σ : Type} (client : Client σ) (state : σ) (zt t : Option ZedToken)
    (hsucc : (es.body.call client state zt).ret = Returned.values t none) :
    ((step.Op = "ReadRelationships" ∨ step.Op = "LookupResources"
        ∨ step.Op = "LookupSubjects" ∨ step.Op = "WriteSchema") → t = zt)
    ∧ (step.Op = "CheckPermission" → ∃ req resp,
        (es.body.call client state zt).sent = Rpc.CheckPermission req
        ∧ (client.CheckPermission req state).1 = Except.ok resp ∧ t = resp.CheckedAt)
    ∧ (step.Op = "CheckBulkPermissions" → ∃ req resp,
        (es.body.call client state zt).sent = Rpc.CheckBulkPermissions req
        ∧ (client.CheckBulkPermissions req state).1 = Except.ok resp ∧ t = resp.CheckedAt)
    ∧ (step.Op = "ExpandPermissionTree" → ∃ req resp,
        (es.body.call client state zt).sent = Rpc.ExpandPermissionTree req
        ∧ (client.ExpandPermissionTree req state).1 = Except.ok resp ∧ t = resp.ExpandedAt)
    ∧ (step.Op = "DeleteRelationships" → ∃ req resp,
        (es.body.call client state zt).sent = Rpc.DeleteRelationships req
        ∧ (client.DeleteRelationships req state).1 = Except.ok resp ∧ t = resp.DeletedAt)
    ∧ (step.Op = "WriteRelationships" → ∃ req resp,
        (es.body.call client state zt).sent = Rpc.WriteRelationships req
        ∧ (client.WriteRelationships req state).1 = Except.ok resp ∧ t = resp.WrittenAt) := by
  obtain ⟨f, d, -, -, -, hbody⟩ := prepareStep_ok_body step es hprep
  rcases hbody with ⟨ho, req, hb⟩ | ⟨ho, req, hb⟩ | ⟨ho, req, hb⟩ | ⟨ho, req, hb⟩
    | ⟨ho, req, hb⟩ | ⟨ho, req, hb⟩ | ⟨ho, req, hb⟩ | ⟨ho, req, hb⟩ | ⟨ho, items, hb⟩
  · rw [hb, call_CheckPermission] at hsucc ⊢
    dsimp only at hsucc ⊢
    simp only [ho, String.reduceEq, or_self, false_imp_iff, true_and, true_imp_iff, and_true]
    cases hc : (client.CheckPermission { req with Consistency := some (f zt) } state).1 with
    | error err => simp [hc] at hsucc
    | ok resp =>
      rw [hc] at hsucc
      dsimp only at hsucc
      split_ifs at hsucc
      · simp only [Returned.values.injEq, and_true] at hsucc
        exact ⟨_, resp, rfl, hc, hsucc.symm⟩
      · simp at hsucc
  · rw [hb, call_ReadRelationships] at hsucc
    dsimp only at hsucc
    simp only [ho, String.reduceEq, or_false, false_or, true_or, false_imp_iff, true_and,
      true_imp_iff, and_true]
    cases hc : (client.ReadRelationships { req with Consistency := some (f zt) } state).1 with
    | error err => simp [hc] at hsucc
    | ok resp =>
      rw [hc] at hsucc
      simp only [Returned.values.injEq] at hsucc
      exact hsucc.1.symm
  · rw [hb, call_DeleteRelationships] at hsucc ⊢
    dsimp only at hsucc ⊢
    simp only [ho, String.reduceEq, or_self, false_imp_iff, true_and, true_imp_iff, and_true]
    cases hc : (client.DeleteRelationships req state).1 with
    | error err => simp [hc] at hsucc
    | ok resp =>
      rw [hc] at hsucc
      simp only [Returned.values.injEq, and_true] at hsucc
      exact ⟨_, resp, rfl, hc, hsucc.symm⟩
  · rw [hb, call_ExpandPermissionTree] at hsucc ⊢
    dsimp only at hsucc ⊢
    simp only [ho, String.reduceEq, or_self, false_imp_iff, true_and, true_imp_iff, and_true]
    cases hc : (client.ExpandPermissionTree { req with Consistency := some (f zt) } state).1 with
    | error err => simp [hc] at hsucc
    | ok resp =>
      rw [hc] at hsucc
      simp only [Returned.values.injEq, and_true] at hsucc
      exact ⟨_, resp, rfl, hc, hsucc.symm⟩
  · rw [hb, call_LookupResources] at hsucc
    dsimp only at hsucc
    simp only [ho, String.reduceEq, or_false, false_or, true_or, false_imp_iff, true_and,
      true_imp_iff, and_true]
    cases hc : (client.LookupResources { req with Consistency := some (f zt) } state).1 with
    | error err => simp [hc] at hsucc
    | ok resp =>
      rw [hc] at hsucc
      simp only [Returned.values.injEq] at hsucc
      exact hsucc.1.symm
  · rw [hb, call_LookupSubjects] at hsucc
    dsimp only at hsucc
    simp only [ho, String.reduceEq, or_false, false_or, true_or, false_imp_iff, true_and,
      true_imp_iff, and_true]
    cases hc : (client.LookupSubjects { req with Consistency := some (f zt) } state).1 with
    | error err => simp [hc] at hsucc
    | ok resp =>
      rw [hc] at hsucc
      simp only [Returned.values.injEq] at hsucc
      exact hsucc.1.symm
  · rw [hb, call_WriteRelationships] at hsucc ⊢
    dsimp only at hsucc ⊢
    simp only [ho, String.reduceEq, or_self, false_imp_iff, true_and, true_imp_iff, and_true]
    cases hc : (client.WriteRelationships req state).1 with
    | error err => simp [hc] at hsucc
    | ok resp =>
      rw [hc] at hsucc
      simp only [Returned.values.injEq, and_true] at hsucc
      exact ⟨_, resp, rfl, hc, hsucc.symm⟩
  · rw [hb, call_WriteSchema] at hsucc
    dsimp only at hsucc
    simp only [ho, String.reduceEq, or_false, false_or, or_true, false_imp_iff, true_and,
      true_imp_iff, and_true]
    cases hc : (client.WriteSchema req state).1 with
    | error err => simp [hc] at hsucc
    | ok resp =>
      rw [hc] at hsucc
      simp only [Returned.values.injEq, and_true] at hsucc
      exact hsucc.symm
  · rw [hb, call_CheckBulkPermissions] at hsucc ⊢
    dsimp only at hsucc ⊢
    simp only [ho, String.reduceEq, or_self, false_imp_iff, true_and, true_imp_iff, and_true]
    cases hc : (client.CheckBulkPermissions
        { Consistency := some (f zt), Items := items } state).1 with
    | error err => simp [hc] at hsucc
    | ok resp =>
      rw [hc] at hsucc
      dsimp only at hsucc
      cases hcp : checkPairs step resp.Pairs 0 with
      | some ret =>
        rw [hcp] at hsucc
        dsimp only at hsucc
        rw [hsucc] at hcp
        exact absurd hcp (checkPairs_ne_success step t resp.Pairs 0)
      | none =>
        rw [hcp] at hsucc
        simp only [Returned.values.injEq, and_true] at hsucc
        exact ⟨_, resp, rfl, hc, hsucc.symm⟩

/-- Witness of C10: the read step, called with the token `t0` on a stream of three
items, returns `t0`; the scenario step, called with `t0`, returns the token `at1` of
the response. -/
theorem returned_token_witness :
    (prepareStep readStep = Res.ok readCompiled
      ∧ (readCompiled.body.call
            (stubClient Permissionship.PERMISSIONSHIP_HAS_PERMISSION [] [none, none, none]) ()
            (some { Token := "t0" })).ret
          = Returned.values (some { Token := "t0" }) none
      ∧ (some { Token := "t0" } : Option ZedToken) = some { Token := "t0" })
    ∧ (prepareStep scenarioStep = Res.ok scenarioCompiled
      ∧ (scenarioCompiled.body.call
            (stubClient Permissionship.PERMISSIONSHIP_HAS_PERMISSION [] []) ()
            (some { Token := "t0" })).ret
          = Returned.values (some { Token := "at1" }) none
      ∧ ∃ req resp,
          (scenarioCompiled.body.call
              (stubClient Permissionship.PERMISSIONSHIP_HAS_PERMISSION [] []) ()
              (some { Token := "t0" })).sent = Rpc.CheckPermission req
          ∧ ((stubClient Permissionship.PERMISSIONSHIP_HAS_PERMISSION [] []).CheckPermission
                req ()).1 = Except.ok resp
          ∧ (some { Token := "at1" } : Option ZedToken) = resp.CheckedAt) :=
  ⟨⟨rfl, rfl,
      (returned_token readStep readCompiled rfl
        (stubClient Permissionship.PERMISSIONSHIP_HAS_PERMISSION [] [none, none, none]) ()
        (some { Token := "t0" }) (some { Token := "t0" }) rfl).1 (Or.inl rfl)⟩,
    ⟨rfl, rfl,
      (returned_token scenarioStep scenarioCompiled rfl
        (stubClient Permissionship.PERMISSIONSHIP_HAS_PERMISSION [] []) ()
        (some { Token := "t0" }) (some { Token := "at1" }) rfl).2.1 rfl⟩⟩

/-! ## Properties: `Prepare` -/

theorem prepareSteps_append_ok (a : List ScriptStep) (steps : List executableStep)
    (rest : List ScriptStep) (h : prepareSteps a = Res.ok steps) :
    prepareSteps (a ++ rest)
      = match prepareSteps rest with
        | Res.error err => Res.error err
        | Res.panic msg => Res.panic msg
        | Res.ok more => Res.ok (steps ++ more) := by
  induction a generalizing steps with
  | nil =>
    simp only [prepareSteps, Res.ok.injEq] at h
    subst h
    rw [List.nil_append]
    cases prepareSteps rest <;> simp
  | cons raw a ih =>
    simp only [prepareSteps, List.cons_append, List.append_eq] at h ⊢
    cases hr : prepareStep raw with
    | error e => simp [hr] at h
    | panic m => simp [hr] at h
    | ok st =>
      simp only [hr] at h ⊢
      cases ha : prepareSteps a with
      | error e => simp [ha] at h
      | panic m => simp [ha] at h
      | ok sts =>
        simp only [ha, Res.ok.injEq] at h
        subst h
        rw [ih sts ha]
        cases prepareSteps rest <;> simp

theorem prepareSteps_error_at (a : List ScriptStep) (steps : List executableStep)
    (raw : ScriptStep) (rest : List ScriptStep) (e : GoError)
    (ha : prepareSteps a = Res.ok steps) (hraw : prepareStep raw = Res.error e) :
    prepareSteps (a ++ raw :: rest) = Res.error e := by
  rw [prepareSteps_append_ok a steps _ ha]
  simp [prepareSteps, hraw]

theorem prepareLoop_append_ok (pre : List Script) (rest : List Script) :
    ∀ (acc : List ExecutableScript),
      (∀ input ∈ pre, ∃ steps, prepareSteps input.Steps = Res.ok steps) →
      ∃ done, done.length = pre.length
        ∧ prepareLoop (pre ++ rest) acc = prepareLoop rest (acc ++ done) := by
  induction pre with
  | nil =>
    intro acc _
    exact ⟨[], rfl, by simp⟩
  | cons input pre ih =>
    intro acc h
    obtain ⟨steps, hs⟩ := h input (List.mem_cons_self _ _)
    obtain ⟨done, hlen, hd⟩ := ih
      (acc ++ [{ name := input.Name, weight := input.Weight, steps := steps }])
      (fun i hi => h i (List.mem_cons_of_mem _ hi))
    refine ⟨{ name := input.Name, weight := input.Weight, steps := steps } :: done, by simp [hlen], ?_⟩
    simp only [List.cons_append, prepareLoop, hs, List.append_eq]
    rw [hd]
    simp

theorem prepareSteps_of_forall_ok :
    ∀ raws : List ScriptStep, (∀ raw ∈ raws, ∃ es, prepareStep raw = Res.ok es) →
      ∃ steps, prepareSteps raws = Res.ok steps
  | [], _ => ⟨[], rfl⟩
  | raw :: raws, h => by
    obtain ⟨es, hes⟩ := h raw (List.mem_cons_self _ _)
    obtain ⟨steps, hsteps⟩ :=
      prepareSteps_of_forall_ok raws (fun r hr => h r (List.mem_cons_of_mem _ hr))
    exact ⟨es :: steps, by simp [prepareSteps, hes, hsteps]⟩

/-- C11: a step with a valid consistency string and an operation that is none of the
nine names does not compile: `prepareStep` returns the error whose text is
`unknown script step operation: ` followed by the operation string, and `Prepare`
returns that error (non-nil) on every script list in which all steps before this one
compile. -/
theorem unknown_operation (step : ScriptStep) (f : consistencyFunc) (d : String)
    (hpc : prepareConsistency step = Except.ok (f, d))
    (hop : step.Op ∉ ["CheckPermission", "CheckBulkPermissions", "ReadRelationships",
      "DeleteRelationships", "WriteRelationships", "WriteSchema", "ExpandPermissionTree",
      "LookupResources", "LookupSubjects"]) :
    prepareStep step
      = Res.error (GoError.errorf ("unknown script step operation: " ++ step.Op))
    ∧ (GoError.errorf ("unknown script step operation: " ++ step.Op)).Error
        = "unknown script step operation: " ++ step.Op
    ∧ ∀ (pre : List Script) (script : Script) (post : List Script)
        (before after : List ScriptStep),
        script.Steps = before ++ step :: after →
        (∀ input ∈ pre, ∀ raw ∈ input.Steps, ∃ es, prepareStep raw = Res.ok es) →
        (∀ raw ∈ before, ∃ es, prepareStep raw = Res.ok es) →
        ∃ prepared, Prepare (pre ++ script :: post)
          = Prepared.returned prepared
              (some (GoError.errorf ("unknown script step operation: " ++ step.Op))) := by
  simp only [List.mem_cons, List.mem_singleton, List.not_mem_nil, or_false, not_or] at hop
  obtain ⟨h1, h2, h3, h4, h5, h6, h7, h8, h9⟩ := hop
  have hstep : prepareStep step
      = Res.error (GoError.errorf ("unknown script step operation: " ++ step.Op)) := by
    simp [prepareStep, hpc, h1, h2, h3, h4, h5, h6, h7, h8, h9]
  refine ⟨hstep, rfl, ?_⟩
  intro pre script post before after hsteps hpre hbefore
  obtain ⟨steps, hb⟩ := prepareSteps_of_forall_ok before hbefore
  have hscript : prepareSteps script.Steps
      = Res.error (GoError.errorf ("unknown script step operation: " ++ step.Op)) := by
    rw [hsteps]
    exact prepareSteps_error_at before steps step after _ hb hstep
  obtain ⟨done, -, hd⟩ := prepareLoop_append_ok pre (script :: post) []
    (fun input hi => prepareSteps_of_forall_ok input.Steps (hpre input hi))
  refine ⟨[] ++ done, ?_⟩
  unfold Prepare
  rw [hd]
  simp [prepareLoop, hscript]

/-- Witness of C11: the operation `Frobnicate` of the spec, as the second step of the
second script of a file. -/
theorem unknown_operation_witness :
    prepareStep frobnicateStep
      = Res.error (GoError.errorf ("unknown script step operation: " ++ frobnicateStep.Op))
    ∧ ∃ prepared, Prepare ([goodScript] ++ frobnicateScript :: [])
        = Prepared.returned prepared
            (some (GoError.errorf ("unknown script step operation: " ++ frobnicateStep.Op))) :=
  ⟨(unknown_operation frobnicateStep (fun _ => minimizeLatency) "MinimizeLatency" rfl
      (by decide)).1,
    (unknown_operation frobnicateStep (fun _ => minimizeLatency) "MinimizeLatency" rfl
      (by decide)).2.2 [goodScript] frobnicateScript [] [scenarioStep] [] rfl
      (fun input hi raw hr => by
        simp only [List.mem_singleton] at hi
        subst hi
        simp only [goodScript, List.mem_singleton] at hr
        subst hr
        exact ⟨scenarioCompiled, rfl⟩)
      (fun raw hr => by
        simp only [List.mem_singleton] at hr
        subst hr
        exact ⟨scenarioCompiled, rfl⟩)⟩

/-- C12: `prepareConsistency` returns an error exactly when the consistency string is
none of the five accepted ones; the error's text then ends with the offending string,
and `prepareStep` returns the error wrapping it, whatever the operation of the step, so
no executable step exists whose execution could fail on the mode. -/
theorem unknown_consistency (step : ScriptStep) :
    ((∃ e, prepareConsistency step = Except.error e)
        ↔ step.Consistency ∉ ["", "MinimizeLatency", "AtLeastAsFresh", "AtExactSnapshot",
            "FullyConsistent"])
    ∧ (step.Consistency ∉ ["", "MinimizeLatency", "AtLeastAsFresh", "AtExactSnapshot",
          "FullyConsistent"] →
        prepareConsistency step
          = Except.error
              (GoError.errorf ("unknown consistency type requested: " ++ step.Consistency))
        ∧ (GoError.errorf ("unknown consistency type requested: " ++ step.Consistency)).Error
            = "unknown consistency type requested: " ++ step.Consistency
        ∧ prepareStep step
            = Res.error (GoError.wrap "error preparing consistency: %w"
                (GoError.errorf ("unknown consistency type requested: " ++ step.Consistency)))
        ∧ ∀ es, prepareStep step ≠ Res.ok es) := by
  have hbad : step.Consistency ∉ ["", "MinimizeLatency", "AtLeastAsFresh", "AtExactSnapshot",
      "FullyConsistent"] →
      prepareConsistency step
        = Except.error
            (GoError.errorf ("unknown consistency type requested: " ++ step.Consistency)) := by
    intro h
    simp only [List.mem_cons, List.mem_singleton, List.not_mem_nil, or_false, not_or] at h
    obtain ⟨h1, h2, h3, h4, h5⟩ := h
    simp [prepareConsistency, h1, h2, h3, h4, h5]
  refine ⟨⟨?_, fun h => ⟨_, hbad h⟩⟩, ?_⟩
  · rintro ⟨e, he⟩ hmem
    simp only [List.mem_cons, List.mem_singleton, List.not_mem_nil, or_false] at hmem
    rcases hmem with h | h | h | h | h <;> simp [prepareConsistency, h] at he
  · intro h
    have hstep : prepareStep step
        = Res.error (GoError.wrap "error preparing consistency: %w"
            (GoError.errorf ("unknown consistency type requested: " ++ step.Consistency))) := by
      simp [prepareStep, hbad h]
    refine ⟨hbad h, rfl, hstep, ?_⟩
    intro es hes
    rw [hstep] at hes
    cases hes

/-- Witness of C12: the mode `Stale`. -/
theorem unknown_consistency_witness :
    prepareStep staleStep
      = Res.error (GoError.wrap "error preparing consistency: %w"
          (GoError.errorf ("unknown consistency type requested: " ++ staleStep.Consistency))) :=
  ((unknown_consistency staleStep).2 (by decide)).2.2.1

theorem forall₂_getElem? {α β : Type} (R : α → β → Prop) :
    ∀ (l₁ : List α) (l₂ : List β), List.Forall₂ R l₁ l₂ →
      ∀ (i : Nat) (a : α) (b : β), l₁[i]? = some a → l₂[i]? = some b → R a b
  | _, _, List.Forall₂.nil, i, a, b, ha, _ => by simp at ha
  | x :: xs, y :: ys, List.Forall₂.cons hxy hrest, i, a, b, ha, hb => by
    cases i with
    | zero =>
      simp only [List.getElem?_cons_zero, Option.some.injEq] at ha hb
      rw [← ha, ← hb]
      exact hxy
    | succ i =>
      simp only [List.getElem?_cons_succ] at ha hb
      exact forall₂_getElem? R xs ys hrest i a b ha hb

theorem prepareSteps_forall₂ :
    ∀ (raws : List ScriptStep) (steps : List executableStep),
      prepareSteps raws = Res.ok steps →
      List.Forall₂ (fun raw st => prepareStep raw = Res.ok st) raws steps
  | [], steps, h => by
    simp only [prepareSteps, Res.ok.injEq] at h
    subst h
    exact List.Forall₂.nil
  | raw :: raws, steps, h => by
    simp only [prepareSteps] at h
    cases hr : prepareStep raw with
    | error e => simp [hr] at h
    | panic m => simp [hr] at h
    | ok st =>
      simp only [hr] at h
      cases ha : prepareSteps raws with
      | error e => simp [ha] at h
      | panic m => simp [ha] at h
      | ok sts =>
        simp only [ha, Res.ok.injEq] at h
        subst h
        exact List.Forall₂.cons hr (prepareSteps_forall₂ raws sts ha)

theorem prepareLoop_returned :
    ∀ (inputs : List Script) (acc prepared : List ExecutableScript) (err : Option GoError),
      prepareLoop inputs acc = Prepared.returned prepared err →
      ∃ pre done, prepared = acc ++ done ∧ List.Forall₂ compiledFrom pre done
        ∧ ((err = none ∧ inputs = pre)
          ∨ ∃ e failing post, err = some e ∧ inputs = pre ++ failing :: post
              ∧ prepareSteps failing.Steps = Res.error e)
  | [], acc, prepared, err, h => by
    simp only [prepareLoop, Prepared.returned.injEq] at h
    exact ⟨[], [], by simp [h.1], List.Forall₂.nil, Or.inl ⟨h.2.symm, rfl⟩⟩
  | input :: inputs, acc, prepared, err, h => by
    simp only [prepareLoop] at h
    cases hs : prepareSteps input.Steps with
    | error e =>
      simp only [hs, Prepared.returned.injEq] at h
      exact ⟨[], [], by simp [h.1], List.Forall₂.nil,
        Or.inr ⟨e, input, inputs, h.2.symm, rfl, hs⟩⟩
    | panic m => simp [hs] at h
    | ok steps =>
      simp only [hs] at h
      obtain ⟨pre, done, hp, hf, hcase⟩ := prepareLoop_returned inputs _ prepared err h
      refine ⟨input :: pre,
        { name := input.Name, weight := input.Weight, steps := steps } :: done,
        by simp [hp], List.Forall₂.cons ⟨rfl, rfl, hs⟩ hf, ?_⟩
      rcases hcase with ⟨he, hi⟩ | ⟨e, failing, post, he, hi, hfail⟩
      · exact Or.inl ⟨he, by rw [hi]⟩
      · exact Or.inr ⟨e, failing, post, he, by rw [hi]; rfl, hfail⟩

/-- C13, as stated, fails: on a file whose first script compiles and whose second script
has a step with an unknown operation, `Prepare` returns the error together with the
executable script of the first script, not with an empty list. -/
theorem prepare_error_list_nonempty :
    Prepare [goodScript, frobnicateScript]
      = Prepared.returned [goodCompiled]
          (some (GoError.errorf "unknown script step operation: Frobnicate"))
    ∧ [goodCompiled] ≠ ([] : List ExecutableScript) :=
  ⟨rfl, List.cons_ne_nil _ _⟩

/-- C13, amended: when `Prepare` returns an error, the error is the one of the first
script that does not compile, and the returned list holds, in order, the compiled form
of exactly the scripts before that one: nothing for the failing script (so no partly
compiled script) and nothing for a later script; the list is empty exactly when the
failing script is the first. -/
theorem prepare_error_partial (inputs : List Script) (prepared : List ExecutableScript)
    (err : GoError) (h : Prepare inputs = Prepared.returned prepared (some err)) :
    ∃ pre failing post, inputs = pre ++ failing :: post
      ∧ prepareSteps failing.Steps = Res.error err
      ∧ List.Forall₂ compiledFrom pre prepared
      ∧ prepared.length = pre.length
      ∧ (prepared = [] ↔ pre = []) := by
  obtain ⟨pre, done, hp, hf, hcase⟩ := prepareLoop_returned inputs [] prepared (some err) h
  rw [List.nil_append] at hp
  subst hp
  rcases hcase with ⟨he, _⟩ | ⟨e, failing, post, he, hi, hfail⟩
  · cases he
  · simp only [Option.some.injEq] at he
    subst he
    have hlen : prepared.length = pre.length := hf.length_eq.symm
    refine ⟨pre, failing, post, hi, hfail, hf, hlen, ?_⟩
    rw [← List.length_eq_zero, ← List.length_eq_zero (l := pre), hlen]

/-- Witness of C13 amended: a file whose first script compiles and whose second script
has a step with an unknown operation. -/
theorem prepare_error_partial_witness :
    ∃ pre failing post, [goodScript, frobnicateScript] = pre ++ failing :: post
      ∧ prepareSteps failing.Steps
          = Res.error (GoError.errorf "unknown script step operation: Frobnicate")
      ∧ List.Forall₂ compiledFrom pre [goodCompiled]
      ∧ [goodCompiled].length = pre.length
      ∧ ([goodCompiled] = [] ↔ pre = []) :=
  prepare_error_partial [goodScript, frobnicateScript] [goodCompiled]
    (GoError.errorf "unknown script step operation: Frobnicate") rfl

/-- C14: when `Prepare` succeeds, the result has the length of the input, and at every
position the executable script has the name and the weight of the input script at that
position and as many steps as it, its step at every position carrying the operation
string of the input step at that position. -/
theorem prepare_preserves_order (inputs : List Script) (prepared : List ExecutableScript)
    (h : Prepare inputs = Prepared.returned prepared none) :
    prepared.length = inputs.length
    ∧ ∀ (i : Nat) (input : Script) (es : ExecutableScript),
        inputs[i]? = some input → prepared[i]? = some es →
        es.name = input.Name ∧ es.weight = input.Weight
        ∧ es.steps.length = input.Steps.length
        ∧ ∀ (j : Nat) (raw : ScriptStep) (st : executableStep),
            input.Steps[j]? = some raw → es.steps[j]? = some st → st.op = raw.Op := by
  obtain ⟨pre, done, hp, hf, hcase⟩ := prepareLoop_returned inputs [] prepared none h
  rw [List.nil_append] at hp
  subst hp
  rcases hcase with ⟨-, hi⟩ | ⟨e, failing, post, he, -, -⟩
  · subst hi
    refine ⟨hf.length_eq.symm, ?_⟩
    intro i input es hin hes
    obtain ⟨hname, hweight, hsteps⟩ := forall₂_getElem? compiledFrom _ _ hf i input es hin hes
    have hst := prepareSteps_forall₂ input.Steps es.steps hsteps
    refine ⟨hname, hweight, hst.length_eq.symm, ?_⟩
    intro j raw st hraw hstj
    have hc := forall₂_getElem? _ _ _ hst j raw st hraw hstj
    obtain ⟨_, _, _, hop, _⟩ := prepareStep_ok_body raw st hc
    exact hop
  · cases he

/-- Witness of C14: a file of two scripts, the second of two steps (a check, then a
read); the second step of the second executable script carries the operation of the read. -/
theorem prepare_preserves_order_witness :
    Prepare [goodScript, twoStepScript]
        = Prepared.returned [goodCompiled, twoStepCompiled] none
    ∧ [goodCompiled, twoStepCompiled].length = [goodScript, twoStepScript].length
    ∧ twoStepCompiled.name = twoStepScript.Name
    ∧ twoStepCompiled.weight = twoStepScript.Weight
    ∧ twoStepCompiled.steps.length = twoStepScript.Steps.length
    ∧ readCompiled.op = readStep.Op :=
  ⟨rfl,
    (prepare_preserves_order [goodScript, twoStepScript] [goodCompiled, twoStepCompiled]
      rfl).1,
    ((prepare_preserves_order [goodScript, twoStepScript] [goodCompiled, twoStepCompiled]
      rfl).2 1 twoStepScript twoStepCompiled rfl rfl).1,
    ((prepare_preserves_order [goodScript, twoStepScript] [goodCompiled, twoStepCompiled]
      rfl).2 1 twoStepScript twoStepCompiled rfl rfl).2.1,
    ((prepare_preserves_order [goodScript, twoStepScript] [goodCompiled, twoStepCompiled]
      rfl).2 1 twoStepScript twoStepCompiled rfl rfl).2.2.1,
    ((prepare_preserves_order [goodScript, twoStepScript] [goodCompiled, twoStepCompiled]
      rfl).2 1 twoStepScript twoStepCompiled rfl rfl).2.2.2 1 readStep readCompiled rfl rfl⟩

/-! ## Properties: object and subject references -/

theorem parseComponents_of_no_hash (a : String) (ha : '#' ∉ a.data) :
    (parseComponents a).2.2 = "" := by
  simp [parseComponents, stringsSplitN2_of_not_mem a '#' ha]

theorem parseComponents_hash (a b : String) (ha : '#' ∉ a.data) :
    parseComponents (a ++ "#" ++ b)
      = ((parseComponents a).1, (parseComponents a).2.1, b) := by
  have e : stringsSplitN2 (a ++ "#" ++ b) '#' = [a, b] := stringsSplitN2_append a b '#' ha
  simp [parseComponents, e, stringsSplitN2_of_not_mem a '#' ha]

theorem parseObject_of_relation_empty (s : String) (h : (parseComponents s).2.2 = "") :
    parseObject s
      = Res.ok { ObjectType := (parseComponents s).1, ObjectId := (parseComponents s).2.1 } := by
  unfold parseObject
  rcases hpc : parseComponents s with ⟨t, i, r⟩
  rw [hpc] at h
  simp only at h
  simp [h]

theorem parseObject_of_relation_nonempty (s : String) (h : (parseComponents s).2.2 ≠ "") :
    parseObject s
      = Res.panic ("invalid object " ++ s ++ ": unexpected relation: "
          ++ (parseComponents s).2.2) := by
  unfold parseObject
  rcases hpc : parseComponents s with ⟨t, i, r⟩
  rw [hpc] at h
  simp only at h
  simp [h]

/-- C15: `parseObject` succeeds exactly on the strings whose parsed relation is empty, and
then yields the reference with the parsed type and id. So, for `a` without `#`: `a`
itself (a bare type, or `type:id`) and `a#` are accepted, and `a#b` is rejected for every
non-empty `b`. -/
theorem parseObject_accepts (s a b : String) (ha : '#' ∉ a.data) :
    ((∃ ref, parseObject s = Res.ok ref) ↔ (parseComponents s).2.2 = "")
    ∧ (∀ ref, parseObject s = Res.ok ref →
        ref = { ObjectType := (parseComponents s).1, ObjectId := (parseComponents s).2.1 })
    ∧ parseObject a
        = Res.ok { ObjectType := (parseComponents a).1, ObjectId := (parseComponents a).2.1 }
    ∧ parseObject (a ++ "#")
        = Res.ok { ObjectType := (parseComponents a).1, ObjectId := (parseComponents a).2.1 }
    ∧ (b ≠ "" → ∀ ref, parseObject (a ++ "#" ++ b) ≠ Res.ok ref) := by
  refine ⟨⟨?_, fun h => ⟨_, parseObject_of_relation_empty s h⟩⟩, ?_, ?_, ?_, ?_⟩
  · rintro ⟨ref, href⟩
    by_contra hne
    rw [parseObject_of_relation_nonempty s hne] at href
    cases href
  · intro ref href
    by_cases h : (parseComponents s).2.2 = ""
    · rw [parseObject_of_relation_empty s h, Res.ok.injEq] at href
      exact href.symm
    · rw [parseObject_of_relation_nonempty s h] at href
      cases href
  · exact parseObject_of_relation_empty a (parseComponents_of_no_hash a ha)
  · have h := parseComponents_hash a "" ha
    rw [String.append_empty] at h
    rw [parseObject_of_relation_empty (a ++ "#") (by rw [h]), h]
  · intro hb ref href
    have h := parseComponents_hash a b ha
    rw [parseObject_of_relation_nonempty (a ++ "#" ++ b) (by rw [h]; exact hb)] at href
    cases href

/-- Witness of C15: `doc:1`, `doc:1#` and `doc:1#view`. -/
theorem parseObject_accepts_witness :
    parseObject "doc:1"
        = Res.ok { ObjectType := (parseComponents "doc:1").1,
                   ObjectId := (parseComponents "doc:1").2.1 }
    ∧ parseObject ("doc:1" ++ "#")
        = Res.ok { ObjectType := (parseComponents "doc:1").1,
                   ObjectId := (parseComponents "doc:1").2.1 }
    ∧ ∀ ref, parseObject ("doc:1" ++ "#" ++ "view") ≠ Res.ok ref :=
  ⟨(parseObject_accepts "doc:1" "doc:1" "view" (by decide)).2.2.1,
    (parseObject_accepts "doc:1" "doc:1" "view" (by decide)).2.2.2.1,
    (parseObject_accepts "doc:1" "doc:1" "view" (by decide)).2.2.2.2 (by decide)⟩

/-- C16, as stated, fails: the subject `user`, a bare type whose parsed triple is
`(user, "", "")`, is not parsed to a reference; `parseSubject` stops on the missing id. -/
theorem parseSubject_bare_type_rejected :
    parseComponents "user" = ("user", "", "")
    ∧ parseSubject "user" = Res.panic "invalid subject user: missing object ID" :=
  ⟨by decide, rfl⟩

/-- C16, amended: for a subject string with no relation suffix, `parseSubject` succeeds
exactly when the parsed type and the parsed id are both non-empty, and then yields the
reference with that type, that id and an empty relation; a subject with an empty id or an
empty type is rejected. -/
theorem parseSubject_requires_type_and_id (s : String)
    (hrel : (parseComponents s).2.2 = "") :
    ((∃ ref, parseSubject s = Res.ok ref)
        ↔ (parseComponents s).1 ≠ "" ∧ (parseComponents s).2.1 ≠ "")
    ∧ (∀ ref, parseSubject s = Res.ok ref →
        ref = { Object := { ObjectType := (parseComponents s).1,
                            ObjectId := (parseComponents s).2.1 },
                OptionalRelation := "" }) := by
  unfold parseSubject
  rcases hpc : parseComponents s with ⟨t, i, r⟩
  rw [hpc] at hrel
  simp only at hrel
  subst hrel
  dsimp only
  by_cases ht : t = ""
  · simp [ht]
  · by_cases hi : i = ""
    · simp [ht, hi]
    · simp only [ht, hi, if_false, Res.ok.injEq, exists_eq', ne_eq, not_false_eq_true,
        and_self, true_and, true_iff]
      intro ref href
      exact href.symm

/-- Witness of C16 amended: the subject `user:alice`. -/
theorem parseSubject_requires_type_and_id_witness :
    ((∃ ref, parseSubject "user:alice" = Res.ok ref)
        ↔ (parseComponents "user:alice").1 ≠ "" ∧ (parseComponents "user:alice").2.1 ≠ "")
    ∧ (∀ ref, parseSubject "user:alice" = Res.ok ref →
        ref = { Object := { ObjectType := (parseComponents "user:alice").1,
                            ObjectId := (parseComponents "user:alice").2.1 },
                OptionalRelation := "" }) :=
  parseSubject_requires_type_and_id "user:alice" (by decide)

/-- C17, on the code: a `CheckPermission` step whose resource carries a relation suffix,
one whose subject has no id, and a `WriteRelationships` step whose update has the tag
`UPSERT` each make `Prepare` panic; it returns neither scripts nor an error. -/
theorem prepare_panics :
    Prepare [{ Name := "m", Weight := 1, Steps := [suffixStep] }]
        = Prepared.panic "invalid object doc:1#view: unexpected relation: view"
    ∧ Prepare [{ Name := "m", Weight := 1, Steps := [bareSubjectStep] }]
        = Prepared.panic "invalid subject user: missing object ID"
    ∧ Prepare [{ Name := "m", Weight := 1, Steps := [upsertStep] }]
        = Prepared.panic "unknown WriteRelationships update operation: UPSERT" :=
  ⟨rfl, rfl, rfl⟩

/-! ## Properties: updates -/

theorem parseUpdates_cons_ok (su : Update) (rest : List Update) (out : List RelationshipUpdate)
    (h : parseUpdates (su :: rest) = Res.ok out) :
    ∃ ru more, out = ru :: more ∧ updateParsed su ru ∧ parseUpdates rest = Res.ok more := by
  unfold parseUpdates at h
  dsimp only at h
  split at h
  · cases h
  · rename_i op hop
    split at h
    · cases h
    · cases h
    · rename_i res hres
      split at h
      · cases h
      · cases h
      · rename_i sub hsub
        split at h
        · rename_i more hmore
          simp only [Res.ok.injEq] at h
          refine ⟨_, more, h.symm, ⟨?_, hres, hsub, rfl, ?_⟩, hmore⟩
          · exact hop
          · cases su.Caveat <;> rfl
        · cases h
        · cases h

theorem parseUpdates_forall₂ :
    ∀ (updates : List Update) (out : List RelationshipUpdate),
      parseUpdates updates = Res.ok out → List.Forall₂ updateParsed updates out
  | [], out, h => by
    simp only [parseUpdates, Res.ok.injEq] at h
    subst h
    exact List.Forall₂.nil
  | su :: rest, out, h => by
    obtain ⟨ru, more, hout, hru, hmore⟩ := parseUpdates_cons_ok su rest out h
    subst hout
    exact List.Forall₂.cons hru (parseUpdates_forall₂ rest more hmore)

theorem parseUpdates_ok_of_tags :
    ∀ updates : List Update,
      (∀ su ∈ updates, (∃ res, parseObject su.Resource = Res.ok res)
        ∧ (∃ sub, parseSubject su.Subject = Res.ok sub)) →
      (∀ su ∈ updates, su.Op = "TOUCH" ∨ su.Op = "CREATE" ∨ su.Op = "DELETE") →
      ∃ out, parseUpdates updates = Res.ok out
  | [], _, _ => ⟨[], rfl⟩
  | su :: rest, hwf, htag => by
    obtain ⟨⟨res, hres⟩, ⟨sub, hsub⟩⟩ := hwf su (List.mem_cons_self _ _)
    obtain ⟨more, hmore⟩ := parseUpdates_ok_of_tags rest
      (fun u hu => hwf u (List.mem_cons_of_mem _ hu))
      (fun u hu => htag u (List.mem_cons_of_mem _ hu))
    rcases htag su (List.mem_cons_self _ _) with h | h | h <;>
      simp [parseUpdates, h, hres, hsub, hmore]

theorem operationNamed_some (tag : String) (op : UpdateOperation)
    (h : operationNamed tag = some op) : tag = "TOUCH" ∨ tag = "CREATE" ∨ tag = "DELETE" := by
  unfold operationNamed at h
  by_cases h1 : tag = "TOUCH"
  · exact Or.inl h1
  · by_cases h2 : tag = "CREATE"
    · exact Or.inr (Or.inl h2)
    · by_cases h3 : tag = "DELETE"
      · exact Or.inr (Or.inr h3)
      · simp [h1, h2, h3] at h

/-- C18: on a list of updates with well-formed resources and subjects, `parseUpdates`
succeeds exactly when every tag is `TOUCH`, `CREATE` or `DELETE`; its result then has the
length of the input, and at every position the relationship update has the operation
named by the tag of the update at that position, its parsed resource and subject, its
relation string, and its caveat (name and context) exactly when it declares one. -/
theorem parseUpdates_spec (updates : List Update)
    (hwf : ∀ su ∈ updates, (∃ res, parseObject su.Resource = Res.ok res)
      ∧ (∃ sub, parseSubject su.Subject = Res.ok sub)) :
    ((∃ out, parseUpdates updates = Res.ok out)
        ↔ ∀ su ∈ updates, su.Op = "TOUCH" ∨ su.Op = "CREATE" ∨ su.Op = "DELETE")
    ∧ (∀ out, parseUpdates updates = Res.ok out →
        out.length = updates.length
        ∧ ∀ (i : Nat) (su : Update) (ru : RelationshipUpdate),
            updates[i]? = some su → out[i]? = some ru → updateParsed su ru) := by
  refine ⟨⟨?_, parseUpdates_ok_of_tags updates hwf⟩, ?_⟩
  · rintro ⟨out, hout⟩ su hsu
    have hf := parseUpdates_forall₂ updates out hout
    obtain ⟨i, hi⟩ := List.getElem?_of_mem hsu
    have hlt : i < out.length := by
      rw [← hf.length_eq]
      exact (List.getElem?_eq_some_iff.mp hi).1
    have hru : out[i]? = some out[i] := List.getElem?_eq_getElem hlt
    exact operationNamed_some su.Op _ (forall₂_getElem? updateParsed _ _ hf i su _ hi hru).1
  · intro out hout
    have hf := parseUpdates_forall₂ updates out hout
    exact ⟨hf.length_eq.symm, forall₂_getElem? updateParsed updates out hf⟩

/-- Witness of C18: a `TOUCH` without caveat and a `DELETE` with a caveat. -/
theorem parseUpdates_spec_witness :
    ((∃ out, parseUpdates twoUpdates = Res.ok out)
        ↔ ∀ su ∈ twoUpdates, su.Op = "TOUCH" ∨ su.Op = "CREATE" ∨ su.Op = "DELETE")
    ∧ (∀ out, parseUpdates twoUpdates = Res.ok out →
        out.length = twoUpdates.length
        ∧ ∀ (i : Nat) (su : Update) (ru : RelationshipUpdate),
            twoUpdates[i]? = some su → out[i]? = some ru → updateParsed su ru) :=
  parseUpdates_spec twoUpdates (fun su hsu => by
    simp only [twoUpdates, List.mem_cons, List.mem_singleton, List.not_mem_nil, or_false] at hsu
    rcases hsu with h | h <;> subst h <;> exact ⟨⟨_, rfl⟩, ⟨_, rfl⟩⟩)

/-! ## Properties: verification errors and request templates -/

theorem checkPairs_error (step : ScriptStep) :
    ∀ (pairs : List CheckBulkPermissionsPair) (idx : Nat) (t : Option ZedToken) (e : GoError),
      checkPairs step pairs idx = some (Returned.values t (some e)) →
      ∃ (j : Nat) (pair : CheckBulkPermissionsPair) (item : CheckBulkPermissionsResponseItem)
        (check : Check),
        pairs[j]? = some pair ∧ pair.GetItem = some item ∧ step.Checks[idx + j]? = some check
        ∧ item.Permissionship ≠ checkExpected check ∧ t = none
        ∧ e = checkBulkWrong check item.Permissionship
  | [], idx, t, e, h => by simp [checkPairs] at h
  | pair :: pairs, idx, t, e, h => by
    unfold checkPairs at h
    split at h
    · simp at h
    · rename_i check hcheck
      dsimp only at h
      split at h
      · simp at h
      · rename_i item hitem
        split at h
        · rename_i hne
          simp only [Option.some.injEq, Returned.values.injEq] at h
          exact ⟨0, pair, item, check, by simp, hitem, by rw [Nat.add_zero]; exact hcheck, hne,
            h.1.symm, h.2.symm⟩
        · obtain ⟨j, p, it, c, hp, hit, hc, hne, ht, he⟩ :=
            checkPairs_error step pairs (idx + 1) t e h
          refine ⟨j + 1, p, it, c, by simpa using hp, hit, ?_, hne, ht, he⟩
          rw [show idx + (j + 1) = idx + 1 + j by omega]
          exact hc

/-- C19, as stated, fails: the scenario step compiled to expect no-permission and the same
step compiled to expect conditional permission, each answered has-permission, return the
very same error; its text has the resource, the permission, the subject and the observed
permissionship, and nothing of the expected one. -/
theorem wrong_permissionship_error_without_expected :
    prepareStep expectNoStep = Res.ok expectNoCompiled
    ∧ prepareStep expectConditionalStep = Res.ok expectConditionalCompiled
    ∧ stepExpected expectNoStep = Permissionship.PERMISSIONSHIP_NO_PERMISSION
    ∧ stepExpected expectConditionalStep = Permissionship.PERMISSIONSHIP_CONDITIONAL_PERMISSION
    ∧ (expectNoCompiled.body.call
          (stubClient Permissionship.PERMISSIONSHIP_HAS_PERMISSION [] []) () none).ret
        = Returned.values none (some (GoError.errorf
            "CheckPermission returned wrong permissionship: doc:1#view@user:alice => PERMISSIONSHIP_HAS_PERMISSION"))
    ∧ (expectConditionalCompiled.body.call
          (stubClient Permissionship.PERMISSIONSHIP_HAS_PERMISSION [] []) () none).ret
        = Returned.values none (some (GoError.errorf
            "CheckPermission returned wrong permissionship: doc:1#view@user:alice => PERMISSIONSHIP_HAS_PERMISSION")) :=
  ⟨rfl, rfl, by decide, by decide, rfl, rfl⟩

/-- C19, amended: when a compiled `CheckPermission` step is answered a permissionship
other than its expected one, it returns the error whose text is made of the resource,
permission and subject strings of the step and the observed permissionship; when a
compiled `CheckBulkPermissions` step whose client call succeeded returns an error, some
result pair differs from the expected permissionship of the check at its position, and
the error's text is made of the resource, permission and subject strings of that check
and the observed permissionship. -/
theorem verification_error_text (step : ScriptStep) (es : executableStep)
    (hprep : prepareStep step = Res.ok es)
    {σ : Type} (client : Client σ) (state : σ) (zt : Option ZedToken) :
    (step.Op = "CheckPermission" →
      ∀ (req : CheckPermissionRequest) (resp : CheckPermissionResponse),
        (es.body.call client state zt).sent = Rpc.CheckPermission req →
        (client.CheckPermission req state).1 = Except.ok resp →
        resp.Permissionship ≠ stepExpected step →
        (es.body.call client state zt).ret
          = Returned.values none (some (GoError.errorf
              ("CheckPermission returned wrong permissionship: " ++ step.Resource ++ "#"
                ++ step.Permission ++ "@" ++ step.Subject ++ " => "
                ++ resp.Permissionship.String))))
    ∧ (step.Op = "CheckBulkPermissions" →
      ∀ (req : CheckBulkPermissionsRequest) (resp : CheckBulkPermissionsResponse)
        (t : Option ZedToken) (e : GoError),
        (es.body.call client state zt).sent = Rpc.CheckBulkPermissions req →
        (client.CheckBulkPermissions req state).1 = Except.ok resp →
        (es.body.call client state zt).ret = Returned.values t (some e) →
        ∃ (i : Nat) (pair : CheckBulkPermissionsPair) (item : CheckBulkPermissionsResponseItem)
          (check : Check),
          resp.Pairs[i]? = some pair ∧ pair.GetItem = some item
          ∧ step.Checks[i]? = some check
          ∧ item.Permissionship ≠ checkExpected check ∧ t = none
          ∧ e = GoError.errorf
              ("CheckBulkPermissions returned wrong permissionship: " ++ check.Resource ++ "#"
                ++ check.Permission ++ "@" ++ check.Subject ++ " => "
                ++ item.Permissionship.String)) := by
  obtain ⟨f, d, -, -, -, hbody⟩ := prepareStep_ok_body step es hprep
  constructor
  · intro hop req resp hsent hresp hne
    simp only [hop, String.reduceEq, false_and, or_false, false_or, true_and] at hbody
    obtain ⟨req0, hb⟩ := hbody
    rw [hb, call_CheckPermission] at hsent ⊢
    simp only [Rpc.CheckPermission.injEq] at hsent
    dsimp only
    rw [hsent, hresp]
    simp [hne, checkPermissionWrong]
  · intro hop req resp t e hsent hresp hret
    simp only [hop, String.reduceEq, false_and, or_false, false_or, true_and] at hbody
    obtain ⟨items, hb⟩ := hbody
    rw [hb, call_CheckBulkPermissions] at hsent hret
    simp only [Rpc.CheckBulkPermissions.injEq] at hsent
    dsimp only at hret
    rw [hsent, hresp] at hret
    dsimp only at hret
    cases hcp : checkPairs step resp.Pairs 0 with
    | none => simp [hcp] at hret
    | some r =>
      rw [hcp] at hret
      dsimp only at hret
      subst hret
      obtain ⟨j, pair, item, check, hp, hit, hc, hne, ht, he⟩ :=
        checkPairs_error step resp.Pairs 0 t e hcp
      rw [Nat.zero_add] at hc
      exact ⟨j, pair, item, check, hp, hit, hc, hne, ht, he⟩

/-- Witness of C19 amended: the scenario step expecting no-permission, answered
has-permission. -/
theorem verification_error_text_witness :
    (expectNoCompiled.body.call
        (stubClient Permissionship.PERMISSIONSHIP_HAS_PERMISSION [] []) () none).ret
      = Returned.values none (some (GoError.errorf
          ("CheckPermission returned wrong permissionship: " ++ expectNoStep.Resource ++ "#"
            ++ expectNoStep.Permission ++ "@" ++ expectNoStep.Subject ++ " => "
            ++ Permissionship.PERMISSIONSHIP_HAS_PERMISSION.String))) :=
  (verification_error_text expectNoStep expectNoCompiled rfl
    (stubClient Permissionship.PERMISSIONSHIP_HAS_PERMISSION [] []) () none).1 rfl
    { Consistency := some minimizeLatency, Resource := { ObjectType := "doc", ObjectId := "1" },
      Permission := "view",
      Subject := { Object := { ObjectType := "user", ObjectId := "alice" },
                   OptionalRelation := "" },
      Context := none }
    { CheckedAt := some { Token := "at1" },
      Permissionship := Permissionship.PERMISSIONSHIP_HAS_PERMISSION }
    rfl rfl (by decide)

/-- C20, on the code: the compiled `CheckPermission` step under `AtLeastAsFresh` holds a
request template without consistency parameter; after one call with the token `t1` the
template it holds has the consistency parameter bound to `t1`. -/
theorem template_written_by_call :
    prepareStep freshStep = Res.ok freshCompiled
    ∧ freshCompiled.body.template
        = some (Rpc.CheckPermission
            { Consistency := none, Resource := { ObjectType := "doc", ObjectId := "1" },
              Permission := "view",
              Subject := { Object := { ObjectType := "user", ObjectId := "alice" },
                           OptionalRelation := "" },
              Context := none })
    ∧ (freshCompiled.body.call (stubClient Permissionship.PERMISSIONSHIP_HAS_PERMISSION [] [])
          () (some { Token := "t1" })).body.template
        = some (Rpc.CheckPermission
            { Consistency := some { Requirement := Requirement.AtLeastAsFresh { Token := "t1" } },
              Resource := { ObjectType := "doc", ObjectId := "1" },
              Permission := "view",
              Subject := { Object := { ObjectType := "user", ObjectId := "alice" },
                           OptionalRelation := "" },
              Context := none }) :=
  ⟨rfl, rfl, rfl⟩

/-! ## Properties: subjects and relationship filters -/

/-- C27: with `(t, i, r)` the triple `parseComponents` gives for `s`, `parseSubject`
succeeds exactly when `t` and `i` are both non-empty, and then yields the subject
reference of type `t`, id `i` and optional relation `r`, whatever `r` is. -/
theorem parseSubject_spec (s t i r : String) (hpc : parseComponents s = (t, i, r)) :
    ((∃ ref, parseSubject s = Res.ok ref) ↔ t ≠ "" ∧ i ≠ "")
    ∧ (∀ ref, parseSubject s = Res.ok ref →
        ref = { Object := { ObjectType := t, ObjectId := i }, OptionalRelation := r })
    ∧ (t ≠ "" → i ≠ "" →
        parseSubject s
          = Res.ok { Object := { ObjectType := t, ObjectId := i }, OptionalRelation := r }) := by
  unfold parseSubject
  rw [hpc]
  dsimp only
  by_cases ht : t = ""
  · simp [ht]
  · by_cases hi : i = ""
    · simp [ht, hi]
    · simp only [ht, hi, if_false, Res.ok.injEq, exists_eq', ne_eq, not_false_eq_true,
        and_self, true_and, true_iff, forall_const, and_true]
      intro ref href
      exact href.symm

/-- Witness of C27: a subject with a relation. -/
theorem parseSubject_spec_witness :
    ((∃ ref, parseSubject "group:eng#member" = Res.ok ref) ↔ "group" ≠ "" ∧ "eng" ≠ "")
    ∧ (∀ ref, parseSubject "group:eng#member" = Res.ok ref →
        ref = { Object := { ObjectType := "group", ObjectId := "eng" },
                OptionalRelation := "member" })
    ∧ ("group" ≠ "" → "eng" ≠ "" →
        parseSubject "group:eng#member"
          = Res.ok { Object := { ObjectType := "group", ObjectId := "eng" },
                     OptionalRelation := "member" }) :=
  parseSubject_spec "group:eng#member" "group" "eng" "member" (by decide)

/-- C28: on a resource whose parsed relation is empty, `parseRelationshipFilter` succeeds;
the filter has the parsed type and id of the resource and the given relation; it has no
subject filter when `sub` is empty, and else the subject filter with the parsed type and
id of `sub` (empty or not), whose relation filter is absent when the parsed relation of
`sub` is empty and else holds that relation. On a resource whose parsed relation is not
empty it does not succeed. -/
theorem parseRelationshipFilter_spec (resource relation sub : String) :
    ((parseComponents resource).2.2 = "" →
      parseRelationshipFilter resource relation sub
        = Res.ok
            { ResourceType := (parseComponents resource).1,
              OptionalResourceId := (parseComponents resource).2.1,
              OptionalRelation := relation,
              OptionalSubjectFilter :=
                if sub = "" then none
                else some
                  { SubjectType := (parseComponents sub).1,
                    OptionalSubjectId := (parseComponents sub).2.1,
                    OptionalRelation :=
                      if (parseComponents sub).2.2 = "" then none
                      else some { Relation := (parseComponents sub).2.2 } } })
    ∧ ((parseComponents resource).2.2 ≠ "" →
        ∀ filter, parseRelationshipFilter resource relation sub ≠ Res.ok filter) := by
  unfold parseRelationshipFilter
  rcases hres : parseComponents resource with ⟨resType, resID, resRel⟩
  rcases hsub : parseComponents sub with ⟨subType, subID, subRel⟩
  dsimp only
  constructor
  · intro h
    subst h
    by_cases hs : sub = ""
    · simp [hs]
    · by_cases hr : subRel = ""
      · simp [hs, hr]
      · simp [hs, hr]
  · intro h filter hf
    simp [h] at hf

/-- Witness of C28: a filter on `doc:1` with the subject `group:eng#member`. -/
theorem parseRelationshipFilter_spec_witness :
    parseRelationshipFilter "doc:1" "viewer" "group:eng#member"
      = Res.ok
          { ResourceType := (parseComponents "doc:1").1,
            OptionalResourceId := (parseComponents "doc:1").2.1,
            OptionalRelation := "viewer",
            OptionalSubjectFilter :=
              if "group:eng#member" = "" then none
              else some
                { SubjectType := (parseComponents "group:eng#member").1,
                  OptionalSubjectId := (parseComponents "group:eng#member").2.1,
                  OptionalRelation :=
                    if (parseComponents "group:eng#member").2.2 = "" then none
                    else some { Relation := (parseComponents "group:eng#member").2.2 } } } :=
  (parseRelationshipFilter_spec "doc:1" "viewer" "group:eng#member").1 (by decide)

/-! ## Properties: bulk checks against longer and shorter responses -/

theorem nil_panic_ne_index_panic (index len : Nat) :
    "runtime error: invalid memory address or nil pointer dereference"
      ≠ "runtime error: index out of range [" ++ toString index ++ "] with length "
          ++ toString len := by
  intro h
  have hd := congrArg (fun s : String => s.data.take 18) h
  simp only [String.data_append] at hd
  rw [List.append_assoc, List.append_assoc, List.take_append_of_le_length (by decide)] at hd
  revert hd
  decide

theorem checkPairs_in_bounds (step : ScriptStep) (index len : Nat) :
    ∀ (pairs : List CheckBulkPermissionsPair) (idx : Nat),
      idx + pairs.length ≤ step.Checks.length →
      checkPairs step pairs idx
        ≠ some (Returned.panic ("runtime error: index out of range [" ++ toString index
            ++ "] with length " ++ toString len))
  | [], idx, _ => by simp [checkPairs]
  | pair :: pairs, idx, hlen => by
    have hidx : idx < step.Checks.length := by
      simp only [List.length_cons] at hlen
      omega
    have hcheck : step.Checks[idx]? = some step.Checks[idx] := List.getElem?_eq_getElem hidx
    unfold checkPairs
    rw [hcheck]
    dsimp only
    split
    · intro h
      simp only [Option.some.injEq, Returned.panic.injEq] at h
      exact nil_panic_ne_index_panic index len h
    · split
      · simp
      · refine checkPairs_in_bounds step index len pairs (idx + 1) ?_
        simp only [List.length_cons] at hlen
        omega

theorem checkPairs_out_of_range (step : ScriptStep) :
    ∀ (pairs : List CheckBulkPermissionsPair) (idx : Nat), idx ≤ step.Checks.length →
      step.Checks.length < idx + pairs.length →
      (∀ j : Nat, idx + j < step.Checks.length →
        ∃ pair item check, pairs[j]? = some pair ∧ pair.GetItem = some item
          ∧ step.Checks[idx + j]? = some check
          ∧ item.Permissionship = checkExpected check) →
      checkPairs step pairs idx
        = some (Returned.panic ("runtime error: index out of range ["
            ++ toString step.Checks.length ++ "] with length "
            ++ toString step.Checks.length))
  | [], idx, h1, h2, _ => by
    simp only [List.length_nil, Nat.add_zero] at h2
    omega
  | pair :: pairs, idx, h1, h2, hall => by
    by_cases hidx : idx = step.Checks.length
    · have hnone : step.Checks[idx]? = none := by
        rw [List.getElem?_eq_none_iff]
        omega
      simp only [checkPairs, hnone]
      rw [hidx]
    · have hlt : idx < step.Checks.length := by omega
      obtain ⟨pair0, item, check, hp, hitem, hc, hmatch⟩ := hall 0 (by omega)
      simp only [List.getElem?_cons_zero, Option.some.injEq] at hp
      subst hp
      rw [Nat.add_zero] at hc
      have hstep : checkPairs step (pair :: pairs) idx = checkPairs step pairs (idx + 1) := by
        simp [checkPairs, hc, hitem, hmatch]
      rw [hstep]
      refine checkPairs_out_of_range step pairs (idx + 1) (by omega) ?_ ?_
      · simp only [List.length_cons] at h2
        omega
      · intro j hj
        obtain ⟨p, it, c, hp, hit, hc', hm⟩ := hall (j + 1) (by omega)
        refine ⟨p, it, c, by simpa using hp, hit, ?_, hm⟩
        rw [show idx + 1 + j = idx + (j + 1) by omega]
        exact hc'

theorem checkPairs_mismatch_first (step : ScriptStep) :
    ∀ (pairs : List CheckBulkPermissionsPair) (idx j : Nat) (pair : CheckBulkPermissionsPair)
      (item : CheckBulkPermissionsResponseItem) (check : Check),
      pairs[j]? = some pair → pair.GetItem = some item →
      step.Checks[idx + j]? = some check → item.Permissionship ≠ checkExpected check →
      (∀ k : Nat, k < j →
        ∃ pair' item' check', pairs[k]? = some pair' ∧ pair'.GetItem = some item'
          ∧ step.Checks[idx + k]? = some check'
          ∧ item'.Permissionship = checkExpected check') →
      checkPairs step pairs idx
        = some (Returned.values none (some (checkBulkWrong check item.Permissionship)))
  | [], idx, j, pair, item, check, hp, _, _, _, _ => by simp at hp
  | p0 :: pairs, idx, 0, pair, item, check, hp, hitem, hc, hne, _ => by
    simp only [List.getElem?_cons_zero, Option.some.injEq] at hp
    subst hp
    rw [Nat.add_zero] at hc
    simp [checkPairs, hc, hitem, hne]
  | p0 :: pairs, idx, j + 1, pair, item, check, hp, hitem, hc, hne, hmin => by
    obtain ⟨pair0, item0, check0, hp0, hitem0, hc0, hmatch0⟩ := hmin 0 (by omega)
    simp only [List.getElem?_cons_zero, Option.some.injEq] at hp0
    subst hp0
    rw [Nat.add_zero] at hc0
    have hstep : checkPairs step (p0 :: pairs) idx = checkPairs step pairs (idx + 1) := by
      simp [checkPairs, hc0, hitem0, hmatch0]
    rw [hstep]
    refine checkPairs_mismatch_first step pairs (idx + 1) j pair item check
      (by simpa using hp) hitem ?_ hne ?_
    · rw [show idx + 1 + j = idx + (j + 1) by omega]
      exact hc
    · intro k hk
      obtain ⟨p, it, c, hp', hit, hc', hm⟩ := hmin (k + 1) (by omega)
      refine ⟨p, it, c, by simpa using hp', hit, ?_, hm⟩
      rw [show idx + 1 + k = idx + (k + 1) by omega]
      exact hc'

theorem checkPairs_none_length (step : ScriptStep) :
    ∀ (pairs : List CheckBulkPermissionsPair) (idx : Nat), idx ≤ step.Checks.length →
      checkPairs step pairs idx = none → idx + pairs.length ≤ step.Checks.length
  | [], idx, hle, _ => by simpa using hle
  | pair :: pairs, idx, _, h => by
    unfold checkPairs at h
    split at h
    · simp at h
    · rename_i check hcheck
      have hlt : idx < step.Checks.length := (List.getElem?_eq_some_iff.mp hcheck).1
      dsimp only at h
      split at h
      · simp at h
      · split at h
        · simp at h
        · have := checkPairs_none_length step pairs (idx + 1) (by omega) h
          simp only [List.length_cons]
          omega

/-- C25, as stated, fails: the bulk step of two checks, answered three pairs that are all
has-permission, returns the verification error of its second check; the response has more
pairs than the step has checks, and the step does return a verification error. -/
theorem bulk_longer_response_verification_error :
    bulkStep.Checks.length = 2
    ∧ (bulkCompiled.body.call
          (stubClient Permissionship.PERMISSIONSHIP_HAS_PERMISSION
            [itemPair Permissionship.PERMISSIONSHIP_HAS_PERMISSION,
             itemPair Permissionship.PERMISSIONSHIP_HAS_PERMISSION,
             itemPair Permissionship.PERMISSIONSHIP_HAS_PERMISSION] []) () none).ret
        = Returned.values none (some (GoError.errorf
            "CheckBulkPermissions returned wrong permissionship: doc:2#edit@user:bob => PERMISSIONSHIP_HAS_PERMISSION")) :=
  ⟨rfl, rfl⟩

/-- C25, amended: in a compiled `CheckBulkPermissions` step whose client call succeeds, a
response of at most as many pairs as the step has checks never makes the lookup of a
check go out of range; a response of more pairs than checks never makes the step return
a token: when each of its first `len(checks)` pairs carries an item that matches the
expectation of the check at its position, the lookup of check number `len(checks)` is out
of range and the step panics, returning neither a token nor a verification error; and
when a pair carries an item that does not match, every pair before it carrying an item
that matches, the step returns the verification error of that pair. -/
theorem bulk_index_bounds (step : ScriptStep) (es : executableStep)
    (hop : step.Op = "CheckBulkPermissions") (hprep : prepareStep step = Res.ok es)
    {σ : Type} (client : Client σ) (state : σ) (zt : Option ZedToken)
    (req : CheckBulkPermissionsRequest) (resp : CheckBulkPermissionsResponse)
    (hsent : (es.body.call client state zt).sent = Rpc.CheckBulkPermissions req)
    (hresp : (client.CheckBulkPermissions req state).1 = Except.ok resp) :
    (resp.Pairs.length ≤ step.Checks.length →
      ∀ index len : Nat,
        (es.body.call client state zt).ret
          ≠ Returned.panic ("runtime error: index out of range [" ++ toString index
              ++ "] with length " ++ toString len))
    ∧ (step.Checks.length < resp.Pairs.length →
        (∀ t, (es.body.call client state zt).ret ≠ Returned.values t none)
        ∧ ((∀ i : Nat, i < step.Checks.length →
              ∃ pair item check, resp.Pairs[i]? = some pair ∧ pair.GetItem = some item
                ∧ step.Checks[i]? = some check
                ∧ item.Permissionship = checkExpected check) →
            (es.body.call client state zt).ret
              = Returned.panic ("runtime error: index out of range ["
                  ++ toString step.Checks.length ++ "] with length "
                  ++ toString step.Checks.length))
        ∧ (∀ (i : Nat) (pair : CheckBulkPermissionsPair)
            (item : CheckBulkPermissionsResponseItem) (check : Check),
            resp.Pairs[i]? = some pair → pair.GetItem = some item →
            step.Checks[i]? = some check → item.Permissionship ≠ checkExpected check →
            (∀ j : Nat, j < i →
              ∃ pair' item' check', resp.Pairs[j]? = some pair' ∧ pair'.GetItem = some item'
                ∧ step.Checks[j]? = some check'
                ∧ item'.Permissionship = checkExpected check') →
            (es.body.call client state zt).ret
              = Returned.values none (some (checkBulkWrong check item.Permissionship)))) := by
  obtain ⟨f, d, -, -, -, hbody⟩ := prepareStep_ok_body step es hprep
  simp only [hop, String.reduceEq, false_and, or_false, false_or, true_and] at hbody
  obtain ⟨items, hitems⟩ := hbody
  rw [hitems, call_CheckBulkPermissions] at hsent ⊢
  simp only [Rpc.CheckBulkPermissions.injEq] at hsent
  rw [hsent, hresp]
  dsimp only
  constructor
  · intro hlen index len
    cases hcp : checkPairs step resp.Pairs 0 with
    | none => simp
    | some r =>
      dsimp only
      intro hr
      rw [hr] at hcp
      exact checkPairs_in_bounds step index len resp.Pairs 0 (by omega) hcp
  · intro hlen
    refine ⟨?_, ?_, ?_⟩
    · intro t ht
      cases hcp : checkPairs step resp.Pairs 0 with
      | none =>
        have := checkPairs_none_length step resp.Pairs 0 (by omega) hcp
        omega
      | some r =>
        rw [hcp] at ht
        dsimp only at ht
        rw [ht] at hcp
        exact checkPairs_ne_success step t _ 0 hcp
    · intro hall
      rw [checkPairs_out_of_range step resp.Pairs 0 (by omega) (by omega)
        (fun j hj => by
          rw [Nat.zero_add] at hj ⊢
          exact hall j hj)]
    · intro i pair item check hp hitem hc hne hmin
      rw [checkPairs_mismatch_first step resp.Pairs 0 i pair item check hp hitem
        (by rw [Nat.zero_add]; exact hc) hne
        (fun k hk => by
          rw [Nat.zero_add]
          exact hmin k hk)]

/-- Witness of C25 amended: the bulk step of two checks, answered three pairs of which
the first two carry matching items; the third lookup is out of range, whatever the third
pair holds. -/
theorem bulk_index_bounds_witness :
    (bulkCompiled.body.call
        (stubClient Permissionship.PERMISSIONSHIP_HAS_PERMISSION
          [itemPair Permissionship.PERMISSIONSHIP_HAS_PERMISSION,
           itemPair Permissionship.PERMISSIONSHIP_NO_PERMISSION,
           errorPair] []) () none).ret
      = Returned.panic ("runtime error: index out of range ["
          ++ toString bulkStep.Checks.length ++ "] with length "
          ++ toString bulkStep.Checks.length) :=
  ((bulk_index_bounds bulkStep bulkCompiled rfl rfl
    (stubClient Permissionship.PERMISSIONSHIP_HAS_PERMISSION
      [itemPair Permissionship.PERMISSIONSHIP_HAS_PERMISSION,
       itemPair Permissionship.PERMISSIONSHIP_NO_PERMISSION,
       errorPair] []) () none
    { Consistency := some fullConsistency, Items := _ }
    { CheckedAt := some { Token := "at1" },
      Pairs := [itemPair Permissionship.PERMISSIONSHIP_HAS_PERMISSION,
                itemPair Permissionship.PERMISSIONSHIP_NO_PERMISSION,
                errorPair] }
    rfl rfl).2 (by decide)).2.1
    (fun i hi => by
      have hi' : i < 2 := hi
      interval_cases i
      · exact ⟨_, _, _, rfl, rfl, rfl, by decide⟩
      · exact ⟨_, _, _, rfl, rfl, rfl, by decide⟩)

/-- C26: a compiled `CheckBulkPermissions` step whose client call succeeds with fewer
item-carrying pairs than the step has checks, each pair matching the expectation of the
check at its position, returns the response's `CheckedAt` and no error, whatever the
remaining checks expect; with no pair at all it does so for every list of checks. -/
theorem bulk_short_response_succeeds (step : ScriptStep) (es : executableStep)
    (hop : step.Op = "CheckBulkPermissions") (hprep : prepareStep step = Res.ok es)
    {σ : Type} (client : Client σ) (state : σ) (zt : Option ZedToken)
    (req : CheckBulkPermissionsRequest) (resp : CheckBulkPermissionsResponse)
    (hsent : (es.body.call client state zt).sent = Rpc.CheckBulkPermissions req)
    (hresp : (client.CheckBulkPermissions req state).1 = Except.ok resp) :
    (∀ ps : List Permissionship, resp.Pairs = ps.map itemPair →
      ps.length < step.Checks.length →
      (∀ (i : Nat) (p : Permissionship) (check : Check),
        ps[i]? = some p → step.Checks[i]? = some check → p = checkExpected check) →
      (es.body.call client state zt).ret = Returned.values resp.CheckedAt none)
    ∧ (resp.Pairs = [] →
        (es.body.call client state zt).ret = Returned.values resp.CheckedAt none) := by
  obtain ⟨f, d, -, -, -, hbody⟩ := prepareStep_ok_body step es hprep
  simp only [hop, String.reduceEq, false_and, or_false, false_or, true_and] at hbody
  obtain ⟨items, hitems⟩ := hbody
  rw [hitems, call_CheckBulkPermissions] at hsent ⊢
  simp only [Rpc.CheckBulkPermissions.injEq] at hsent
  rw [hsent, hresp]
  dsimp only
  constructor
  · intro ps hpairs hlen hall
    rw [hpairs]
    rcases checkPairs_scan step ps 0 (by omega) with ⟨hnone, -⟩ | ⟨j, q, c, hq, hc, hne, -, -⟩
    · rw [hnone]
    · rw [Nat.zero_add] at hc
      exact absurd (hall j q c hq hc) hne
  · intro hnil
    rw [hnil]
    simp [checkPairs]

/-- Witness of C26: the bulk step of two checks, answered the single pair has-permission;
the second check, which expects no-permission, is not compared. -/
theorem bulk_short_response_succeeds_witness :
    (bulkCompiled.body.call
        (stubClient Permissionship.PERMISSIONSHIP_HAS_PERMISSION
          [itemPair Permissionship.PERMISSIONSHIP_HAS_PERMISSION] []) () none).ret
      = Returned.values (some { Token := "at1" }) none :=
  (bulk_short_response_succeeds bulkStep bulkCompiled rfl rfl
    (stubClient Permissionship.PERMISSIONSHIP_HAS_PERMISSION
      [itemPair Permissionship.PERMISSIONSHIP_HAS_PERMISSION] []) () none
    { Consistency := some fullConsistency, Items := _ }
    { CheckedAt := some { Token := "at1" },
      Pairs := [itemPair Permissionship.PERMISSIONSHIP_HAS_PERMISSION] }
    rfl rfl).1 [Permissionship.PERMISSIONSHIP_HAS_PERMISSION] rfl (by decide)
    (fun i p check hp hc => by
      have hi : i < 1 := (List.getElem?_eq_some_iff.mp hp).1
      interval_cases i
      cases hp; cases hc; rfl)

/-! ## Properties: the migrate command -/

theorem migrateLoadLoop_ok {ρ : Type} (Load : Loader ρ) :
    ∀ (args : List String) (loader : ρ) (acc prepared : List ExecutableScript) (loader' : ρ),
      migrateLoadLoop Load args loader acc = (Res.ok prepared, loader') →
      ∃ perFile : List (List ExecutableScript), prepared = acc ++ perFile.flatten
        ∧ List.Forall₂
            (fun scriptFilename preparedFileScripts =>
              ∃ l fileScripts usedRandom l',
                Load scriptFilename l = (Except.ok (fileScripts, usedRandom), l')
                ∧ Prepare fileScripts = Prepared.returned preparedFileScripts none)
            args perFile
  | [], loader, acc, prepared, loader', h => by
    simp only [migrateLoadLoop, Prod.mk.injEq, Res.ok.injEq] at h
    exact ⟨[], by simp [h.1], List.Forall₂.nil⟩
  | f :: args, loader, acc, prepared, loader', h => by
    unfold migrateLoadLoop at h
    split at h
    · simp at h
    · rename_i fileScripts flag l1 hl
      split at h
      · simp at h
      · simp at h
      · rename_i p hp
        obtain ⟨perFile, hprep, hall⟩ := migrateLoadLoop_ok Load args l1 (acc ++ p) prepared loader' h
        exact ⟨p :: perFile, by simp [hprep], List.Forall₂.cons ⟨loader, fileScripts, flag, l1, hl, hp⟩ hall⟩

theorem migrateRunLoop_trace {σ : Type} (RunOnce : Runner σ) :
    ∀ (scripts : List ExecutableScript) (state : σ),
      ((migrateRunLoop RunOnce scripts state).ran.map Prod.fst) <+: scripts
      ∧ (∀ (i : Nat) (entry : ExecutableScript × Option GoError),
          (migrateRunLoop RunOnce scripts state).ran[i]? = some entry →
          i + 1 < (migrateRunLoop RunOnce scripts state).ran.length → entry.2 = none)
      ∧ (∀ entry ∈ (migrateRunLoop RunOnce scripts state).ran, ∀ e, entry.2 = some e →
          (migrateRunLoop RunOnce scripts state).err
            = some (GoError.wrap "error running migration scripts: %w" e))
      ∧ ((migrateRunLoop RunOnce scripts state).err = none →
          (migrateRunLoop RunOnce scripts state).ran.map Prod.fst = scripts
          ∧ ∀ entry ∈ (migrateRunLoop RunOnce scripts state).ran, entry.2 = none)
      ∧ ((∀ entry ∈ (migrateRunLoop RunOnce scripts state).ran, entry.2 = none) →
          (migrateRunLoop RunOnce scripts state).err = none)
  | [], state => by simp [migrateRunLoop]
  | script :: scripts, state => by
    unfold migrateRunLoop
    split
    · rename_i err st hr
      dsimp only
      refine ⟨by simp [List.prefix_cons_inj], ?_, ?_, ?_, ?_⟩
      · intro i entry _ hi
        simp at hi
      · intro entry hentry e he
        simp only [List.mem_singleton] at hentry
        subst hentry
        simp only [Option.some.injEq] at he
        rw [he]
      · intro h
        cases h
      · intro h
        have := h (script, some err) (by simp)
        simp at this
    · rename_i st hr
      obtain ⟨h1, h2, h3, h4, h5⟩ := migrateRunLoop_trace RunOnce scripts st
      dsimp only
      refine ⟨?_, ?_, ?_, ?_, ?_⟩
      · simpa [List.prefix_cons_inj] using h1
      · intro i entry hget hi
        cases i with
        | zero =>
          simp only [List.getElem?_cons_zero, Option.some.injEq] at hget
          rw [← hget]
        | succ i =>
          simp only [List.getElem?_cons_succ] at hget
          simp only [List.length_cons] at hi
          exact h2 i entry hget (by omega)
      · intro entry hentry e he
        simp only [List.mem_cons] at hentry
        rcases hentry with h | h
        · subst h
          simp at he
        · exact h3 entry h e he
      · intro h
        obtain ⟨ha, hb⟩ := h4 h
        refine ⟨by simp [ha], ?_⟩
        intro entry hentry
        simp only [List.mem_cons] at hentry
        rcases hentry with h | h
        · subst h
          rfl
        · exact hb entry h
      · intro h
        exact h5 (fun entry hentry => h entry (List.mem_cons_of_mem _ hentry))

/-- C21: when every file loads and compiles, `migrateCmdFunc` runs the prepared scripts,
which are the compiled scripts of the files in the order of the arguments: the scripts
it runs, in the order of the runs, are an initial part of that list (each run once, none
skipped); only the last run made can have failed, so no script is run after a failed one;
the command returns an error exactly when a script it ran failed, the error wrapping that
of the failed run; and when no run fails, every script of the list is run. -/
theorem migrate_runs_in_order {ρ σ : Type} (Load : Loader ρ) (RunOnce : Runner σ)
    (args : List String) (loader loader' : ρ) (state : σ)
    (preparedScripts : List ExecutableScript)
    (hload : migrateLoadLoop Load args loader [] = (Res.ok preparedScripts, loader')) :
    (∃ perFile : List (List ExecutableScript), preparedScripts = perFile.flatten
        ∧ List.Forall₂
            (fun scriptFilename preparedFileScripts =>
              ∃ l fileScripts usedRandom l',
                Load scriptFilename l = (Except.ok (fileScripts, usedRandom), l')
                ∧ Prepare fileScripts = Prepared.returned preparedFileScripts none)
            args perFile)
    ∧ ((migrateCmdFunc Load RunOnce args loader state).ran.map Prod.fst) <+: preparedScripts
    ∧ (∀ (i : Nat) (entry : ExecutableScript × Option GoError),
        (migrateCmdFunc Load RunOnce args loader state).ran[i]? = some entry →
        i + 1 < (migrateCmdFunc Load RunOnce args loader state).ran.length → entry.2 = none)
    ∧ ((∃ e, (migrateCmdFunc Load RunOnce args loader state).result
            = CmdResult.returned (some e))
        ↔ ∃ entry ∈ (migrateCmdFunc Load RunOnce args loader state).ran, entry.2 ≠ none)
    ∧ (∀ entry ∈ (migrateCmdFunc Load RunOnce args loader state).ran, ∀ e, entry.2 = some e →
        (migrateCmdFunc Load RunOnce args loader state).result
          = CmdResult.returned (some (GoError.wrap "error running migration scripts: %w" e)))
    ∧ ((∀ entry ∈ (migrateCmdFunc Load RunOnce args loader state).ran, entry.2 = none) →
        (migrateCmdFunc Load RunOnce args loader state).result = CmdResult.returned none
        ∧ (migrateCmdFunc Load RunOnce args loader state).ran.map Prod.fst
            = preparedScripts) := by
  obtain ⟨perFile, hflat, hall⟩ := migrateLoadLoop_ok Load args loader [] preparedScripts loader' hload
  rw [List.nil_append] at hflat
  obtain ⟨h1, h2, h3, h4, h5⟩ := migrateRunLoop_trace RunOnce preparedScripts state
  have hres : (migrateCmdFunc Load RunOnce args loader state).result
      = CmdResult.returned (migrateRunLoop RunOnce preparedScripts state).err := by
    simp [migrateCmdFunc, hload]
  have hran : (migrateCmdFunc Load RunOnce args loader state).ran
      = (migrateRunLoop RunOnce preparedScripts state).ran := by
    simp [migrateCmdFunc, hload]
  rw [hres, hran]
  refine ⟨⟨perFile, hflat, hall⟩, h1, h2, ⟨?_, ?_⟩, ?_, ?_⟩
  · rintro ⟨e, he⟩
    simp only [CmdResult.returned.injEq] at he
    by_contra hno
    have hnone := h5 (fun entry hentry => by
      by_contra hne
      exact hno ⟨entry, hentry, hne⟩)
    rw [hnone] at he
    cases he
  · rintro ⟨entry, hentry, hne⟩
    obtain ⟨e, he⟩ := Option.ne_none_iff_exists'.mp hne
    exact ⟨_, by rw [h3 entry hentry e he]⟩
  · intro entry hentry e he
    rw [h3 entry hentry e he]
  · intro hnone
    have herr := h5 hnone
    exact ⟨by rw [herr], (h4 herr).1⟩

/-- Witness of C21: two files of one script each, the second run failing. -/
theorem migrate_runs_in_order_witness :
    traceNames (migrateCmdFunc plainLoader (countingRunner 1) ["a.yaml", "b.yaml"] () 0).ran
        = [("s1", none), ("s1", some (GoError.transport "unavailable"))]
    ∧ ∀ entry ∈ (migrateCmdFunc plainLoader (countingRunner 1) ["a.yaml", "b.yaml"] () 0).ran,
        ∀ e, entry.2 = some e →
        (migrateCmdFunc plainLoader (countingRunner 1) ["a.yaml", "b.yaml"] () 0).result
          = CmdResult.returned
              (some (GoError.wrap "error running migration scripts: %w" e)) :=
  ⟨by decide,
    (migrate_runs_in_order plainLoader (countingRunner 1) ["a.yaml", "b.yaml"] () () 0
      [goodCompiled, goodCompiled] rfl).2.2.2.2.1⟩

theorem migrateLoadLoop_failure {ρ : Type} (Load : Loader ρ) (failing : String)
    (hfail : ∀ l : ρ,
      (∃ e l', Load failing l = (Except.error e, l'))
      ∨ ∃ fileScripts usedRandom l' prepared e,
          Load failing l = (Except.ok (fileScripts, usedRandom), l')
          ∧ Prepare fileScripts = Prepared.returned prepared (some e)) :
    ∀ (args : List String), failing ∈ args → ∀ (loader : ρ) (acc : List ExecutableScript),
      (∀ prepared l', migrateLoadLoop Load args loader acc ≠ (Res.ok prepared, l'))
      ∧ ((∀ scriptFilename ∈ args, ∀ l fileScripts usedRandom l' msg,
            Load scriptFilename l = (Except.ok (fileScripts, usedRandom), l') →
            Prepare fileScripts ≠ Prepared.panic msg) →
          ∃ e l', migrateLoadLoop Load args loader acc = (Res.error e, l'))
  | [], hmem, _, _ => by simp at hmem
  | f :: args, hmem, loader, acc => by
    unfold migrateLoadLoop
    split
    · rename_i err l1 hl
      exact ⟨fun _ _ h => by simp at h, fun _ => ⟨_, _, rfl⟩⟩
    · rename_i fileScripts flag l1 hl
      split
      · rename_i msg hp
        refine ⟨fun _ _ h => by simp at h, fun hno => ?_⟩
        exact absurd hp (hno f (List.mem_cons_self _ _) loader fileScripts flag l1 msg hl)
      · exact ⟨fun _ _ h => by simp at h, fun _ => ⟨_, _, rfl⟩⟩
      · rename_i p hp
        have hmem' : failing ∈ args := by
          rcases List.mem_cons.mp hmem with h | h
          · subst h
            rcases hfail loader with ⟨e, l', he⟩ | ⟨fs, fl, l', pr, e, he, hpe⟩
            · rw [hl] at he
              simp at he
            · rw [hl] at he
              simp only [Prod.mk.injEq, Except.ok.injEq] at he
              obtain ⟨⟨hfs, -⟩, -⟩ := he
              subst hfs
              rw [hp] at hpe
              simp at hpe
          · exact h
        obtain ⟨ha, hb⟩ := migrateLoadLoop_failure Load failing hfail args hmem' l1 (acc ++ p)
        exact ⟨ha, fun hno => hb (fun g hg => hno g (List.mem_cons_of_mem _ hg))⟩

/-- When one of the files given to `migrateCmdFunc` fails to load or to compile,
whenever it is loaded, the command runs no script at all and leaves the service as it
was, whatever the position of the file among the arguments, and it does not return
success; it returns an error unless the compilation of a file panics. -/
theorem migrate_load_failure_runs_nothing {ρ σ : Type} (Load : Loader ρ) (RunOnce : Runner σ)
    (args : List String) (loader : ρ) (state : σ) (failing : String)
    (hmem : failing ∈ args)
    (hfail : ∀ l : ρ,
      (∃ e l', Load failing l = (Except.error e, l'))
      ∨ ∃ fileScripts usedRandom l' prepared e,
          Load failing l = (Except.ok (fileScripts, usedRandom), l')
          ∧ Prepare fileScripts = Prepared.returned prepared (some e)) :
    (migrateCmdFunc Load RunOnce args loader state).ran = []
    ∧ (migrateCmdFunc Load RunOnce args loader state).state = state
    ∧ (migrateCmdFunc Load RunOnce args loader state).result ≠ CmdResult.returned none
    ∧ ((∀ scriptFilename ∈ args, ∀ l fileScripts usedRandom l' msg,
          Load scriptFilename l = (Except.ok (fileScripts, usedRandom), l') →
          Prepare fileScripts ≠ Prepared.panic msg) →
        ∃ e, (migrateCmdFunc Load RunOnce args loader state).result
          = CmdResult.returned (some e)) := by
  obtain ⟨hnot, herr⟩ := migrateLoadLoop_failure Load failing hfail args hmem loader []
  unfold migrateCmdFunc
  split
  · rename_i err l' h
    exact ⟨rfl, rfl, by simp, fun _ => ⟨err, rfl⟩⟩
  · rename_i msg l' h
    refine ⟨rfl, rfl, by simp, fun hno => ?_⟩
    obtain ⟨e, l'', he⟩ := herr hno
    rw [h] at he
    simp at he
  · rename_i prepared l' h
    exact absurd h (hnot prepared l')

/-- The first file compiles, the second has a step with an unknown operation: nothing is
run. -/
theorem migrate_load_failure_runs_nothing_witness :
    (migrateCmdFunc secondFileBadLoader (countingRunner 5) ["a.yaml", "b.yaml"] () 0).ran = []
    ∧ (migrateCmdFunc secondFileBadLoader (countingRunner 5) ["a.yaml", "b.yaml"] () 0).state = 0
    ∧ (migrateCmdFunc secondFileBadLoader (countingRunner 5) ["a.yaml", "b.yaml"] () 0).result
        ≠ CmdResult.returned none :=
  ⟨(migrate_load_failure_runs_nothing secondFileBadLoader (countingRunner 5)
      ["a.yaml", "b.yaml"] () 0 "b.yaml" (by decide)
      (fun _ => Or.inr ⟨[frobnicateScript], false, (), [],
        GoError.errorf "unknown script step operation: Frobnicate", rfl, rfl⟩)).1,
    (migrate_load_failure_runs_nothing secondFileBadLoader (countingRunner 5)
      ["a.yaml", "b.yaml"] () 0 "b.yaml" (by decide)
      (fun _ => Or.inr ⟨[frobnicateScript], false, (), [],
        GoError.errorf "unknown script step operation: Frobnicate", rfl, rfl⟩)).2.1,
    (migrate_load_failure_runs_nothing secondFileBadLoader (countingRunner 5)
      ["a.yaml", "b.yaml"] () 0 "b.yaml" (by decide)
      (fun _ => Or.inr ⟨[frobnicateScript], false, (), [],
        GoError.errorf "unknown script step operation: Frobnicate", rfl, rfl⟩)).2.2.1⟩

/-- C22, on the code: with a first file whose step has a resource with a relation suffix,
`migrateCmdFunc` panics while compiling it, alone or followed by a file that does not
compile either; no script is run, and no error is returned. -/
theorem migrate_compile_panic :
    (migrateCmdFunc suffixThenBadLoader (countingRunner 5) ["a.yaml"] () 0).result
        = CmdResult.panic "invalid object doc:1#view: unexpected relation: view"
    ∧ (migrateCmdFunc suffixThenBadLoader (countingRunner 5) ["a.yaml"] () 0).ran = []
    ∧ (migrateCmdFunc suffixThenBadLoader (countingRunner 5) ["a.yaml", "b.yaml"] () 0).result
        = CmdResult.panic "invalid object doc:1#view: unexpected relation: view"
    ∧ (migrateCmdFunc suffixThenBadLoader (countingRunner 5) ["a.yaml", "b.yaml"] () 0).ran
        = [] :=
  ⟨rfl, rfl, rfl, rfl⟩


/-! ## Properties: the run command -/

/-- C23: for a target rate `W ≥ 1` the delay between two launches is the quotient
`⌊1000000000 / W⌋` nanoseconds, the loop sleeps `W` times, and the total `d` slept
satisfies `1000000000 - W < d ≤ 1000000000`; the divisor `W` is not zero, whereas for the
rate 0 the divisor is zero and the division has no value. -/
theorem timeBetween_stagger (W : Int) (hW : 1 ≤ W) :
    timeBetween W = some (1000000000 / W)
    ∧ kickOff W = some (kickOffLoop (1000000000 / W) W.toNat 0)
    ∧ totalSleep (kickOffLoop (1000000000 / W) W.toNat 0) = W * (1000000000 / W)
    ∧ 1000000000 - W < W * (1000000000 / W)
    ∧ W * (1000000000 / W) ≤ 1000000000
    ∧ W ≠ 0
    ∧ timeBetween 0 = none := by
  have hne : W ≠ 0 := by omega
  have htb : timeBetween W = some (1000000000 / W) := by
    simp only [timeBetween, hne, if_false, timeSecond, Int.one_mul]
    rw [Int.tdiv_eq_ediv (by norm_num) (by omega)]
  have hsum : ∀ (b : Int) (n i : Nat), totalSleep (kickOffLoop b n i) = n * b := by
    intro b n
    induction n with
    | zero => intro i; simp [kickOffLoop, totalSleep]
    | succ n ih =>
      intro i
      simp only [kickOffLoop, totalSleep, ih]
      push_cast
      ring
  refine ⟨htb, by simp [kickOff, htb], ?_, ?_, ?_, hne, by simp [timeBetween]⟩
  · rw [hsum, Int.toNat_of_nonneg (by omega)]
  · have h1 := Int.emod_add_ediv 1000000000 W
    have h2 := Int.emod_lt_of_pos 1000000000 (show (0 : Int) < W by omega)
    omega
  · have h1 := Int.emod_add_ediv 1000000000 W
    have h2 := Int.emod_nonneg 1000000000 hne
    omega

/-- Witness of C23: three workers are launched 333333333 ns apart. -/
theorem timeBetween_stagger_witness :
    timeBetween 3 = some (1000000000 / 3)
    ∧ kickOff 3 = some (kickOffLoop (1000000000 / 3) (3 : Int).toNat 0)
    ∧ totalSleep (kickOffLoop (1000000000 / 3) (3 : Int).toNat 0) = (3 : Int) * (1000000000 / 3)
    ∧ (1000000000 : Int) - 3 < 3 * (1000000000 / 3)
    ∧ (3 : Int) * (1000000000 / 3) ≤ 1000000000
    ∧ (3 : Int) ≠ 0
    ∧ timeBetween 0 = none :=
  timeBetween_stagger 3 (by norm_num)

theorem runFileLoop_inv {ρ : Type} (Load : Loader ρ) (usesRandom : String → Bool)
    (args : List String) (i : Nat)
    (hload : ∀ f ∈ args, ∀ l : ρ, ∃ fileScripts l' prepared,
      Load f l = (Except.ok (fileScripts, usesRandom f), l')
      ∧ Prepare fileScripts = Prepared.returned prepared none) :
    ∀ (fs : List String), (∀ f ∈ fs, f ∈ args) →
      ∀ (st : RunLoadState ρ) (acc : List Assigned),
      cacheFromFirstWorker usesRandom st.scriptCache →
      (i = 0 ∨ ∀ f ∈ fs, usesRandom f = false → cacheLookup st.scriptCache f ≠ none) →
      ∃ out st', runFileLoop Load i fs st acc = (Res.ok out, st')
        ∧ cacheFromFirstWorker usesRandom st'.scriptCache
        ∧ (∀ f l, cacheLookup st.scriptCache f = some l →
            cacheLookup st'.scriptCache f = some l)
        ∧ (∀ f ∈ fs, usesRandom f = false →
            ∃ l, cacheLookup st'.scriptCache f = some l ∧ ∀ a ∈ l, a ∈ out)
        ∧ (∀ a ∈ out, a ∈ acc ∨ (assignedFor usesRandom args i a
            ∧ (usesRandom a.file = false →
                ∃ l, cacheLookup st'.scriptCache a.file = some l ∧ a ∈ l)))
        ∧ (∀ a ∈ acc, a ∈ out)
  | [], _, st, acc, hc, _ =>
    ⟨acc, st, rfl, hc, fun _ _ h => h, fun f hf => by simp at hf,
      fun a ha => Or.inl ha, fun _ ha => ha⟩
  | f :: fs, hfs, st, acc, hc, hi => by
    have hfargs : f ∈ args := hfs f (List.mem_cons_self _ _)
    have hfs' : ∀ g ∈ fs, g ∈ args := fun g hg => hfs g (List.mem_cons_of_mem _ hg)
    unfold runFileLoop
    cases hlook : cacheLookup st.scriptCache f with
    | some cached =>
      dsimp only
      have hi' : i = 0 ∨ ∀ g ∈ fs, usesRandom g = false →
          cacheLookup st.scriptCache g ≠ none := by
        rcases hi with h | h
        · exact Or.inl h
        · exact Or.inr (fun g hg => h g (List.mem_cons_of_mem _ hg))
      obtain ⟨out, st', hrun, hc', hmono, hcov, hout, hacc⟩ :=
        runFileLoop_inv Load usesRandom args i hload fs hfs' st (acc ++ cached) hc hi'
      obtain ⟨hnr, htag⟩ := hc f cached hlook
      refine ⟨out, st', hrun, hc', hmono, ?_, ?_, ?_⟩
      · intro g hg hgr
        rcases List.mem_cons.mp hg with h | h
        · subst h
          exact ⟨cached, hmono _ cached hlook,
            fun a ha => hacc a (List.mem_append_right _ ha)⟩
        · exact hcov g h hgr
      · intro a ha
        rcases hout a ha with h | h
        · rcases List.mem_append.mp h with h' | h'
          · exact Or.inl h'
          · obtain ⟨hfile, hworker⟩ := htag a h'
            refine Or.inr ⟨⟨by rw [hfile]; exact hfargs, ?_, fun _ => hworker⟩, ?_⟩
            · intro hr
              rw [hfile, hnr] at hr
              cases hr
            · intro _
              exact ⟨cached, by rw [hfile]; exact hmono _ cached hlook, h'⟩
        · exact Or.inr h
      · intro a ha
        exact hacc a (List.mem_append_left _ ha)
    | none =>
      dsimp only
      obtain ⟨fileScripts, l', prepared, hl, hp⟩ := hload f hfargs st.loader
      rw [hl]
      dsimp only
      rw [hp]
      dsimp only
      by_cases hr : usesRandom f = false
      · -- the file has no random content: it is compiled in the turn of worker 0 and cached
        have hi0 : i = 0 := by
          rcases hi with h | h
          · exact h
          · exact absurd hlook (h f (List.mem_cons_self _ _) hr)
        simp only [hr, if_true]
        have hc1 : cacheFromFirstWorker usesRandom
            ((f, prepared.map (fun script =>
              ({ script := script, file := f, worker := i } : Assigned))) :: st.scriptCache) := by
          intro g l hg
          simp only [cacheLookup] at hg
          split_ifs at hg with hfg
          · subst hfg
            simp only [Option.some.injEq] at hg
            subst hg
            refine ⟨hr, ?_⟩
            intro a ha
            simp only [List.mem_map] at ha
            obtain ⟨s, -, hs⟩ := ha
            subst hs
            exact ⟨rfl, hi0⟩
          · exact hc g l hg
        obtain ⟨out, st', hrun, hc', hmono, hcov, hout, hacc⟩ :=
          runFileLoop_inv Load usesRandom args i hload fs hfs'
            { loader := l',
              scriptCache := (f, prepared.map (fun script =>
                ({ script := script, file := f, worker := i } : Assigned))) :: st.scriptCache,
              scriptsForStats :=
                if i = 0 then st.scriptsForStats ++ fileScripts else st.scriptsForStats }
            (acc ++ prepared.map (fun script =>
              ({ script := script, file := f, worker := i } : Assigned)))
            hc1 (Or.inl hi0)
        have hself : cacheLookup
            ((f, prepared.map (fun script =>
              ({ script := script, file := f, worker := i } : Assigned))) :: st.scriptCache) f
            = some (prepared.map (fun script =>
              ({ script := script, file := f, worker := i } : Assigned))) := by
          simp [cacheLookup]
        refine ⟨out, st', hrun, hc', ?_, ?_, ?_, ?_⟩
        · intro g l hg
          apply hmono
          simp only [cacheLookup]
          split_ifs with hfg
          · subst hfg
            rw [hlook] at hg
            cases hg
          · exact hg
        · intro g hg hgr
          rcases List.mem_cons.mp hg with h | h
          · subst h
            exact ⟨_, hmono _ _ hself, fun a ha => hacc a (List.mem_append_right _ ha)⟩
          · exact hcov g h hgr
        · intro a ha
          rcases hout a ha with h | h
          · rcases List.mem_append.mp h with h' | h'
            · exact Or.inl h'
            · have ha' := h'
              simp only [List.mem_map] at ha'
              obtain ⟨s, -, hs⟩ := ha'
              have hfile : a.file = f := by rw [← hs]
              have hworker : a.worker = 0 := by rw [← hs]; exact hi0
              refine Or.inr ⟨⟨by rw [hfile]; exact hfargs, ?_, fun _ => hworker⟩, ?_⟩
              · intro hr'
                rw [hfile, hr] at hr'
                cases hr'
              · intro _
                exact ⟨_, by rw [hfile]; exact hmono _ _ hself, h'⟩
          · exact Or.inr h
        · intro a ha
          exact hacc a (List.mem_append_left _ ha)
      · -- the file has random content: it is compiled in this turn and not cached
        have hrt : usesRandom f = true := by
          cases h : usesRandom f
          · exact absurd h hr
          · rfl
        simp only [hrt, Bool.true_eq_false, if_false]
        have hi' : i = 0 ∨ ∀ g ∈ fs, usesRandom g = false →
            cacheLookup st.scriptCache g ≠ none := by
          rcases hi with h | h
          · exact Or.inl h
          · exact Or.inr (fun g hg => h g (List.mem_cons_of_mem _ hg))
        obtain ⟨out, st', hrun, hc', hmono, hcov, hout, hacc⟩ :=
          runFileLoop_inv Load usesRandom args i hload fs hfs'
            { loader := l', scriptCache := st.scriptCache,
              scriptsForStats :=
                if i = 0 then st.scriptsForStats ++ fileScripts else st.scriptsForStats }
            (acc ++ prepared.map (fun script =>
              ({ script := script, file := f, worker := i } : Assigned)))
            hc hi'
        refine ⟨out, st', hrun, hc', hmono, ?_, ?_, ?_⟩
        · intro g hg hgr
          rcases List.mem_cons.mp hg with h | h
          · subst h
            rw [hrt] at hgr
            cases hgr
          · exact hcov g h hgr
        · intro a ha
          rcases hout a ha with h | h
          · rcases List.mem_append.mp h with h' | h'
            · exact Or.inl h'
            · have ha' := h'
              simp only [List.mem_map] at ha'
              obtain ⟨s, -, hs⟩ := ha'
              have hfile : a.file = f := by rw [← hs]
              have hworker : a.worker = i := by rw [← hs]
              refine Or.inr ⟨⟨by rw [hfile]; exact hfargs, fun _ => hworker, ?_⟩, ?_⟩
              · intro hr'
                rw [hfile, hrt] at hr'
                cases hr'
              · intro hr'
                rw [hfile, hrt] at hr'
                cases hr'
          · exact Or.inr h
        · intro a ha
          exact hacc a (List.mem_append_left _ ha)

theorem runWorkerLoop_inv {ρ : Type} (Load : Loader ρ) (usesRandom : String → Bool)
    (args : List String)
    (hload : ∀ f ∈ args, ∀ l : ρ, ∃ fileScripts l' prepared,
      Load f l = (Except.ok (fileScripts, usesRandom f), l')
      ∧ Prepare fileScripts = Prepared.returned prepared none) :
    ∀ (n i : Nat) (st : RunLoadState ρ) (workerScripts : List (List Assigned)),
      cacheFromFirstWorker usesRandom st.scriptCache →
      (i = 0 ∨ ∀ f ∈ args, usesRandom f = false → cacheLookup st.scriptCache f ≠ none) →
      ∃ ws st', runWorkerLoop Load args n i st workerScripts = (Res.ok (workerScripts ++ ws), st')
        ∧ ws.length = n
        ∧ (∀ f l, cacheLookup st.scriptCache f = some l →
            cacheLookup st'.scriptCache f = some l)
        ∧ ∀ (k : Nat) (l : List Assigned), ws[k]? = some l →
            (∀ a ∈ l, assignedFor usesRandom args (i + k) a
              ∧ (usesRandom a.file = false →
                  ∃ l', cacheLookup st'.scriptCache a.file = some l' ∧ a ∈ l'))
            ∧ (∀ f ∈ args, usesRandom f = false →
                ∃ l', cacheLookup st'.scriptCache f = some l' ∧ ∀ a ∈ l', a ∈ l)
  | 0, i, st, workerScripts, _, _ =>
    ⟨[], st, by simp [runWorkerLoop], rfl, fun _ _ h => h, fun k l hk => by simp at hk⟩
  | n + 1, i, st, workerScripts, hc, hi => by
    obtain ⟨out, st1, hrun, hc1, hmono1, hcov1, hout1, -⟩ :=
      runFileLoop_inv Load usesRandom args i hload args (fun _ h => h) st [] hc hi
    have hi1 : i + 1 = 0 ∨ ∀ f ∈ args, usesRandom f = false →
        cacheLookup st1.scriptCache f ≠ none := by
      refine Or.inr (fun f hf hr => ?_)
      obtain ⟨l, hl, -⟩ := hcov1 f hf hr
      rw [hl]
      simp
    obtain ⟨ws, st', hloop, hlen, hmono, hall⟩ :=
      runWorkerLoop_inv Load usesRandom args hload n (i + 1) st1 (workerScripts ++ [out]) hc1 hi1
    refine ⟨out :: ws, st', ?_, by simp [hlen], fun f l h => hmono f l (hmono1 f l h), ?_⟩
    · unfold runWorkerLoop
      rw [hrun]
      dsimp only
      rw [hloop]
      simp
    · intro k l hk
      cases k with
      | zero =>
        simp only [List.getElem?_cons_zero, Option.some.injEq] at hk
        subst hk
        refine ⟨?_, ?_⟩
        · intro a ha
          rcases hout1 a ha with h | ⟨hfor, hcache⟩
          · simp at h
          · refine ⟨hfor, fun hr => ?_⟩
            obtain ⟨l', hl', hal'⟩ := hcache hr
            exact ⟨l', hmono _ _ hl', hal'⟩
        · intro f hf hr
          obtain ⟨l', hl', hsub⟩ := hcov1 f hf hr
          exact ⟨l', hmono _ _ hl', hsub⟩
      | succ k =>
        simp only [List.getElem?_cons_succ] at hk
        have := hall k l hk
        rw [show i + 1 + k = i + (k + 1) by omega] at this
        exact this

/-- C24, on the code: with two workers and one file that uses no random content, `Prepare`
is called once, in the turn of worker 0, and the script it allocated is the one assigned
to worker 0 and to worker 1: the two workers hold the same compiled script. -/
theorem cached_scripts_shared :
    (loadWorkerScripts plainLoader 2 ["a.yaml"] ()).1
      = Res.ok [[{ script := goodCompiled, file := "a.yaml", worker := 0 }],
                [{ script := goodCompiled, file := "a.yaml", worker := 0 }]] :=
  rfl

/-- Which scripts the workers share: when every file loads and compiles, the loading part
of `runCmdFunc` assigns every worker a list of scripts of the files given; a script of a
file that uses random content was allocated by a `Prepare` call made in the turn of the
worker that holds it, so it is held by no other worker; a script of a file that uses no
random content was allocated in the turn of worker 0, whichever worker holds it, and
every such script that worker 0 holds is held by every worker. -/
theorem worker_scripts_sharing {ρ : Type} (Load : Loader ρ) (usesRandom : String → Bool)
    (args : List String) (qps : Int) (loader : ρ) (hq : 0 ≤ qps)
    (hload : ∀ f ∈ args, ∀ l : ρ, ∃ fileScripts l' prepared,
      Load f l = (Except.ok (fileScripts, usesRandom f), l')
      ∧ Prepare fileScripts = Prepared.returned prepared none) :
    ∃ ws st, loadWorkerScripts Load qps args loader = (Res.ok ws, st)
      ∧ ws.length = qps.toNat
      ∧ (∀ (j : Nat) (l : List Assigned) (a : Assigned), ws[j]? = some l → a ∈ l →
          a.file ∈ args ∧ (usesRandom a.file = true → a.worker = j)
          ∧ (usesRandom a.file = false → a.worker = 0))
      ∧ (∀ (j : Nat) (l₀ l : List Assigned) (a : Assigned),
          ws[0]? = some l₀ → ws[j]? = some l → a ∈ l₀ → usesRandom a.file = false → a ∈ l) := by
  obtain ⟨ws, st', hloop, hlen, -, hall⟩ :=
    runWorkerLoop_inv Load usesRandom args hload qps.toNat 0
      { loader := loader, scriptCache := [], scriptsForStats := [] } []
      (fun f l h => by simp [cacheLookup] at h) (Or.inl rfl)
  refine ⟨ws, st', ?_, hlen, ?_, ?_⟩
  · unfold loadWorkerScripts
    rw [if_neg (by omega), hloop, List.nil_append]
  · intro j l a hj ha
    have := ((hall j l hj).1 a ha).1
    rw [Nat.zero_add] at this
    exact this
  · intro j l₀ l a h0 hj ha hr
    obtain ⟨l', hl', hal'⟩ := ((hall 0 l₀ h0).1 a ha).2 hr
    have hfile : a.file ∈ args := ((hall 0 l₀ h0).1 a ha).1.1
    obtain ⟨l'', hl'', hsub⟩ := (hall j l hj).2 a.file hfile hr
    rw [hl'] at hl''
    simp only [Option.some.injEq] at hl''
    subst hl''
    exact hsub a hal'

/-- Two workers and one file without random content. -/
theorem worker_scripts_sharing_witness :
    ∃ ws st, loadWorkerScripts plainLoader 2 ["a.yaml"] () = (Res.ok ws, st)
      ∧ ws.length = (2 : Int).toNat
      ∧ (∀ (j : Nat) (l : List Assigned) (a : Assigned), ws[j]? = some l → a ∈ l →
          a.file ∈ ["a.yaml"] ∧ ((fun _ => false) a.file = true → a.worker = j)
          ∧ ((fun _ => false) a.file = false → a.worker = 0))
      ∧ (∀ (j : Nat) (l₀ l : List Assigned) (a : Assigned),
          ws[0]? = some l₀ → ws[j]? = some l → a ∈ l₀ → (fun _ => false) a.file = false →
          a ∈ l) :=
  worker_scripts_sharing plainLoader (fun _ => false) ["a.yaml"] 2 () (by decide)
    (fun _ _ _ => ⟨[goodScript], (), [goodCompiled], rfl, rfl⟩)

end Thumper
